import Mathlib

/-!
# User-level copy-on-write fork of JOS (`lib/fork.c`, `lib/pgfault.c`)

A shallow embedding of the user-space fork code: `pgfault`, `duppage`, `fork`,
`set_pgfault_handler` and `set_exception_handler` are state-passing functions over a
machine state that holds the page tables of every environment, the physical frames,
the kernel's environment table, the user-level globals of `lib/pgfault.c`, and a log of
the system calls issued so far.  The kernel side of the system calls is not part of the
sources; it is modelled from section 6 of the specification.

The stores that the compiled code of the parent makes to its own memory while `fork` runs
(pushes on its stack, its locals and globals) are not statements of the C source:
`fork_mem` is `fork` run together with an arbitrary schedule of such stores, where a store
to a page that is not mapped writable takes the page-fault path of section 4.4.
-/

namespace Jos

/-! ## Constants -/

/-- Modelled from the spec: page size of `inc/mmu.h` (one PTE per 4KiB page). -/
def PGSIZE : Nat := 4096
/-- Modelled from the spec: number of entries of one page table (`inc/mmu.h`). -/
def NPTENTRIES : Nat := 1024
/-- Modelled from the spec: number of page numbers of a 32-bit address space. -/
def NPAGENUM : Nat := 1048576
/-- Modelled from the spec: the present bit of `inc/mmu.h`. -/
def PTE_P : Nat := 0x001
/-- Modelled from the spec: the writable bit of `inc/mmu.h`. -/
def PTE_W : Nat := 0x002
/-- Modelled from the spec: the user-accessible bit of `inc/mmu.h`. -/
def PTE_U : Nat := 0x004
/-- Modelled from the spec: the bits left to software (`inc/mmu.h`). -/
def PTE_AVAIL : Nat := 0xE00
/-- Modelled from the spec: the fixed allowed-bits mask of the mapping calls. -/
def PTE_SYSCALL : Nat := PTE_AVAIL ||| PTE_P ||| PTE_W ||| PTE_U
/-- Modelled from the spec: the explicitly-shared bit (`inc/lib.h`). -/
def PTE_SHARE : Nat := 0x400
/-- The copy-on-write bit, `fork.c` line 8. -/
def PTE_COW : Nat := 0x800
/-- Modelled from the spec: the user/kernel boundary of `inc/memlayout.h`. -/
def UTOP : Nat := 0xEEC00000
/-- Modelled from the spec: top of the one-page exception stack (`inc/memlayout.h`). -/
def UXSTACKTOP : Nat := UTOP
/-- Modelled from the spec: the scratch address of the fault handler (`inc/memlayout.h`). -/
def PFTEMP : Nat := 0x7FF000
/-- Modelled from the spec: write bit of a page-fault error code (`inc/mmu.h`). -/
def FEC_WR : Nat := 0x2
/-- Modelled from the spec: protection-violation bit of a page-fault error code
(`inc/mmu.h`), set when the faulting page is present. -/
def FEC_PR : Nat := 0x1
/-- Modelled from the spec: user-mode bit of a page-fault error code (`inc/mmu.h`). -/
def FEC_U : Nat := 0x4
/-- Modelled from the spec: divide-error vector (`inc/trap.h`). -/
def T_DIVIDE : Nat := 0
/-- Modelled from the spec: page-fault vector (`inc/trap.h`). -/
def T_PGFLT : Nat := 14
/-- Modelled from the spec: size of the environment table (`inc/env.h`). -/
def NENV : Nat := 1024
/-- Modelled from the spec: status of an unused environment slot (`inc/env.h`). -/
def ENV_FREE : Nat := 0
/-- Modelled from the spec: status of a schedulable environment (`inc/env.h`). -/
def ENV_RUNNABLE : Nat := 2
/-- Modelled from the spec: status of a created, not yet schedulable environment. -/
def ENV_NOT_RUNNABLE : Nat := 4
/-- Modelled from the spec: error code for a bad environment (`inc/error.h`). -/
def E_BAD_ENV : Int := 2
/-- Modelled from the spec: error code for an invalid argument (`inc/error.h`). -/
def E_INVAL : Int := 3
/-- Modelled from the spec: error code for an exhausted environment table. -/
def E_NO_FREE_ENV : Int := 5

/-- Modelled from the spec: `PGNUM(la)` of `inc/mmu.h`, the page number of an address. -/
def PGNUM (la : Nat) : Nat := la / PGSIZE
/-- Modelled from the spec: `PDX(la)` of `inc/mmu.h`, the page-directory index. -/
def PDX (la : Nat) : Nat := (la / (PGSIZE * NPTENTRIES)) % 1024
/-- Modelled from the spec: `PGOFF(la)` of `inc/mmu.h`, the offset within the page. -/
def PGOFF (la : Nat) : Nat := la % PGSIZE
/-- Modelled from the spec: `ROUNDDOWN(a, n)` of `inc/types.h`. -/
def ROUNDDOWN (a n : Nat) : Nat := a - a % n
/-- Modelled from the spec: `ENVX(envid)` of `inc/env.h`, the slot of an identifier. -/
def ENVX (envid : Int) : Nat := (envid % (NENV : Int)).toNat

/-! ## Data model -/

/-- A present page-table entry: frame reference and the low twelve flag bits. -/
structure Mapping where
  frame : Nat
  flags : Nat
  present : flags &&& PTE_P = PTE_P
  bounded : flags < PGSIZE
  deriving DecidableEq

/-- Function pointers the code stores or hands to the kernel. -/
inductive FnPtr where
  | null
  | pgfault
  | pgfault_upcall
  | user (addr : Nat)
  deriving DecidableEq, Repr

/-- The system calls of `inc/lib.h` used by the fork code, with their arguments. -/
inductive Syscall where
  | page_alloc (envid : Int) (va perm : Nat)
  | page_map (srcenv : Int) (srcva : Nat) (dstenv : Int) (dstva perm : Nat)
  | page_unmap (envid : Int) (va : Nat)
  | env_set_pgfault_upcall (envid : Int) (func : FnPtr)
  | env_set_exception_upcall (envid : Int) (trapno : Nat) (func : FnPtr)
  | env_set_status (envid : Int) (status : Nat)
  | exofork
  | getenvid
  deriving DecidableEq, Repr

/-- One record of the kernel's environment table, readable by user code at `envs`. -/
structure Env where
  env_id : Int
  env_status : Nat
  env_upcall : Nat → FnPtr

/-- Fault frame handed to a handler (`struct UTrapframe`), fields the code reads. -/
structure UTrapframe where
  utf_fault_va : Nat
  utf_err : Nat

/-- Machine state.  Page tables and user globals are indexed by environment slot. -/
structure State where
  curenv : Nat
  envs : Nat → Env
  pgtab : Nat → Nat → Option Mapping
  mem : Nat → Nat → Nat
  nextFrame : Nat
  thisenv : Nat → Nat
  pass_times : Nat → Int
  exception_handler : Nat → Nat → FnPtr
  log : List Syscall

/-- Result of running user code: normal return, `panic`, or a hardware fault. -/
inductive Outcome (α : Type) where
  | ok (val : α) (s : State)
  | panicked (msg : String) (s : State)
  | faulted (va : Nat) (s : State)

/-- The state an outcome ends in. -/
def Outcome.state {α : Type} : Outcome α → State
  | .ok _ s => s
  | .panicked _ s => s
  | .faulted _ s => s

/-- Record a system call in the log. -/
def State.logCall (s : State) (c : Syscall) : State :=
  { s with log := s.log ++ [c] }

/-- Replace the page-table entry of page `pn` in environment slot `e`. -/
def State.setPte (s : State) (e pn : Nat) (m : Option Mapping) : State :=
  { s with pgtab := fun e' pn' => if e' = e ∧ pn' = pn then m else s.pgtab e' pn' }

/-- Replace the environment record of slot `e`. -/
def State.setEnv (s : State) (e : Nat) (r : Env) : State :=
  { s with envs := fun e' => if e' = e then r else s.envs e' }

/-- Every mapped frame has been handed out by the frame allocator, so that the next
frame it hands out is fresh. -/
def FramesAllocated (s : State) : Prop :=
  ∀ e pn m, s.pgtab e pn = some m → m.frame < s.nextFrame

/-- The entry the kernel writes: the frame with `perm | PTE_P` in the low twelve bits. -/
def mkMapping (frame perm : Nat) : Mapping where
  frame := frame
  flags := (perm ||| PTE_P) % PGSIZE
  present := by
    show (perm ||| 1) % PGSIZE &&& 1 = 1
    rw [Nat.and_one_is_mod, Nat.mod_mod_of_dvd _ (by decide : 2 ∣ PGSIZE)]
    simp
  bounded := Nat.mod_lt _ (by decide)

/-- Frame and flag bits of page `pn` in environment slot `e`, when it is mapped. -/
def pte (s : State) (e pn : Nat) : Option (Nat × Nat) :=
  (s.pgtab e pn).map (fun m => (m.frame, m.flags))

/-- Back page `pn` of slot `e` with the next free frame, zero-filled, under `perm`. -/
def State.allocFrame (s : State) (e pn perm : Nat) : State :=
  { s.setPte e pn (some (mkMapping s.nextFrame perm)) with
      mem := fun f o => if f = s.nextFrame then 0 else s.mem f o
      nextFrame := s.nextFrame + 1 }

/-! ## The address-space mirror -/

/-- Modelled from the spec: the read-only mirror `uvpt` of section 4.1, the current
environment's PTE for a page number, zero when the page is not present. -/
def uvpt (s : State) (pn : Nat) : Nat :=
  match s.pgtab s.curenv pn with
  | none => 0
  | some m => m.frame * PGSIZE + m.flags

/-- Whether one of the first `n` entries of page table `pdx` of the current environment
is present. -/
def tablePresent (s : State) (pdx : Nat) : Nat → Bool
  | 0 => false
  | n + 1 => (s.pgtab s.curenv (pdx * NPTENTRIES + n)).isSome || tablePresent s pdx n

/-- Modelled from the spec: the mirror `uvpd` of the page directory: an entry is present
when its page table holds a present entry. -/
def uvpd (s : State) (pdx : Nat) : Nat :=
  if tablePresent s pdx NPTENTRIES then PTE_P ||| PTE_W ||| PTE_U else 0

/-! ## Kernel calls (section 6 of the specification) -/

/-- Modelled from the spec: resolution of an environment identifier by the kernel calls;
zero names the caller, any other identifier must be that of a live slot. -/
def envid2env (s : State) (envid : Int) : Option Nat :=
  if envid = 0 then some s.curenv
  else if (s.envs (ENVX envid)).env_status ≠ ENV_FREE ∧ (s.envs (ENVX envid)).env_id = envid
  then some (ENVX envid) else none

/-- Modelled from the spec: allocate-page(env, vaddr, perm), which backs `va` with a fresh
zero frame under `perm` and fails if already mapped or perm invalid. -/
def sys_page_alloc (s : State) (envid : Int) (va perm : Nat) : Int × State :=
  let s := s.logCall (.page_alloc envid va perm)
  match envid2env s envid with
  | none => (-E_BAD_ENV, s)
  | some e =>
    if perm &&& PTE_SYSCALL ≠ perm then (-E_INVAL, s)
    else if (s.pgtab e (PGNUM va)).isSome then (-E_INVAL, s)
    else
      (0, s.allocFrame e (PGNUM va) perm)

/-- Modelled from the spec: map-page(srcEnv, srcVaddr, dstEnv, dstVaddr, perm), which maps
the frame backing `srcva` in `srcenv` at `dstva` in `dstenv` under `perm`; perm must be a
subset of the allowed-bits mask. -/
def sys_page_map (s : State) (srcenv : Int) (srcva : Nat) (dstenv : Int) (dstva perm : Nat) :
    Int × State :=
  let s := s.logCall (.page_map srcenv srcva dstenv dstva perm)
  match envid2env s srcenv, envid2env s dstenv with
  | some se, some de =>
    if perm &&& PTE_SYSCALL ≠ perm then (-E_INVAL, s)
    else
      match s.pgtab se (PGNUM srcva) with
      | none => (-E_INVAL, s)
      | some m => (0, s.setPte de (PGNUM dstva) (some (mkMapping m.frame perm)))
  | _, _ => (-E_BAD_ENV, s)

/-- Modelled from the spec: unmap-page(env, vaddr), which removes the mapping at `va`. -/
def sys_page_unmap (s : State) (envid : Int) (va : Nat) : Int × State :=
  let s := s.logCall (.page_unmap envid va)
  match envid2env s envid with
  | none => (-E_BAD_ENV, s)
  | some e => (0, s.setPte e (PGNUM va) none)

/-- Modelled from the spec: bind-fault-upcall(env, vector, trampoline), the effect shared
by the two upcall calls. -/
def bindUpcall (s : State) (envid : Int) (vector : Nat) (func : FnPtr) : Int × State :=
  match envid2env s envid with
  | none => (-E_BAD_ENV, s)
  | some e =>
    (0, s.setEnv e { s.envs e with
          env_upcall := fun v => if v = vector then func else (s.envs e).env_upcall v })

/-- Modelled from the spec: bind-fault-upcall for the page-fault vector. -/
def sys_env_set_pgfault_upcall (s : State) (envid : Int) (func : FnPtr) : Int × State :=
  bindUpcall (s.logCall (.env_set_pgfault_upcall envid func)) envid T_PGFLT func

/-- Modelled from the spec: bind-fault-upcall for an arbitrary vector. -/
def sys_env_set_exception_upcall (s : State) (envid : Int) (trapno : Nat) (func : FnPtr) :
    Int × State :=
  bindUpcall (s.logCall (.env_set_exception_upcall envid trapno func)) envid trapno func

/-- Modelled from the spec: set-runnable(env), here with the status as argument. -/
def sys_env_set_status (s : State) (envid : Int) (status : Nat) : Int × State :=
  let s := s.logCall (.env_set_status envid status)
  match envid2env s envid with
  | none => (-E_BAD_ENV, s)
  | some e => (0, s.setEnv e { s.envs e with env_status := status })

/-- Modelled from the spec: current-environment-id(). -/
def sys_getenvid (s : State) : Int × State :=
  ((s.envs s.curenv).env_id, s.logCall .getenvid)

/-- Modelled from the spec: the identifier given to a slot that is reused: a positive
generation number above the slot bits, plus the slot. -/
def mkenvid (old : Int) (slot : Nat) : Int :=
  let g := (old + 4096) / 1024 * 1024
  (if g ≤ 0 ∨ 2147483648 ≤ g then 4096 else g) + (slot : Int)

/-- First free slot among the `n` slots starting at `i`. -/
def findFree (envs : Nat → Env) : Nat → Nat → Option Nat
  | 0, _ => none
  | n + 1, i => if (envs i).env_status = ENV_FREE then some i else findFree envs n (i + 1)

/-- Modelled from the spec: create-child-environment, as seen by the parent: a fresh
environment, not runnable, with an empty address space and no upcall, or an error when
no slot is free. -/
def sys_exofork (s : State) : Int × State :=
  let s := s.logCall .exofork
  match findFree s.envs NENV 0 with
  | none => (-E_NO_FREE_ENV, s)
  | some slot =>
    let id := mkenvid (s.envs slot).env_id slot
    (id, { s.setEnv slot ⟨id, ENV_NOT_RUNNABLE, fun _ => FnPtr.null⟩ with
             pgtab := fun e pn => if e = slot then none else s.pgtab e pn })

/-- Physical memory after `n` bytes moved from offset `so` of frame `sf` to offset
`doff` of frame `df`. -/
def copyBytes (mem : Nat → Nat → Nat) (df doff sf so n : Nat) : Nat → Nat → Nat :=
  fun f o => if f = df ∧ doff ≤ o ∧ o < doff + n then mem sf (so + (o - doff)) else mem f o

/-- Modelled from the spec: `memcpy` of `lib/string.c` for a copy that stays within one
page on either side: the bytes move between the frames backing the two addresses in the
current address space; `none` when a page is unmapped or the destination is read-only. -/
def memcpy (s : State) (dst src n : Nat) : Option State :=
  match s.pgtab s.curenv (PGNUM dst), s.pgtab s.curenv (PGNUM src) with
  | some d, some m =>
    if d.flags &&& PTE_W ≠ 0 ∧ PGOFF dst + n ≤ PGSIZE ∧ PGOFF src + n ≤ PGSIZE then
      some { s with mem := copyBytes s.mem d.frame (PGOFF dst) m.frame (PGOFF src) n }
    else none
  | _, _ => none

/-- Modelled from the spec: a one-byte store by user code of the current environment;
`none` (a page fault) unless the page is mapped writable. -/
def userWrite (s : State) (va val : Nat) : Option State :=
  match s.pgtab s.curenv (PGNUM va) with
  | some m =>
    if m.flags &&& PTE_W ≠ 0 then
      some { s with mem := fun f o => if f = m.frame ∧ o = PGOFF va then val else s.mem f o }
    else none
  | none => none

/-- Modelled from the spec: a one-byte load by user code of the current environment. -/
def userRead (s : State) (va : Nat) : Option Nat :=
  (s.pgtab s.curenv (PGNUM va)).map (fun m => s.mem m.frame (PGOFF va))

/-! ## `lib/fork.c` -/

/-- The page-fault handler `pgfault`, `fork.c` lines 14-51. -/
def pgfault (utf : UTrapframe) (s : State) : Outcome Unit :=
  let addr := utf.utf_fault_va
  let err := utf.utf_err
  if err &&& FEC_WR = 0 then
    .panicked "pgfault: not a write access" s
  else if uvpt s (PGNUM addr) &&& PTE_COW = 0 then
    .panicked "pgfault: not a copy-on-write page" s
  else
    let r1 := sys_page_alloc s 0 PFTEMP (PTE_P ||| PTE_U ||| PTE_W)
    if r1.1 < 0 then
      .panicked "pgfault: error when allocating a new page" r1.2
    else
      let base := ROUNDDOWN addr PGSIZE
      match memcpy r1.2 PFTEMP base PGSIZE with
      | none => .faulted base r1.2
      | some s2 =>
        let r2 := sys_page_map s2 0 PFTEMP 0 base (PTE_P ||| PTE_U ||| PTE_W)
        if r2.1 < 0 then
          .panicked "pgfault: error when moving the new page" r2.2
        else
          let r3 := sys_page_unmap r2.2 0 PFTEMP
          if r3.1 < 0 then
            .panicked "pgfault: error when unmapping the temporary page" r3.2
          else .ok () r3.2

/-- The duplication policy `duppage`, `fork.c` lines 64-100.  The address `pn * PGSIZE`
is computed in 32-bit unsigned arithmetic. -/
def duppage (envid : Int) (pn : Nat) (s : State) : Outcome Int :=
  let va := (pn * PGSIZE) % 2 ^ 32
  if uvpt s pn &&& PTE_SHARE ≠ 0 then
    let r := sys_page_map s 0 va envid va (uvpt s pn &&& PTE_SYSCALL)
    if r.1 < 0 then .panicked "duppage: env 0 -> env envid" r.2
    else .ok 0 r.2
  else if uvpt s pn &&& (PTE_W ||| PTE_COW) ≠ 0 then
    let r := sys_page_map s 0 va envid va (PTE_P ||| PTE_U ||| PTE_COW)
    if r.1 < 0 then .panicked "duppage: env 0 -> env envid" r.2
    else
      let r' := sys_page_map r.2 0 va 0 va (PTE_P ||| PTE_U ||| PTE_COW)
      if r'.1 < 0 then .panicked "duppage: env 0 -> env 0" r'.2
      else .ok 0 r'.2
  else
    let r := sys_page_map s 0 va envid va (uvpt s pn &&& PTE_SYSCALL)
    if r.1 < 0 then .panicked "duppage: env 0 -> env envid" r.2
    else .ok 0 r.2

/-! ## `lib/pgfault.c` -/

/-- Registration of the page-fault handler, `pgfault.c` lines 25-48. -/
def set_pgfault_handler (handler : FnPtr) (s : State) : Outcome Unit :=
  let store (s : State) : State :=
    { s with exception_handler := fun e v =>
        if e = s.curenv ∧ v = T_PGFLT then handler else s.exception_handler e v }
  if s.pass_times s.curenv = 0 then
    let s0 : State :=
      { s with pass_times := fun e => if e = s.curenv then 1 else s.pass_times e }
    let r1 := sys_page_alloc s0 0 (UXSTACKTOP - PGSIZE) (PTE_W ||| PTE_U ||| PTE_P)
    if r1.1 < 0 then
      .panicked "set_pgfault_handler: when allocating a page" r1.2
    else
      let r2 := sys_env_set_pgfault_upcall r1.2 0 FnPtr.pgfault_upcall
      if r2.1 < 0 then
        .panicked "set_pgfault_hanlder: when setting pagefault upcall" r2.2
      else .ok () (store r2.2)
  else .ok () (store s)

/-- Registration of a handler for any vector, `pgfault.c` lines 50-68.  The handler table
has 32 slots; the model is meant for `trapno < 32`. -/
def set_exception_handler (trapno : Nat) (handler : FnPtr) (s : State) : Outcome Unit :=
  let store (s : State) : State :=
    { s with exception_handler := fun e v =>
        if e = s.curenv ∧ v = trapno then handler else s.exception_handler e v }
  if s.pass_times s.curenv = 0 then
    let s0 : State :=
      { s with pass_times := fun e => if e = s.curenv then 1 else s.pass_times e }
    let r1 := sys_page_alloc s0 0 (UXSTACKTOP - PGSIZE) (PTE_W ||| PTE_U ||| PTE_P)
    if r1.1 < 0 then
      .panicked "set_exception_handler: when allocating a page" r1.2
    else
      let r2 := sys_env_set_exception_upcall r1.2 0 trapno FnPtr.pgfault_upcall
      if r2.1 < 0 then
        .panicked "set_exception_hanlder: when setting exception upcall" r2.2
      else .ok () (store r2.2)
  else .ok () (store s)

/-! ## `fork` -/

/-- Body of the loop of `fork`, `fork.c` lines 137-144, for the address `i`. -/
def forkStep (envid : Int) (i : Nat) (s : State) : Outcome Unit :=
  if i = UXSTACKTOP - PGSIZE then .ok () s
  else if uvpd s (PDX i) &&& PTE_P ≠ 0 ∧ uvpt s (PGNUM i) &&& PTE_P ≠ 0
      ∧ uvpt s (PGNUM i) &&& PTE_U ≠ 0 then
    match duppage envid (PGNUM i) s with
    | .ok _ s1 => .ok () s1
    | .panicked msg s1 => .panicked msg s1
    | .faulted va s1 => .faulted va s1
  else .ok () s

/-- The loop `for (i = 0; i < UTOP; i += PGSIZE)` of `fork`, `fork.c` lines 136-145,
entered with the loop variable equal to `i`. -/
def forkLoop (envid : Int) (i : Nat) (s : State) : Outcome Unit :=
  if i < UTOP then
    match forkStep envid i s with
    | .ok _ s1 => forkLoop envid (i + PGSIZE) s1
    | .panicked msg s1 => .panicked msg s1
    | .faulted va s1 => .faulted va s1
  else .ok () s
termination_by UTOP - i
decreasing_by
  simp only [PGSIZE]
  omega

/-- The page numbers `pn` of the calls `duppage(envid, pn)` that the loop of `fork` makes
when entered with the loop variable equal to `i`, in the order of the calls
(`fork.c` lines 136-145, with the guard of lines 138-143). -/
def dupVisits (envid : Int) (i : Nat) (s : State) : List Nat :=
  if i < UTOP then
    (if i ≠ UXSTACKTOP - PGSIZE ∧ uvpd s (PDX i) &&& PTE_P ≠ 0
        ∧ uvpt s (PGNUM i) &&& PTE_P ≠ 0 ∧ uvpt s (PGNUM i) &&& PTE_U ≠ 0
     then [PGNUM i] else []) ++
    (match forkStep envid i s with
     | .ok _ s1 => dupVisits envid (i + PGSIZE) s1
     | .panicked _ _ => []
     | .faulted _ _ => [])
  else []
termination_by UTOP - i
decreasing_by
  simp only [PGSIZE]
  omega

/-- What `fork` does with the value `envid` that `sys_exofork` yields, `fork.c` lines
127-159.  The parent continuation runs it with the kernel's answer, the child
continuation with zero. -/
def fork_cont (envid : Int) (s : State) : Outcome Int :=
  if envid < 0 then .ok envid s
  else if envid = 0 then
    let r := sys_getenvid s
    .ok 0 { r.2 with thisenv := fun e => if e = r.2.curenv then ENVX r.1 else r.2.thisenv e }
  else
    match forkLoop envid 0 s with
    | .panicked msg s1 => .panicked msg s1
    | .faulted va s1 => .faulted va s1
    | .ok _ s1 =>
      let r1 := sys_page_alloc s1 envid (UXSTACKTOP - PGSIZE) (PTE_P ||| PTE_U ||| PTE_W)
      if r1.1 < 0 then
        .panicked "fork: error when allocating user exception stack" r1.2
      else
        let r2 := sys_env_set_pgfault_upcall r1.2 envid
          ((r1.2.envs (r1.2.thisenv r1.2.curenv)).env_upcall T_PGFLT)
        if r2.1 < 0 then
          .panicked "fork: error when setting pgfault_upcall" r2.2
        else
          let r3 := sys_env_set_status r2.2 envid ENV_RUNNABLE
          if r3.1 < 0 then
            .panicked "fork: error when setting env runnable" r3.2
          else .ok envid r3.2

/-- The function `fork` as run by its caller, `fork.c` lines 118-160: registration of the
handler, creation of the child, then the parent continuation. -/
def fork (s : State) : Outcome Int :=
  match set_pgfault_handler FnPtr.pgfault s with
  | .panicked msg s1 => .panicked msg s1
  | .faulted va s1 => .faulted va s1
  | .ok _ s1 =>
    let r := sys_exofork s1
    fork_cont r.1 r.2

/-- The child continuation of `fork`: `sys_exofork` yields zero in the new environment. -/
def fork_child (s : State) : Outcome Int :=
  fork_cont 0 s

/-- Flag bits that are not both writable and copy-on-write. -/
def Exclusive (fl : Nat) : Prop :=
  fl &&& PTE_W = 0 ∨ fl &&& PTE_COW = 0

/-- Every entry of `s'` is an entry of `s` or has exclusive writable and COW bits: from `s`
to `s'` only such entries were installed. -/
def InstallsExclusive (s s' : State) : Prop :=
  ∀ e p m, s'.pgtab e p = some m → s.pgtab e p = some m ∨ Exclusive m.flags

/-- The flag bits of the page-table entry a kernel call asks the kernel to write:
`sys_page_alloc` and `sys_page_map` install an entry with `perm | PTE_P` in its low twelve
bits (section 6 of the specification); the other calls install no entry. -/
def Syscall.installs : Syscall → Option Nat
  | .page_alloc _ _ perm => some ((perm ||| PTE_P) % PGSIZE)
  | .page_map _ _ _ _ perm => some ((perm ||| PTE_P) % PGSIZE)
  | _ => none

/-- Every kernel call logged from `s` to `s'` that installs an entry installs one with
exclusive writable and COW bits, entries that are removed again before `s'` included. -/
def CallsExclusive (s s' : State) : Prop :=
  ∃ added, s'.log = s.log ++ added ∧
    ∀ c, c ∈ added → ∀ fl, c.installs = some fl → Exclusive fl

/-- The scheduler runs the environment in slot `e`. -/
def State.switchTo (s : State) (e : Nat) : State :=
  { s with curenv := e }

/-! ## The parent's own stores while `fork` runs -/

/-- Sequencing of user code: `x.bind f` continues with `f` after a normal return of `x`;
a panic or an unhandled fault of `x` ends the run. -/
def Outcome.bind {α β : Type} (x : Outcome α) (f : α → State → Outcome β) : Outcome β :=
  match x with
  | .ok a s => f a s
  | .panicked msg s => .panicked msg s
  | .faulted va s => .faulted va s

/-- Modelled from the spec: delivery of a write fault at `va` to the current environment
(sections 4.3, 4.4 and 6).  With the page-fault upcall bound to the trampoline and the
exception stack mapped writable, the trampoline invokes the handler registered for
`T_PGFLT` with the fault frame; otherwise the fault cannot be handled and the environment
is destroyed.  Of the handlers only `pgfault` is code of this model. -/
def deliverFault (va : Nat) (s : State) : Outcome Unit :=
  if (s.envs s.curenv).env_upcall T_PGFLT = FnPtr.pgfault_upcall
      ∧ uvpt s (PGNUM (UXSTACKTOP - PGSIZE)) &&& PTE_W ≠ 0
      ∧ s.exception_handler s.curenv T_PGFLT = FnPtr.pgfault then
    pgfault ⟨va, FEC_WR ||| FEC_U |||
      (if (s.pgtab s.curenv (PGNUM va)).isSome then FEC_PR else 0)⟩ s
  else .faulted va s

/-- Modelled from the spec: a one-byte store instruction of the current environment with
the fault path of section 4.4: a store to a page that is not mapped writable faults, and
when the handler returns the store is executed again. -/
def userStore (va val : Nat) (s : State) : Outcome Unit :=
  match userWrite s va val with
  | some s1 => .ok () s1
  | none =>
    (deliverFault va s).bind fun _ s1 =>
      match userWrite s1 va val with
      | some s2 => .ok () s2
      | none => .faulted va s1

/-- A sequence of stores `(va, val)`, in order. -/
def runStores : List (Nat × Nat) → State → Outcome Unit
  | [], s => .ok () s
  | w :: ws, s => (userStore w.1 w.2 s).bind fun _ s1 => runStores ws s1

/-- The points of `fork` (`fork.c` lines 118-160, with `set_pgfault_handler` and `duppage`)
at which the parent's compiled code stores to its own memory, that is, pushes arguments
and return addresses on its stack and writes its locals and globals: one point before
every kernel call, one at the head of every iteration of the loop, and one before the
return. -/
inductive Site where
  /-- From the call of `fork` to the allocation in `set_pgfault_handler` (`pgfault.c` 35). -/
  | entry
  /-- Before the binding of the upcall in `set_pgfault_handler` (`pgfault.c` 40). -/
  | reg_bind
  /-- From the return of `set_pgfault_handler` to `sys_exofork` (`fork.c` 126). -/
  | exofork
  /-- At the head of the loop body for the address `i` (`fork.c` 137). -/
  | loop (i : Nat)
  /-- In `duppage(envid, pn)`, before the map into the child (`fork.c` 71, 78, 91). -/
  | dup (pn : Nat)
  /-- In `duppage(envid, pn)`, between the two map calls of the second case (`fork.c` 84). -/
  | remap (pn : Nat)
  /-- After the loop, before the allocation of the child's exception stack (`fork.c` 149). -/
  | stack
  /-- Before the binding of the child's upcall (`fork.c` 153). -/
  | bind
  /-- Before the child is marked runnable (`fork.c` 156). -/
  | status
  /-- Before the return of `fork` (`fork.c` 159). -/
  | ret

/-- `set_pgfault_handler` (`pgfault.c` lines 25-48) with the caller's own stores: those of
`act .entry` up to the allocation of line 35, those of `act .reg_bind` between the two
kernel calls. -/
def set_pgfault_handler_mem (act : Site → List (Nat × Nat)) (handler : FnPtr) (s : State) :
    Outcome Unit :=
  (runStores (act .entry) s).bind fun _ s =>
    if s.pass_times s.curenv = 0 then
      let s0 : State :=
        { s with pass_times := fun e => if e = s.curenv then 1 else s.pass_times e }
      let r1 := sys_page_alloc s0 0 (UXSTACKTOP - PGSIZE) (PTE_W ||| PTE_U ||| PTE_P)
      if r1.1 < 0 then
        .panicked "set_pgfault_handler: when allocating a page" r1.2
      else
        (runStores (act .reg_bind) r1.2).bind fun _ s1 =>
          let r2 := sys_env_set_pgfault_upcall s1 0 FnPtr.pgfault_upcall
          if r2.1 < 0 then
            .panicked "set_pgfault_hanlder: when setting pagefault upcall" r2.2
          else
            .ok () { r2.2 with exception_handler := fun e v =>
              if e = r2.2.curenv ∧ v = T_PGFLT then handler else r2.2.exception_handler e v }
    else
      .ok () { s with exception_handler := fun e v =>
        if e = s.curenv ∧ v = T_PGFLT then handler else s.exception_handler e v }

/-- `duppage` (`fork.c` lines 64-100) with the caller's own stores: those of
`act (.dup pn)` before the page-table entry is read and the page mapped into the child,
those of `act (.remap pn)` between the two map calls of the second case. -/
def duppage_mem (act : Site → List (Nat × Nat)) (envid : Int) (pn : Nat) (s : State) :
    Outcome Int :=
  (runStores (act (.dup pn)) s).bind fun _ s =>
    let va := (pn * PGSIZE) % 2 ^ 32
    if uvpt s pn &&& PTE_SHARE ≠ 0 then
      let r := sys_page_map s 0 va envid va (uvpt s pn &&& PTE_SYSCALL)
      if r.1 < 0 then .panicked "duppage: env 0 -> env envid" r.2
      else .ok 0 r.2
    else if uvpt s pn &&& (PTE_W ||| PTE_COW) ≠ 0 then
      let r := sys_page_map s 0 va envid va (PTE_P ||| PTE_U ||| PTE_COW)
      if r.1 < 0 then .panicked "duppage: env 0 -> env envid" r.2
      else
        (runStores (act (.remap pn)) r.2).bind fun _ s1 =>
          let r' := sys_page_map s1 0 va 0 va (PTE_P ||| PTE_U ||| PTE_COW)
          if r'.1 < 0 then .panicked "duppage: env 0 -> env 0" r'.2
          else .ok 0 r'.2
    else
      let r := sys_page_map s 0 va envid va (uvpt s pn &&& PTE_SYSCALL)
      if r.1 < 0 then .panicked "duppage: env 0 -> env envid" r.2
      else .ok 0 r.2

/-- Body of the loop of `fork` (`fork.c` lines 137-144) for the address `i`, with the
parent's own stores of `act (.loop i)` at its head. -/
def forkStep_mem (act : Site → List (Nat × Nat)) (envid : Int) (i : Nat) (s : State) :
    Outcome Unit :=
  (runStores (act (.loop i)) s).bind fun _ s =>
    if i = UXSTACKTOP - PGSIZE then .ok () s
    else if uvpd s (PDX i) &&& PTE_P ≠ 0 ∧ uvpt s (PGNUM i) &&& PTE_P ≠ 0
        ∧ uvpt s (PGNUM i) &&& PTE_U ≠ 0 then
      (duppage_mem act envid (PGNUM i) s).bind fun _ s1 => .ok () s1
    else .ok () s

/-- The loop of `fork` (`fork.c` lines 136-145) with the parent's own stores, entered
with the loop variable equal to `i`. -/
def forkLoop_mem (act : Site → List (Nat × Nat)) (envid : Int) (i : Nat) (s : State) :
    Outcome Unit :=
  if i < UTOP then
    match forkStep_mem act envid i s with
    | .ok _ s1 => forkLoop_mem act envid (i + PGSIZE) s1
    | .panicked msg s1 => .panicked msg s1
    | .faulted va s1 => .faulted va s1
  else .ok () s
termination_by UTOP - i
decreasing_by
  simp only [PGSIZE]
  omega

/-- What `fork` does with the value `envid` of `sys_exofork` (`fork.c` lines 127-159), with
the parent's own stores before each of the three kernel calls that follow the loop and
before the return. -/
def fork_cont_mem (act : Site → List (Nat × Nat)) (envid : Int) (s : State) : Outcome Int :=
  if envid < 0 then .ok envid s
  else if envid = 0 then
    let r := sys_getenvid s
    .ok 0 { r.2 with thisenv := fun e => if e = r.2.curenv then ENVX r.1 else r.2.thisenv e }
  else
    (forkLoop_mem act envid 0 s).bind fun _ s1 =>
      (runStores (act .stack) s1).bind fun _ s2 =>
        let r1 := sys_page_alloc s2 envid (UXSTACKTOP - PGSIZE) (PTE_P ||| PTE_U ||| PTE_W)
        if r1.1 < 0 then
          .panicked "fork: error when allocating user exception stack" r1.2
        else
          (runStores (act .bind) r1.2).bind fun _ s3 =>
            let r2 := sys_env_set_pgfault_upcall s3 envid
              ((s3.envs (s3.thisenv s3.curenv)).env_upcall T_PGFLT)
            if r2.1 < 0 then
              .panicked "fork: error when setting pgfault_upcall" r2.2
            else
              (runStores (act .status) r2.2).bind fun _ s4 =>
                let r3 := sys_env_set_status s4 envid ENV_RUNNABLE
                if r3.1 < 0 then
                  .panicked "fork: error when setting env runnable" r3.2
                else
                  (runStores (act .ret) r3.2).bind fun _ s5 => .ok envid s5

/-- The function `fork` as run by the parent (`fork.c` lines 118-160) together with the
stores the parent's own code makes to memory while it runs: `act` gives the bytes stored
at each point, and a store to a page that is not writable takes the fault path of
`userStore`.  With no stores this is `fork`. -/
def fork_mem (act : Site → List (Nat × Nat)) (s : State) : Outcome Int :=
  (set_pgfault_handler_mem act FnPtr.pgfault s).bind fun _ s1 =>
    (runStores (act .exofork) s1).bind fun _ s2 =>
      fork_cont_mem act (sys_exofork s2).1 (sys_exofork s2).2

/-- The current environment can take a write fault: its page-fault upcall is bound to
the trampoline, its exception stack is mapped writable and `pgfault` is the registered
handler. -/
def FaultBound (s : State) : Prop :=
  (s.envs s.curenv).env_upcall T_PGFLT = FnPtr.pgfault_upcall
    ∧ uvpt s (PGNUM (UXSTACKTOP - PGSIZE)) &&& PTE_W ≠ 0
    ∧ s.exception_handler s.curenv T_PGFLT = FnPtr.pgfault

/-- What the parent's stores and the kernel calls of `fork` keep of the parent `A` and of
the frame of a page-table entry `m`, when the stores go to the pages `Wr`: the scratch
page stays unmapped, the frame of `m` stays allocated and keeps the contents it has in
`s0`, and every page in `Wr` stays mapped on another frame, writable or copy-on-write with
the fault path in place. -/
structure Kept (A : Nat) (m : Mapping) (Wr : Nat → Prop) (s0 s : State) : Prop where
  cur : s.curenv = A
  temp : s.pgtab A (PGNUM PFTEMP) = none
  frames : FramesAllocated s
  old : m.frame < s.nextFrame
  mem : ∀ o, s.mem m.frame o = s0.mem m.frame o
  wr : ∀ q, Wr q → ∃ mq, s.pgtab A q = some mq ∧ mq.frame ≠ m.frame ∧
    (mq.flags &&& PTE_W ≠ 0 ∨ (mq.flags &&& PTE_COW ≠ 0 ∧ FaultBound s))

/-- What a run of stores to the pages `Wr` leaves unchanged. -/
structure Stored (Wr : Nat → Prop) (s s' : State) : Prop where
  cur : s'.curenv = s.curenv
  envs : s'.envs = s.envs
  thisenv : s'.thisenv = s.thisenv
  pass : s'.pass_times = s.pass_times
  handler : s'.exception_handler = s.exception_handler
  other : ∀ e p, ¬ (e = s.curenv ∧ Wr p) → s'.pgtab e p = s.pgtab e p
  mapped : ∀ e p, (s'.pgtab e p).isSome = (s.pgtab e p).isSome
  writable : ∀ p mq, s.pgtab s.curenv p = some mq → mq.flags &&& PTE_W ≠ 0 →
    s'.pgtab s.curenv p = some mq

/-- The entry `duppage` leaves in parent and child for a writable or copy-on-write
private page on the frame of `m`. -/
def cowOf (m : Mapping) : Mapping :=
  mkMapping m.frame (PTE_P ||| PTE_U ||| PTE_COW)

/-- While the parent `A` runs `fork` with the child in slot `c`: what is kept of the
parent, the fault path, the child named by `envid`, the child's scratch page unmapped, and
the entries `pa` and `pc` of page `pn` in parent and child. -/
structure Dup (A c : Nat) (envid : Int) (m : Mapping) (Wr : Nat → Prop) (s0 : State)
    (pn : Nat) (pa : Mapping) (pc : Option Mapping) (s : State) : Prop where
  kept : Kept A m Wr s0 s
  bound : FaultBound s
  child : envid2env s envid = some c
  ctemp : s.pgtab c (PGNUM PFTEMP) = none
  pa : s.pgtab A pn = some pa
  pc : s.pgtab c pn = pc

/-! ## What the loop of `fork` leaves behind -/

/-- The entry `duppage` installs in the child for a parent entry `m`. -/
def dupChild (m : Mapping) : Mapping :=
  if m.flags &&& PTE_SHARE ≠ 0 then mkMapping m.frame (m.flags &&& PTE_SYSCALL)
  else if m.flags &&& (PTE_W ||| PTE_COW) ≠ 0 then mkMapping m.frame (PTE_P ||| PTE_U ||| PTE_COW)
  else mkMapping m.frame (m.flags &&& PTE_SYSCALL)

/-- The entry of the parent after `duppage` has run on its entry `m`. -/
def dupParent (m : Mapping) : Mapping :=
  if m.flags &&& PTE_SHARE ≠ 0 then m
  else if m.flags &&& (PTE_W ||| PTE_COW) ≠ 0 then mkMapping m.frame (PTE_P ||| PTE_U ||| PTE_COW)
  else m

/-- The system calls `duppage(envid, pn)` issues for a parent entry `m`. -/
def dupCalls (envid : Int) (pn : Nat) (m : Mapping) : List Syscall :=
  if m.flags &&& PTE_SHARE ≠ 0 then
    [.page_map 0 (pn * PGSIZE) envid (pn * PGSIZE) (m.flags &&& PTE_SYSCALL)]
  else if m.flags &&& (PTE_W ||| PTE_COW) ≠ 0 then
    [.page_map 0 (pn * PGSIZE) envid (pn * PGSIZE) (PTE_P ||| PTE_U ||| PTE_COW),
     .page_map 0 (pn * PGSIZE) 0 (pn * PGSIZE) (PTE_P ||| PTE_U ||| PTE_COW)]
  else [.page_map 0 (pn * PGSIZE) envid (pn * PGSIZE) (m.flags &&& PTE_SYSCALL)]

/-- The parent entry the loop of `fork` duplicates at page `pn`, if any: the page is not
the exception stack and is present and user-accessible. -/
def dupSource (s : State) (pn : Nat) : Option Mapping :=
  if pn = PGNUM (UXSTACKTOP - PGSIZE) then none
  else match s.pgtab s.curenv pn with
    | some m => if m.flags &&& PTE_U ≠ 0 then some m else none
    | none => none

/-- Page tables after the loop of `fork` has handled the pages below `k`, with the child
in slot `c`, in terms of the page tables `s` it started from. -/
def forkPgtab (s : State) (c k : Nat) : Nat → Nat → Option Mapping := fun e pn =>
  match (if pn < k then dupSource s pn else none) with
  | some m =>
    if e = c then some (dupChild m)
    else if e = s.curenv then some (dupParent m)
    else s.pgtab e pn
  | none => s.pgtab e pn

/-- The system calls the loop of `fork` issues for the pages below `k`, in order. -/
def loopCalls (s : State) (envid : Int) : Nat → List Syscall
  | 0 => []
  | k + 1 => loopCalls s envid k ++
      (match dupSource s k with
       | some m => dupCalls envid k m
       | none => [])

/-- The states agree on everything but page tables and log. -/
def SameBut (s s' : State) : Prop :=
  s'.curenv = s.curenv ∧ s'.envs = s.envs ∧ s'.mem = s.mem ∧ s'.nextFrame = s.nextFrame ∧
  s'.thisenv = s.thisenv ∧ s'.pass_times = s.pass_times ∧
  s'.exception_handler = s.exception_handler

/-! ## Registration calls -/

/-- A call of one of the two registration entry points of `lib/pgfault.c`. -/
inductive RegCall where
  | pgfault (handler : FnPtr)
  | exception (trapno : Nat) (handler : FnPtr)

/-- The vector whose slot a registration call writes. -/
def RegCall.vector : RegCall → Nat
  | .pgfault _ => T_PGFLT
  | .exception trapno _ => trapno

/-- The handler a registration call stores. -/
def RegCall.handler : RegCall → FnPtr
  | .pgfault h => h
  | .exception _ h => h

/-- The upcall-binding system call a registration call issues on first use. -/
def RegCall.bind : RegCall → Syscall
  | .pgfault _ => .env_set_pgfault_upcall 0 FnPtr.pgfault_upcall
  | .exception trapno _ => .env_set_exception_upcall 0 trapno FnPtr.pgfault_upcall

/-- Run a registration call. -/
def RegCall.run : RegCall → State → Outcome Unit
  | .pgfault h, s => set_pgfault_handler h s
  | .exception trapno h, s => set_exception_handler trapno h s

/-- Run a sequence of registration calls, stopping at the first that does not return. -/
def runRegs : List RegCall → State → Outcome Unit
  | [], s => .ok () s
  | c :: cs, s =>
    match c.run s with
    | .ok _ s1 => runRegs cs s1
    | other => other

/-- A process that has registered no handler yet: the guard of `lib/pgfault.c` is zero,
the handler table is empty and no exception stack is mapped. -/
def FreshProcess (s : State) : Prop :=
  s.pass_times s.curenv = 0 ∧ (∀ v, s.exception_handler s.curenv v = FnPtr.null) ∧
  s.pgtab s.curenv (PGNUM (UXSTACKTOP - PGSIZE)) = none

/-! ## Example states -/

/-- An environment table with the running environment in slot 0 and a created, not yet
runnable child in slot 1. -/
def demoEnvs : Nat → Env := fun i =>
  if i = 0 then ⟨4096, ENV_RUNNABLE, fun _ => FnPtr.null⟩
  else if i = 1 then ⟨4097, ENV_NOT_RUNNABLE, fun _ => FnPtr.null⟩
  else ⟨0, ENV_FREE, fun _ => FnPtr.null⟩

/-- Page table of slot 0: a writable page, a COW page, a shared writable page, a
read-only page, and a shared page marked both writable and COW; the other slots are
empty. -/
def demoPgtab : Nat → Nat → Option Mapping := fun e pn =>
  if e = 0 ∧ pn = 0x800 then some ⟨5, 0x007, by decide, by decide⟩
  else if e = 0 ∧ pn = 0x801 then some ⟨6, 0x805, by decide, by decide⟩
  else if e = 0 ∧ pn = 0x802 then some ⟨7, 0x407, by decide, by decide⟩
  else if e = 0 ∧ pn = 0x803 then some ⟨8, 0x005, by decide, by decide⟩
  else if e = 0 ∧ pn = 0x804 then some ⟨9, 0xC07, by decide, by decide⟩
  else none

/-- A parent (slot 0) with five pages, frame 5 filled with `0xAA`, and a child (slot 1)
with an empty address space. -/
def demoState : State where
  curenv := 0
  envs := demoEnvs
  pgtab := demoPgtab
  mem := fun f _ => if f = 5 then 0xAA else 0
  nextFrame := 16
  thisenv := fun _ => 0
  pass_times := fun _ => 0
  exception_handler := fun _ _ => FnPtr.null
  log := []

/-- The example state with every slot of the environment table in use. -/
def fullState : State :=
  { demoState with envs := fun i => ⟨4096 + (i : Int), ENV_RUNNABLE, fun _ => FnPtr.null⟩ }

/-- The example parent after it has registered `pgfault`: guard set, exception stack
mapped on frame 10, page-fault upcall bound. -/
def demoRegistered : State :=
  { demoState with
    envs := fun i =>
      if i = 0 then ⟨4096, ENV_RUNNABLE,
        fun v => if v = T_PGFLT then FnPtr.pgfault_upcall else FnPtr.null⟩
      else demoEnvs i
    pgtab := fun e pn =>
      if e = 0 ∧ pn = PGNUM (UXSTACKTOP - PGSIZE) then some ⟨10, 0x007, by decide, by decide⟩
      else demoPgtab e pn
    pass_times := fun e => if e = 0 then 1 else 0
    exception_handler := fun e v => if e = 0 ∧ v = T_PGFLT then FnPtr.pgfault else FnPtr.null }

/-- The example parent as `fork` finds it after its registration step. -/
def demoForkEntry : State :=
  { demoRegistered with
    exception_handler := fun e v =>
      if e = demoRegistered.curenv ∧ v = T_PGFLT then FnPtr.pgfault
      else demoRegistered.exception_handler e v }

/-- The example parent when the loop of `fork` is entered, the child created. -/
def demoForked : State :=
  (sys_exofork demoForkEntry).2

/-- The example parent with one page of its own stack, the page below `USTACKTOP`, mapped
writable on frame 11. -/
def demoStack : State :=
  { demoState with
    pgtab := fun e pn =>
      if e = 0 ∧ pn = 0xEEBFD then some ⟨11, 0x007, by decide, by decide⟩ else demoPgtab e pn }

/-- Stores of the example parent while it runs `fork`: at every point one push onto its
stack. -/
def demoPushes : Site → List (Nat × Nat) :=
  fun _ => [(0xEEBFDFFC, 0x2A)]

/-- Stores of the example parent while it runs `fork`: one push onto its stack after the
loop, before the allocation of `fork.c` line 149. -/
def demoPush : Site → List (Nat × Nat)
  | .stack => [(0xEEBFDFFC, 0x2A)]
  | _ => []

/-! # Theorems -/

/-! ## State projections -/

@[simp] theorem logCall_curenv (s : State) (c : Syscall) : (s.logCall c).curenv = s.curenv := rfl
@[simp] theorem logCall_envs (s : State) (c : Syscall) : (s.logCall c).envs = s.envs := rfl
@[simp] theorem logCall_pgtab (s : State) (c : Syscall) : (s.logCall c).pgtab = s.pgtab := rfl
@[simp] theorem logCall_mem (s : State) (c : Syscall) : (s.logCall c).mem = s.mem := rfl
@[simp] theorem logCall_nextFrame (s : State) (c : Syscall) :
    (s.logCall c).nextFrame = s.nextFrame := rfl
@[simp] theorem logCall_thisenv (s : State) (c : Syscall) : (s.logCall c).thisenv = s.thisenv := rfl
@[simp] theorem logCall_pass_times (s : State) (c : Syscall) :
    (s.logCall c).pass_times = s.pass_times := rfl
@[simp] theorem logCall_exception_handler (s : State) (c : Syscall) :
    (s.logCall c).exception_handler = s.exception_handler := rfl
@[simp] theorem logCall_log (s : State) (c : Syscall) : (s.logCall c).log = s.log ++ [c] := rfl

@[simp] theorem setPte_curenv (s : State) (e pn : Nat) (m : Option Mapping) :
    (s.setPte e pn m).curenv = s.curenv := rfl
@[simp] theorem setPte_envs (s : State) (e pn : Nat) (m : Option Mapping) :
    (s.setPte e pn m).envs = s.envs := rfl
@[simp] theorem setPte_mem (s : State) (e pn : Nat) (m : Option Mapping) :
    (s.setPte e pn m).mem = s.mem := rfl
@[simp] theorem setPte_nextFrame (s : State) (e pn : Nat) (m : Option Mapping) :
    (s.setPte e pn m).nextFrame = s.nextFrame := rfl
@[simp] theorem setPte_thisenv (s : State) (e pn : Nat) (m : Option Mapping) :
    (s.setPte e pn m).thisenv = s.thisenv := rfl
@[simp] theorem setPte_pass_times (s : State) (e pn : Nat) (m : Option Mapping) :
    (s.setPte e pn m).pass_times = s.pass_times := rfl
@[simp] theorem setPte_exception_handler (s : State) (e pn : Nat) (m : Option Mapping) :
    (s.setPte e pn m).exception_handler = s.exception_handler := rfl
@[simp] theorem setPte_log (s : State) (e pn : Nat) (m : Option Mapping) :
    (s.setPte e pn m).log = s.log := rfl
theorem setPte_pgtab (s : State) (e pn : Nat) (m : Option Mapping) (e' pn' : Nat) :
    (s.setPte e pn m).pgtab e' pn' = if e' = e ∧ pn' = pn then m else s.pgtab e' pn' := rfl

@[simp] theorem setEnv_curenv (s : State) (e : Nat) (r : Env) : (s.setEnv e r).curenv = s.curenv := rfl
@[simp] theorem setEnv_pgtab (s : State) (e : Nat) (r : Env) : (s.setEnv e r).pgtab = s.pgtab := rfl
@[simp] theorem setEnv_mem (s : State) (e : Nat) (r : Env) : (s.setEnv e r).mem = s.mem := rfl
@[simp] theorem setEnv_nextFrame (s : State) (e : Nat) (r : Env) :
    (s.setEnv e r).nextFrame = s.nextFrame := rfl
@[simp] theorem setEnv_thisenv (s : State) (e : Nat) (r : Env) :
    (s.setEnv e r).thisenv = s.thisenv := rfl
@[simp] theorem setEnv_pass_times (s : State) (e : Nat) (r : Env) :
    (s.setEnv e r).pass_times = s.pass_times := rfl
@[simp] theorem setEnv_exception_handler (s : State) (e : Nat) (r : Env) :
    (s.setEnv e r).exception_handler = s.exception_handler := rfl
@[simp] theorem setEnv_log (s : State) (e : Nat) (r : Env) : (s.setEnv e r).log = s.log := rfl
theorem setEnv_envs (s : State) (e : Nat) (r : Env) (e' : Nat) :
    (s.setEnv e r).envs e' = if e' = e then r else s.envs e' := rfl

@[simp] theorem envid2env_zero (s : State) : envid2env s 0 = some s.curenv := by
  simp [envid2env]
@[simp] theorem envid2env_logCall (s : State) (c : Syscall) (envid : Int) :
    envid2env (s.logCall c) envid = envid2env s envid := rfl
@[simp] theorem envid2env_setPte (s : State) (e pn : Nat) (m : Option Mapping) (envid : Int) :
    envid2env (s.setPte e pn m) envid = envid2env s envid := rfl

/-! ## Bit arithmetic of page-table entries -/

theorem pte_and_mask (f fl m : Nat) (hfl : fl < PGSIZE) (hm : m < PGSIZE) :
    (f * PGSIZE + fl) &&& m = fl &&& m := by
  apply Nat.eq_of_testBit_eq
  intro i
  rw [Nat.testBit_and, Nat.testBit_and]
  by_cases hi : i < 12
  · have h := Nat.testBit_mul_pow_two_add f (show fl < 2 ^ 12 from hfl) i
    rw [Nat.mul_comm] at h
    rw [show PGSIZE = 2 ^ 12 from rfl, h, if_pos hi]
  · have hm' : m.testBit i = false := by
      apply Nat.testBit_eq_false_of_lt
      calc m < 2 ^ 12 := hm
        _ ≤ 2 ^ i := Nat.pow_le_pow_right (by decide) (by omega)
    rw [hm', Bool.and_false, Bool.and_false]

theorem pte_div (f fl : Nat) (hfl : fl < PGSIZE) : (f * PGSIZE + fl) / PGSIZE = f := by
  simp only [PGSIZE] at *
  omega

theorem pgnum_va (pn : Nat) (h : pn < NPAGENUM) : PGNUM ((pn * PGSIZE) % 2 ^ 32) = pn := by
  simp only [PGNUM, PGSIZE, NPAGENUM] at *
  omega

theorem uvpt_some (s : State) (pn : Nat) (m : Mapping) (h : s.pgtab s.curenv pn = some m) :
    uvpt s pn = m.frame * PGSIZE + m.flags := by
  simp [uvpt, h]

theorem uvpt_none (s : State) (pn : Nat) (h : s.pgtab s.curenv pn = none) :
    uvpt s pn = 0 := by
  simp [uvpt, h]

theorem uvpt_and (s : State) (pn mask : Nat) (hm : mask < PGSIZE) :
    uvpt s pn &&& mask = match s.pgtab s.curenv pn with
      | none => 0
      | some m => m.flags &&& mask := by
  unfold uvpt
  cases h : s.pgtab s.curenv pn with
  | none => simp
  | some m => simp only []; exact pte_and_mask _ _ _ m.bounded hm

theorem or_eq_of_and_eq (a b : Nat) (h : a &&& b = b) : a ||| b = a := by
  apply Nat.eq_of_testBit_eq
  intro i
  have h' := congrArg (fun x => x.testBit i) h
  simp only [Nat.testBit_and, Nat.testBit_or] at *
  revert h'
  cases a.testBit i <;> cases b.testBit i <;> simp

theorem mkMapping_frame (f perm : Nat) : (mkMapping f perm).frame = f := rfl

theorem mkMapping_flags (f perm : Nat) (h : perm &&& PTE_P = PTE_P) (hb : perm < PGSIZE) :
    (mkMapping f perm).flags = perm := by
  show (perm ||| PTE_P) % PGSIZE = perm
  rw [or_eq_of_and_eq _ _ h, Nat.mod_eq_of_lt hb]

theorem and_lt_of_lt (a b n : Nat) (h : b < n) : a &&& b < n :=
  lt_of_le_of_lt Nat.and_le_right h

theorem flags_syscall_present (fl : Nat) (h : fl &&& PTE_P = PTE_P) :
    (fl &&& PTE_SYSCALL) &&& PTE_P = PTE_P := by
  rw [Nat.and_assoc, show PTE_SYSCALL &&& PTE_P = PTE_P from by decide, h]

theorem syscall_subset (x : Nat) : (x &&& PTE_SYSCALL) &&& PTE_SYSCALL = x &&& PTE_SYSCALL := by
  rw [Nat.and_assoc, Nat.and_self]

theorem sys_page_map_cases (s : State) (srcenv : Int) (srcva : Nat) (dstenv : Int)
    (dstva perm : Nat) :
    let c := Syscall.page_map srcenv srcva dstenv dstva perm
    let r := sys_page_map s srcenv srcva dstenv dstva perm
    (r.1 < 0 ∧ r.2 = s.logCall c) ∨
    (r.1 = 0 ∧ ∃ se de m, envid2env s srcenv = some se ∧ envid2env s dstenv = some de ∧
      perm &&& PTE_SYSCALL = perm ∧ s.pgtab se (PGNUM srcva) = some m ∧
      r.2 = (s.logCall c).setPte de (PGNUM dstva) (some (mkMapping m.frame perm))) := by
  intro c r
  simp only [r, c, sys_page_map, envid2env_logCall, logCall_pgtab]
  cases h1 : envid2env s srcenv with
  | none => left; simp [E_BAD_ENV]
  | some se =>
    cases h2 : envid2env s dstenv with
    | none => left; simp [E_BAD_ENV]
    | some de =>
      by_cases hp : perm &&& PTE_SYSCALL = perm
      · cases hm : s.pgtab se (PGNUM srcva) with
        | none => left; simp [hp, hm, E_INVAL]
        | some m => right; simp [hp, hm]
      · left; simp [hp, E_INVAL]

theorem uvpt_and_ne_zero (s : State) (pn mask : Nat) (hm : mask < PGSIZE)
    (h : uvpt s pn &&& mask ≠ 0) :
    ∃ m, s.pgtab s.curenv pn = some m ∧ uvpt s pn &&& mask = m.flags &&& mask := by
  rw [uvpt_and s pn mask hm] at h ⊢
  cases hm0 : s.pgtab s.curenv pn with
  | none => simp [hm0] at h
  | some m => exact ⟨m, rfl, rfl⟩

theorem va_of_pn (pn : Nat) (h : pn < NPAGENUM) : (pn * PGSIZE) % 2 ^ 32 = pn * PGSIZE := by
  simp only [PGSIZE, NPAGENUM] at *
  omega

theorem pgnum_mul (pn : Nat) : PGNUM (pn * PGSIZE) = pn := by
  simp [PGNUM, PGSIZE]

/-! ## `duppage` -/

theorem duppage_cow_eq (s : State) (envid : Int) (pn : Nat) (hpn : pn < NPAGENUM)
    (hshare : uvpt s pn &&& PTE_SHARE = 0)
    (hwc : uvpt s pn &&& (PTE_W ||| PTE_COW) ≠ 0) :
    duppage envid pn s =
      if (sys_page_map s 0 (pn * PGSIZE) envid (pn * PGSIZE)
          (PTE_P ||| PTE_U ||| PTE_COW)).1 < 0 then
        .panicked "duppage: env 0 -> env envid"
          (sys_page_map s 0 (pn * PGSIZE) envid (pn * PGSIZE) (PTE_P ||| PTE_U ||| PTE_COW)).2
      else if (sys_page_map (sys_page_map s 0 (pn * PGSIZE) envid (pn * PGSIZE)
          (PTE_P ||| PTE_U ||| PTE_COW)).2 0 (pn * PGSIZE) 0 (pn * PGSIZE)
          (PTE_P ||| PTE_U ||| PTE_COW)).1 < 0 then
        .panicked "duppage: env 0 -> env 0"
          (sys_page_map (sys_page_map s 0 (pn * PGSIZE) envid (pn * PGSIZE)
          (PTE_P ||| PTE_U ||| PTE_COW)).2 0 (pn * PGSIZE) 0 (pn * PGSIZE)
          (PTE_P ||| PTE_U ||| PTE_COW)).2
      else .ok 0 (sys_page_map (sys_page_map s 0 (pn * PGSIZE) envid (pn * PGSIZE)
          (PTE_P ||| PTE_U ||| PTE_COW)).2 0 (pn * PGSIZE) 0 (pn * PGSIZE)
          (PTE_P ||| PTE_U ||| PTE_COW)).2 := by
  unfold duppage
  rw [va_of_pn pn hpn]
  simp only [hshare]
  have h0 : ¬ ((0:Nat) ≠ 0) := by simp
  rw [if_neg h0, if_pos hwc]

/-- C1. In the writable-or-COW case `duppage` first maps the parent's frame into the child
at `pn * PGSIZE` with `PTE_P|PTE_U|PTE_COW` and then re-maps the parent's own page with the
same permissions; afterwards both entries name the parent's frame, are COW and are not
writable.  When the child's map call fails the page tables are as before. -/
theorem duppage_cow_case (s : State) (envid : Int) (pn : Nat) (hpn : pn < NPAGENUM)
    (hshare : uvpt s pn &&& PTE_SHARE = 0)
    (hwc : uvpt s pn &&& (PTE_W ||| PTE_COW) ≠ 0) :
    let va := pn * PGSIZE
    let perm := PTE_P ||| PTE_U ||| PTE_COW
    let r1 := sys_page_map s 0 va envid va perm
    let r2 := sys_page_map r1.2 0 va 0 va perm
    (0 ≤ r1.1 → 0 ≤ r2.1 →
      duppage envid pn s = .ok 0 r2.2 ∧
      r1.2.log = s.log ++ [.page_map 0 va envid va perm] ∧
      r2.2.log = s.log ++ [.page_map 0 va envid va perm, .page_map 0 va 0 va perm] ∧
      ∃ c f, envid2env s envid = some c ∧ (pte s s.curenv pn).map Prod.fst = some f ∧
        pte r1.2 c pn = some (f, perm) ∧
        (c ≠ s.curenv → pte r1.2 s.curenv pn = pte s s.curenv pn) ∧
        pte r2.2 c pn = some (f, perm) ∧
        pte r2.2 s.curenv pn = some (f, perm) ∧
        perm &&& PTE_W = 0 ∧ perm &&& PTE_COW = PTE_COW) ∧
    (r1.1 < 0 →
      (∃ msg, duppage envid pn s = .panicked msg r1.2) ∧ r1.2.pgtab = s.pgtab ∧
      r1.2.log = s.log ++ [.page_map 0 va envid va perm]) := by
  dsimp only
  rw [duppage_cow_eq s envid pn hpn hshare hwc]
  obtain ⟨m0, hm0, -⟩ := uvpt_and_ne_zero s pn _ (by decide) hwc
  have hva : PGNUM (pn * PGSIZE) = pn := pgnum_mul pn
  rcases sys_page_map_cases s 0 (pn * PGSIZE) envid (pn * PGSIZE) (PTE_P ||| PTE_U ||| PTE_COW)
    with ⟨hneg, hs⟩ | ⟨hz, se, de, m, h1, h2, -, hm, hs⟩
  · generalize sys_page_map s 0 (pn * PGSIZE) envid (pn * PGSIZE)
      (PTE_P ||| PTE_U ||| PTE_COW) = r1 at hneg hs ⊢
    refine ⟨fun h => absurd hneg (not_lt.mpr h), fun _ => ⟨⟨"duppage: env 0 -> env envid", ?_⟩, ?_, ?_⟩⟩
    · rw [if_pos hneg]
    · rw [hs]; rfl
    · rw [hs]; rfl
  · simp only [envid2env_zero, Option.some.injEq] at h1
    subst h1
    rw [hva, hm0] at hm
    cases hm
    rw [hva] at hs
    generalize sys_page_map s 0 (pn * PGSIZE) envid (pn * PGSIZE)
      (PTE_P ||| PTE_U ||| PTE_COW) = r1 at hz hs ⊢
    obtain ⟨r1a, r1s⟩ := r1
    dsimp only at hz hs ⊢
    subst hz
    subst hs
    refine ⟨fun _ h2' => ?_, fun h => absurd h (by decide)⟩
    rcases sys_page_map_cases
      ((s.logCall (.page_map 0 (pn * PGSIZE) envid (pn * PGSIZE)
        (PTE_P ||| PTE_U ||| PTE_COW))).setPte de pn (some (mkMapping m0.frame
        (PTE_P ||| PTE_U ||| PTE_COW)))) 0 (pn * PGSIZE) 0 (pn * PGSIZE)
        (PTE_P ||| PTE_U ||| PTE_COW)
      with ⟨hneg2, -⟩ | ⟨hz2, se2, de2, m2, h12, h22, -, hm2, hs2⟩
    · exact absurd hneg2 (not_lt.mpr h2')
    · simp only [envid2env_zero, Option.some.injEq, setPte_curenv, logCall_curenv] at h12 h22
      subst h12
      subst h22
      rw [hva] at hm2 hs2
      have hm2f : m2.frame = m0.frame := by
        rw [setPte_pgtab] at hm2
        by_cases hde : s.curenv = de
        · simp only [hde, true_and, if_true, Option.some.injEq, and_self] at hm2
          rw [← hm2]; rfl
        · simp only [hde, false_and, if_false, logCall_pgtab] at hm2
          rw [hm0] at hm2
          cases hm2; rfl
      generalize sys_page_map
        ((s.logCall (.page_map 0 (pn * PGSIZE) envid (pn * PGSIZE)
        (PTE_P ||| PTE_U ||| PTE_COW))).setPte de pn (some (mkMapping m0.frame
        (PTE_P ||| PTE_U ||| PTE_COW)))) 0 (pn * PGSIZE) 0 (pn * PGSIZE)
        (PTE_P ||| PTE_U ||| PTE_COW) = r2 at hz2 hs2 ⊢
      obtain ⟨r2a, r2s⟩ := r2
      dsimp only at hz2 hs2 ⊢
      subst hz2
      subst hs2
      have hf1 : ∀ f, (mkMapping f (PTE_P ||| PTE_U ||| PTE_COW)).flags
          = PTE_P ||| PTE_U ||| PTE_COW := fun _ => rfl
      refine ⟨rfl, by simp, by simp, de, m0.frame, h2, ?_, ?_, ?_, ?_, ?_, by decide, by decide⟩
      · simp [pte, hm0]
      · simp [pte, setPte_pgtab, hf1, mkMapping_frame]
      · intro hne
        simp [pte, setPte_pgtab, Ne.symm hne]
      · simp only [pte, setPte_pgtab, logCall_pgtab, setPte_curenv, logCall_curenv]
        by_cases hde : de = s.curenv
        · simp [hde, hm2f, mkMapping_frame, hf1]
        · simp [hde, mkMapping_frame, hf1]
      · simp [pte, setPte_pgtab, hm2f, mkMapping_frame, hf1]

theorem duppage_cow_case_witness :
    uvpt demoState 0x801 &&& PTE_SHARE = 0 ∧
    uvpt demoState 0x801 &&& (PTE_W ||| PTE_COW) ≠ 0 ∧
    pte (duppage 4097 0x801 demoState).state 1 0x801 = some (6, PTE_P ||| PTE_U ||| PTE_COW) ∧
    pte (duppage 4097 0x801 demoState).state 0 0x801 = some (6, PTE_P ||| PTE_U ||| PTE_COW) := by
  have h := (duppage_cow_case demoState 4097 0x801 (by decide) (by decide) (by decide)).1
    (by decide) (by decide)
  obtain ⟨hd, -, -, c, f, hc, hf, -, -, h1, h2, -⟩ := h
  have hc' : c = 1 := by
    have : envid2env demoState 4097 = some 1 := by decide
    rw [this] at hc
    exact (Option.some.inj hc).symm
  have hf' : f = 6 := by
    have : (pte demoState demoState.curenv 0x801).map Prod.fst = some 6 := by decide
    rw [this] at hf
    exact (Option.some.inj hf).symm
  subst hc'
  subst hf'
  rw [hd]
  exact ⟨by decide, by decide, h1, h2⟩


theorem duppage_keep_eq (s : State) (envid : Int) (pn : Nat) (hpn : pn < NPAGENUM)
    (hcase : uvpt s pn &&& PTE_SHARE ≠ 0 ∨ uvpt s pn &&& (PTE_W ||| PTE_COW) = 0) :
    duppage envid pn s =
      if (sys_page_map s 0 (pn * PGSIZE) envid (pn * PGSIZE)
          (uvpt s pn &&& PTE_SYSCALL)).1 < 0 then
        .panicked "duppage: env 0 -> env envid"
          (sys_page_map s 0 (pn * PGSIZE) envid (pn * PGSIZE) (uvpt s pn &&& PTE_SYSCALL)).2
      else .ok 0
          (sys_page_map s 0 (pn * PGSIZE) envid (pn * PGSIZE) (uvpt s pn &&& PTE_SYSCALL)).2 := by
  unfold duppage
  rw [va_of_pn pn hpn]
  by_cases hs : uvpt s pn &&& PTE_SHARE ≠ 0
  · rw [if_pos hs]
  · rw [if_neg hs]
    have hwc : ¬ (uvpt s pn &&& (PTE_W ||| PTE_COW) ≠ 0) := by
      rcases hcase with h | h
      · exact absurd h hs
      · simp [h]
    rw [if_neg hwc]

/-- C2. In the shared case and in the read-only case `duppage` issues exactly one map
call, which maps the parent's frame into the child at the same address under the
parent's PTE masked by `PTE_SYSCALL`; no other page-table entry changes, so the parent's
mapping is as before, and the child's writable and COW bits are those of the parent. -/
theorem duppage_keep_case (s : State) (envid : Int) (pn : Nat) (hpn : pn < NPAGENUM)
    (hcase : uvpt s pn &&& PTE_SHARE ≠ 0 ∨ uvpt s pn &&& (PTE_W ||| PTE_COW) = 0) :
    let va := pn * PGSIZE
    let perm := uvpt s pn &&& PTE_SYSCALL
    let r := sys_page_map s 0 va envid va perm
    r.2.log = s.log ++ [.page_map 0 va envid va perm] ∧
    (duppage envid pn s).state = r.2 ∧
    (0 ≤ r.1 →
      duppage envid pn s = .ok 0 r.2 ∧
      ∃ c f fl, envid2env s envid = some c ∧ pte s s.curenv pn = some (f, fl) ∧
        perm = fl &&& PTE_SYSCALL ∧
        pte r.2 c pn = some (f, fl &&& PTE_SYSCALL) ∧
        (∀ e pn', ¬ (e = c ∧ pn' = pn) → r.2.pgtab e pn' = s.pgtab e pn') ∧
        (c ≠ s.curenv → pte r.2 s.curenv pn = some (f, fl)) ∧
        (fl &&& PTE_SYSCALL) &&& PTE_W = fl &&& PTE_W ∧
        (fl &&& PTE_SYSCALL) &&& PTE_COW = fl &&& PTE_COW) ∧
    (r.1 < 0 → (∃ msg, duppage envid pn s = .panicked msg r.2) ∧ r.2.pgtab = s.pgtab) := by
  dsimp only
  rw [duppage_keep_eq s envid pn hpn hcase]
  have hva : PGNUM (pn * PGSIZE) = pn := pgnum_mul pn
  rcases sys_page_map_cases s 0 (pn * PGSIZE) envid (pn * PGSIZE) (uvpt s pn &&& PTE_SYSCALL)
    with ⟨hneg, hs⟩ | ⟨hz, se, de, m, h1, h2, -, hm, hs⟩
  · generalize sys_page_map s 0 (pn * PGSIZE) envid (pn * PGSIZE)
      (uvpt s pn &&& PTE_SYSCALL) = r at hneg hs ⊢
    refine ⟨by rw [hs]; rfl, by rw [if_pos hneg]; rfl, fun h => absurd hneg (not_lt.mpr h),
      fun _ => ⟨⟨"duppage: env 0 -> env envid", ?_⟩, ?_⟩⟩
    · rw [if_pos hneg]
    · rw [hs]; rfl
  · simp only [envid2env_zero, Option.some.injEq] at h1
    subst h1
    rw [hva] at hm hs
    have hu : uvpt s pn &&& PTE_SYSCALL = m.flags &&& PTE_SYSCALL := by
      rw [uvpt_and s pn _ (by decide), hm]
    rw [hu] at hz hs ⊢
    generalize sys_page_map s 0 (pn * PGSIZE) envid (pn * PGSIZE)
      (m.flags &&& PTE_SYSCALL) = r at hz hs ⊢
    obtain ⟨ra, rs⟩ := r
    dsimp only at hz hs ⊢
    subst hz
    subst hs
    have hfl : (mkMapping m.frame (m.flags &&& PTE_SYSCALL)).flags = m.flags &&& PTE_SYSCALL :=
      mkMapping_flags _ _ (flags_syscall_present _ m.present)
        (and_lt_of_lt _ _ _ (by decide))
    refine ⟨by simp, rfl, fun _ => ⟨rfl, de, m.frame, m.flags, h2, ?_, rfl, ?_, ?_, ?_, ?_, ?_⟩,
      fun h => absurd h (by decide)⟩
    · simp [pte, hm]
    · simp [pte, setPte_pgtab, hfl, mkMapping_frame]
    · intro e pn' hne
      simp [setPte_pgtab, hne]
    · intro hne
      simp [pte, setPte_pgtab, Ne.symm hne, hm]
    · rw [Nat.and_assoc]; rfl
    · rw [Nat.and_assoc]; rfl

theorem duppage_keep_case_witness :
    (uvpt demoState 0x802 &&& PTE_SHARE ≠ 0 ∨ uvpt demoState 0x802 &&& (PTE_W ||| PTE_COW) = 0) ∧
    duppage 4097 0x802 demoState =
      .ok 0 (sys_page_map demoState 0 0x802000 4097 0x802000 0x407).2 ∧
    pte (sys_page_map demoState 0 0x802000 4097 0x802000 0x407).2 1 0x802
      = some (7, PTE_P ||| PTE_U ||| PTE_W ||| PTE_SHARE) ∧
    pte (sys_page_map demoState 0 0x802000 4097 0x802000 0x407).2 0 0x802
      = some (7, PTE_P ||| PTE_U ||| PTE_W ||| PTE_SHARE) :=
  ⟨by decide,
   ((duppage_keep_case demoState 4097 0x802 (by decide) (by decide)).2.2.1 (by decide)).1,
   by decide, by decide⟩

/-! ## `pgfault` -/

@[simp]
theorem allocFrame_curenv (s : State) (e pn perm : Nat) :
    (s.allocFrame e pn perm).curenv = s.curenv := rfl
@[simp]
theorem allocFrame_envs (s : State) (e pn perm : Nat) :
    (s.allocFrame e pn perm).envs = s.envs := rfl
@[simp]
theorem allocFrame_thisenv (s : State) (e pn perm : Nat) :
    (s.allocFrame e pn perm).thisenv = s.thisenv := rfl
@[simp]
theorem allocFrame_pass_times (s : State) (e pn perm : Nat) :
    (s.allocFrame e pn perm).pass_times = s.pass_times := rfl
@[simp]
theorem allocFrame_exception_handler (s : State) (e pn perm : Nat) :
    (s.allocFrame e pn perm).exception_handler = s.exception_handler := rfl
@[simp]
theorem allocFrame_log (s : State) (e pn perm : Nat) :
    (s.allocFrame e pn perm).log = s.log := rfl
@[simp]
theorem allocFrame_nextFrame (s : State) (e pn perm : Nat) :
    (s.allocFrame e pn perm).nextFrame = s.nextFrame + 1 := rfl
theorem allocFrame_mem (s : State) (e pn perm f o : Nat) :
    (s.allocFrame e pn perm).mem f o = if f = s.nextFrame then 0 else s.mem f o := rfl
theorem allocFrame_pgtab (s : State) (e pn perm e' pn' : Nat) :
    (s.allocFrame e pn perm).pgtab e' pn' =
      if e' = e ∧ pn' = pn then some (mkMapping s.nextFrame perm) else s.pgtab e' pn' := rfl
@[simp]
theorem envid2env_allocFrame (s : State) (e pn perm : Nat) (envid : Int) :
    envid2env (s.allocFrame e pn perm) envid = envid2env s envid := rfl

theorem sys_page_alloc_cases (s : State) (envid : Int) (va perm : Nat) :
    ((sys_page_alloc s envid va perm).1 < 0 ∧
      (sys_page_alloc s envid va perm).2 = s.logCall (.page_alloc envid va perm)) ∨
    ((sys_page_alloc s envid va perm).1 = 0 ∧ ∃ e, envid2env s envid = some e ∧
      perm &&& PTE_SYSCALL = perm ∧ s.pgtab e (PGNUM va) = none ∧
      (sys_page_alloc s envid va perm).2 =
        (s.logCall (.page_alloc envid va perm)).allocFrame e (PGNUM va) perm) := by
  simp only [sys_page_alloc, envid2env_logCall, logCall_pgtab]
  cases h1 : envid2env s envid with
  | none => left; simp [E_BAD_ENV]
  | some e =>
    by_cases hp : perm &&& PTE_SYSCALL = perm
    · cases hm : s.pgtab e (PGNUM va) with
      | none => right; simp [hp, hm]
      | some m => left; simp [hp, hm, E_INVAL]
    · left; simp [hp, E_INVAL]

theorem sys_page_alloc_ok (s : State) (envid : Int) (va perm e : Nat)
    (he : envid2env s envid = some e) (hp : perm &&& PTE_SYSCALL = perm)
    (hm : s.pgtab e (PGNUM va) = none) :
    sys_page_alloc s envid va perm =
      (0, (s.logCall (.page_alloc envid va perm)).allocFrame e (PGNUM va) perm) := by
  simp [sys_page_alloc, he, hp, hm]

theorem sys_page_map_ok (s : State) (srcenv : Int) (srcva : Nat) (dstenv : Int)
    (dstva perm se de : Nat) (m : Mapping)
    (h1 : envid2env s srcenv = some se) (h2 : envid2env s dstenv = some de)
    (hp : perm &&& PTE_SYSCALL = perm) (hm : s.pgtab se (PGNUM srcva) = some m) :
    sys_page_map s srcenv srcva dstenv dstva perm =
      (0, (s.logCall (.page_map srcenv srcva dstenv dstva perm)).setPte de (PGNUM dstva)
        (some (mkMapping m.frame perm))) := by
  simp [sys_page_map, h1, h2, hp, hm]

theorem sys_page_unmap_ok (s : State) (envid : Int) (va e : Nat)
    (he : envid2env s envid = some e) :
    sys_page_unmap s envid va =
      (0, (s.logCall (.page_unmap envid va)).setPte e (PGNUM va) none) := by
  simp [sys_page_unmap, he]

theorem pgnum_rounddown (a : Nat) : PGNUM (ROUNDDOWN a PGSIZE) = PGNUM a := by
  simp only [PGNUM, ROUNDDOWN, PGSIZE]
  omega

theorem pgoff_rounddown (a : Nat) : PGOFF (ROUNDDOWN a PGSIZE) = 0 := by
  simp only [PGOFF, ROUNDDOWN, PGSIZE]
  omega

theorem pgfault_eq_of (utf : UTrapframe) (s s1 s2 s3 s4 : State)
    (hwr : utf.utf_err &&& FEC_WR ≠ 0)
    (hcow : uvpt s (PGNUM utf.utf_fault_va) &&& PTE_COW ≠ 0)
    (h1 : sys_page_alloc s 0 PFTEMP (PTE_P ||| PTE_U ||| PTE_W) = (0, s1))
    (h2 : memcpy s1 PFTEMP (ROUNDDOWN utf.utf_fault_va PGSIZE) PGSIZE = some s2)
    (h3 : sys_page_map s2 0 PFTEMP 0 (ROUNDDOWN utf.utf_fault_va PGSIZE)
      (PTE_P ||| PTE_U ||| PTE_W) = (0, s3))
    (h4 : sys_page_unmap s3 0 PFTEMP = (0, s4)) :
    pgfault utf s = .ok () s4 := by
  unfold pgfault
  rw [if_neg hwr, if_neg hcow]
  simp only [h1, h2, h3, h4]
  rfl


theorem memcpy_ok (s : State) (dst src n : Nat) (d m : Mapping)
    (hd : s.pgtab s.curenv (PGNUM dst) = some d) (hm : s.pgtab s.curenv (PGNUM src) = some m)
    (hw : d.flags &&& PTE_W ≠ 0) (h1 : PGOFF dst + n ≤ PGSIZE) (h2 : PGOFF src + n ≤ PGSIZE) :
    memcpy s dst src n =
      some { s with mem := copyBytes s.mem d.frame (PGOFF dst) m.frame (PGOFF src) n } := by
  simp [memcpy, hd, hm, hw, h1, h2]

theorem pgfault_run (s : State) (utf : UTrapframe)
    (hwr : utf.utf_err &&& FEC_WR ≠ 0)
    (hcow : uvpt s (PGNUM utf.utf_fault_va) &&& PTE_COW ≠ 0)
    (htemp : s.pgtab s.curenv (PGNUM PFTEMP) = none) :
    ∃ s' m0, pgfault utf s = .ok () s' ∧
      s.pgtab s.curenv (PGNUM utf.utf_fault_va) = some m0 ∧
      s'.log = s.log ++ [.page_alloc 0 PFTEMP (PTE_P ||| PTE_U ||| PTE_W),
        .page_map 0 PFTEMP 0 (ROUNDDOWN utf.utf_fault_va PGSIZE) (PTE_P ||| PTE_U ||| PTE_W),
        .page_unmap 0 PFTEMP] ∧
      pte s' s.curenv (PGNUM utf.utf_fault_va) = some (s.nextFrame, PTE_P ||| PTE_U ||| PTE_W) ∧
      s'.nextFrame = s.nextFrame + 1 ∧
      s'.mem = copyBytes (fun f o => if f = s.nextFrame then 0 else s.mem f o)
        s.nextFrame 0 m0.frame 0 PGSIZE ∧
      s'.pgtab s.curenv (PGNUM PFTEMP) = none ∧
      (∀ e pn, ¬ (e = s.curenv ∧ pn = PGNUM utf.utf_fault_va) → s'.pgtab e pn = s.pgtab e pn) ∧
      s'.curenv = s.curenv ∧ s'.envs = s.envs := by
  obtain ⟨m0, hm0, -⟩ := uvpt_and_ne_zero s _ _ (by decide) hcow
  have hne : PGNUM utf.utf_fault_va ≠ PGNUM PFTEMP := by
    intro h
    rw [h, htemp] at hm0
    cases hm0
  have hpermok : (PTE_P ||| PTE_U ||| PTE_W) &&& PTE_SYSCALL = PTE_P ||| PTE_U ||| PTE_W := by
    decide
  have hflags : ∀ f, (mkMapping f (PTE_P ||| PTE_U ||| PTE_W)).flags
      = PTE_P ||| PTE_U ||| PTE_W := fun _ => rfl
  have e1 := sys_page_alloc_ok s 0 PFTEMP (PTE_P ||| PTE_U ||| PTE_W) s.curenv
    (envid2env_zero s) hpermok htemp
  generalize hs1 : (s.logCall (.page_alloc 0 PFTEMP (PTE_P ||| PTE_U ||| PTE_W))).allocFrame
    s.curenv (PGNUM PFTEMP) (PTE_P ||| PTE_U ||| PTE_W) = s1 at e1
  have hc1 : s1.curenv = s.curenv := by rw [← hs1]; rfl
  have hd1 : s1.pgtab s1.curenv (PGNUM PFTEMP)
      = some (mkMapping s.nextFrame (PTE_P ||| PTE_U ||| PTE_W)) := by
    rw [← hs1]; simp [allocFrame_pgtab]
  have hsrc1 : s1.pgtab s1.curenv (PGNUM (ROUNDDOWN utf.utf_fault_va PGSIZE)) = some m0 := by
    rw [pgnum_rounddown, ← hs1]; simp [allocFrame_pgtab, hne, hm0]
  have e2 := memcpy_ok s1 PFTEMP (ROUNDDOWN utf.utf_fault_va PGSIZE) PGSIZE _ _ hd1 hsrc1
    (by rw [hflags]; decide) (by decide) (by rw [pgoff_rounddown]; decide)
  rw [pgoff_rounddown, show PGOFF PFTEMP = 0 from rfl, mkMapping_frame] at e2
  generalize hs2 : ({ s1 with mem := copyBytes s1.mem s.nextFrame 0 m0.frame 0 PGSIZE } : State)
    = s2 at e2
  have hc2 : s2.curenv = s.curenv := by rw [← hs2]; exact hc1
  have hd2 : s2.pgtab s2.curenv (PGNUM PFTEMP)
      = some (mkMapping s.nextFrame (PTE_P ||| PTE_U ||| PTE_W)) := by
    rw [← hs2]; exact hd1
  have e3 := sys_page_map_ok s2 0 PFTEMP 0 (ROUNDDOWN utf.utf_fault_va PGSIZE)
    (PTE_P ||| PTE_U ||| PTE_W) s2.curenv s2.curenv _ (envid2env_zero s2) (envid2env_zero s2)
    hpermok hd2
  rw [pgnum_rounddown, mkMapping_frame] at e3
  generalize hs3 : (s2.logCall (.page_map 0 PFTEMP 0 (ROUNDDOWN utf.utf_fault_va PGSIZE)
    (PTE_P ||| PTE_U ||| PTE_W))).setPte s2.curenv (PGNUM utf.utf_fault_va)
    (some (mkMapping s.nextFrame (PTE_P ||| PTE_U ||| PTE_W))) = s3 at e3
  have hc3 : s3.curenv = s.curenv := by rw [← hs3]; exact hc2
  have e4 := sys_page_unmap_ok s3 0 PFTEMP s3.curenv (envid2env_zero s3)
  refine ⟨_, m0, pgfault_eq_of utf s s1 s2 s3 _ hwr hcow e1 e2 e3 e4, hm0, ?_⟩
  rw [hc3]
  subst hs3
  rw [hc2]
  subst hs2
  rw [hc1]
  subst hs1
  refine ⟨by simp, ?_, rfl, rfl, ?_, ?_, rfl, rfl⟩
  · simp [pte, setPte_pgtab, hne, mkMapping_frame, hflags]
  · simp [setPte_pgtab]
  · intro e pn hn
    simp only [setPte_pgtab, logCall_pgtab, allocFrame_pgtab]
    by_cases h1 : e = s.curenv ∧ pn = PGNUM PFTEMP
    · rw [if_pos h1, h1.1, h1.2, htemp]
    · rw [if_neg h1, if_neg hn, if_neg h1]


/-- C3. A write fault on a COW page, with `PFTEMP` unmapped: `pgfault` returns, the page
is mapped `PTE_P|PTE_U|PTE_W` onto the frame the allocator handed out, which no entry named
before, the 4096 bytes of that frame are those of the old frame, every other frame and
every other page-table entry is as before, and `PFTEMP` is unmapped again. -/
theorem pgfault_cow_convergence (s : State) (utf : UTrapframe)
    (hwr : utf.utf_err &&& FEC_WR ≠ 0)
    (hcow : uvpt s (PGNUM utf.utf_fault_va) &&& PTE_COW ≠ 0)
    (htemp : s.pgtab s.curenv (PGNUM PFTEMP) = none)
    (hfresh : FramesAllocated s) :
    ∃ s' m0, pgfault utf s = .ok () s' ∧
      s.pgtab s.curenv (PGNUM utf.utf_fault_va) = some m0 ∧
      s'.log = s.log ++ [.page_alloc 0 PFTEMP (PTE_P ||| PTE_U ||| PTE_W),
        .page_map 0 PFTEMP 0 (ROUNDDOWN utf.utf_fault_va PGSIZE) (PTE_P ||| PTE_U ||| PTE_W),
        .page_unmap 0 PFTEMP] ∧
      pte s' s.curenv (PGNUM utf.utf_fault_va) = some (s.nextFrame, PTE_P ||| PTE_U ||| PTE_W) ∧
      (PTE_P ||| PTE_U ||| PTE_W) &&& PTE_W ≠ 0 ∧
      (PTE_P ||| PTE_U ||| PTE_W) &&& PTE_COW = 0 ∧
      (∀ e pn m, s.pgtab e pn = some m → m.frame ≠ s.nextFrame) ∧
      s'.nextFrame = s.nextFrame + 1 ∧
      (∀ o, o < PGSIZE → s'.mem s.nextFrame o = s.mem m0.frame o) ∧
      (∀ f o, f ≠ s.nextFrame → s'.mem f o = s.mem f o) ∧
      s'.pgtab s.curenv (PGNUM PFTEMP) = none ∧
      (∀ e pn, ¬ (e = s.curenv ∧ pn = PGNUM utf.utf_fault_va) → s'.pgtab e pn = s.pgtab e pn) ∧
      s'.curenv = s.curenv ∧ s'.envs = s.envs := by
  obtain ⟨s', m0, hrun, hm0, hlog, hpte, hnf, hmem, htmp, hoth, hcur, henvs⟩ :=
    pgfault_run s utf hwr hcow htemp
  have hm0f : m0.frame ≠ s.nextFrame := Nat.ne_of_lt (hfresh _ _ _ hm0)
  refine ⟨s', m0, hrun, hm0, hlog, hpte, by decide, by decide, ?_, hnf, ?_, ?_, htmp, hoth,
    hcur, henvs⟩
  · intro e pn m hm
    exact Nat.ne_of_lt (hfresh _ _ _ hm)
  · intro o ho
    rw [hmem]
    simp [copyBytes, ho, hm0f]
  · intro f o hf
    rw [hmem]
    simp [copyBytes, hf]

/-- C4. A fault frame without the write bit, or on a page whose PTE lacks `PTE_COW`, makes
`pgfault` panic in the very state it was entered in: no kernel call is logged and nothing
is allocated, mapped or unmapped.  When both checks pass and the allocation at `PFTEMP`
succeeds, the two later calls succeed as well and `pgfault` returns normally. -/
theorem pgfault_misuse (s : State) (utf : UTrapframe) :
    ((utf.utf_err &&& FEC_WR = 0 ∨ uvpt s (PGNUM utf.utf_fault_va) &&& PTE_COW = 0) →
      ∃ msg, pgfault utf s = .panicked msg s) ∧
    (utf.utf_err &&& FEC_WR ≠ 0 → uvpt s (PGNUM utf.utf_fault_va) &&& PTE_COW ≠ 0 →
      0 ≤ (sys_page_alloc s 0 PFTEMP (PTE_P ||| PTE_U ||| PTE_W)).1 →
      ∃ s', pgfault utf s = .ok () s' ∧
        s'.log = s.log ++ [.page_alloc 0 PFTEMP (PTE_P ||| PTE_U ||| PTE_W),
          .page_map 0 PFTEMP 0 (ROUNDDOWN utf.utf_fault_va PGSIZE) (PTE_P ||| PTE_U ||| PTE_W),
          .page_unmap 0 PFTEMP]) := by
  constructor
  · intro h
    unfold pgfault
    by_cases hwr : utf.utf_err &&& FEC_WR = 0
    · exact ⟨_, by rw [if_pos hwr]⟩
    · rcases h with h | h
      · exact absurd h hwr
      · exact ⟨_, by rw [if_neg hwr, if_pos h]⟩
  · intro hwr hcow hsucc
    rcases sys_page_alloc_cases s 0 PFTEMP (PTE_P ||| PTE_U ||| PTE_W) with ⟨hneg, -⟩ | ⟨-, e, he, -, hm, -⟩
    · exact absurd hneg (not_lt.mpr hsucc)
    · simp only [envid2env_zero, Option.some.injEq] at he
      subst he
      obtain ⟨s', m0, hrun, -, hlog, -⟩ := pgfault_run s utf hwr hcow hm
      exact ⟨s', hrun, hlog⟩

theorem pgfault_misuse_witness :
    (∃ msg, pgfault ⟨0x801123, 5⟩ demoState = .panicked msg demoState) ∧
    (∃ msg, pgfault ⟨0x800123, 7⟩ demoState = .panicked msg demoState) ∧
    (∃ s', pgfault ⟨0x801123, 7⟩ demoState = .ok () s' ∧ s'.log.length = 3) := by
  refine ⟨(pgfault_misuse demoState ⟨0x801123, 5⟩).1 (Or.inl (by decide)),
    (pgfault_misuse demoState ⟨0x800123, 7⟩).1 (Or.inr (by decide)), ?_⟩
  obtain ⟨s', h, hl⟩ := (pgfault_misuse demoState ⟨0x801123, 7⟩).2 (by decide) (by decide)
    (by decide)
  exact ⟨s', h, by rw [hl]; rfl⟩


theorem demoState_framesAllocated : FramesAllocated demoState := by
  intro e pn m h
  simp only [demoState, demoPgtab] at h
  split_ifs at h <;> (cases h; decide)

theorem pgfault_cow_convergence_witness :
    (7 : Nat) &&& FEC_WR ≠ 0 ∧ uvpt demoState (PGNUM 0x801123) &&& PTE_COW ≠ 0 ∧
    ∃ s', pgfault ⟨0x801123, 7⟩ demoState = .ok () s' ∧
      pte s' 0 0x801 = some (16, PTE_P ||| PTE_U ||| PTE_W) ∧
      s'.mem 16 10 = demoState.mem 6 10 ∧ s'.pgtab 0 (PGNUM PFTEMP) = none := by
  obtain ⟨s', m0, h, hm0, -, hp, -, -, -, -, hmem, -, ht, -⟩ :=
    pgfault_cow_convergence demoState ⟨0x801123, 7⟩ (by decide) (by decide) (by decide)
      demoState_framesAllocated
  have hm : demoState.pgtab demoState.curenv (PGNUM 0x801123)
      = some ⟨6, 0x805, by decide, by decide⟩ := by decide
  have h6 : m0.frame = 6 := by
    have := hm0.symm.trans hm
    rw [Option.some.injEq] at this
    rw [this]
  refine ⟨by decide, by decide, s', h, hp, ?_, ht⟩
  have := hmem 10 (by decide)
  rw [h6] at this
  exact this

/-! ## Handler registration -/

theorem bindUpcall_ok (s : State) (envid : Int) (vector : Nat) (func : FnPtr) (e : Nat)
    (he : envid2env s envid = some e) :
    bindUpcall s envid vector func =
      (0, s.setEnv e { s.envs e with
          env_upcall := fun v => if v = vector then func else (s.envs e).env_upcall v }) := by
  simp [bindUpcall, he]

theorem register_again (c : RegCall) (s : State) (h : s.pass_times s.curenv ≠ 0) :
    c.run s = .ok () { s with exception_handler := fun e v =>
      if e = s.curenv ∧ v = c.vector then c.handler else s.exception_handler e v } := by
  cases c with
  | pgfault hd =>
    simp only [RegCall.run, set_pgfault_handler, RegCall.vector, RegCall.handler]
    rw [if_neg h]
  | exception t hd =>
    simp only [RegCall.run, set_exception_handler, RegCall.vector, RegCall.handler]
    rw [if_neg h]

theorem register_first (c : RegCall) (s : State) (h0 : s.pass_times s.curenv = 0)
    (hm : s.pgtab s.curenv (PGNUM (UXSTACKTOP - PGSIZE)) = none) :
    ∃ s1, c.run s = .ok () s1 ∧
      s1.log = s.log ++ [.page_alloc 0 (UXSTACKTOP - PGSIZE) (PTE_W ||| PTE_U ||| PTE_P), c.bind] ∧
      s1.curenv = s.curenv ∧
      (∀ e, s1.pass_times e = if e = s.curenv then 1 else s.pass_times e) ∧
      (∀ e v, s1.exception_handler e v =
        if e = s.curenv ∧ v = c.vector then c.handler else s.exception_handler e v) ∧
      (∀ e pn, s1.pgtab e pn =
        if e = s.curenv ∧ pn = PGNUM (UXSTACKTOP - PGSIZE)
        then some (mkMapping s.nextFrame (PTE_W ||| PTE_U ||| PTE_P)) else s.pgtab e pn) ∧
      (∀ e, (s1.envs e).env_id = (s.envs e).env_id ∧
        (s1.envs e).env_status = (s.envs e).env_status) ∧
      (∀ e v, (s1.envs e).env_upcall v =
        if e = s.curenv ∧ v = c.vector then FnPtr.pgfault_upcall else (s.envs e).env_upcall v) ∧
      s1.nextFrame = s.nextFrame + 1 ∧
      (∀ f o, s1.mem f o = if f = s.nextFrame then 0 else s.mem f o) ∧
      s1.thisenv = s.thisenv := by
  have hperm : (PTE_W ||| PTE_U ||| PTE_P) &&& PTE_SYSCALL = PTE_W ||| PTE_U ||| PTE_P := by
    decide
  generalize hs0 : ({ s with pass_times := fun e => if e = s.curenv then 1 else s.pass_times e }
    : State) = s0
  have hc0 : s0.curenv = s.curenv := by rw [← hs0]
  have hm0 : s0.pgtab s0.curenv (PGNUM (UXSTACKTOP - PGSIZE)) = none := by rw [← hs0]; exact hm
  have e1 := sys_page_alloc_ok s0 0 (UXSTACKTOP - PGSIZE) (PTE_W ||| PTE_U ||| PTE_P) s0.curenv
    (envid2env_zero s0) hperm hm0
  generalize hs1 : (s0.logCall (.page_alloc 0 (UXSTACKTOP - PGSIZE)
    (PTE_W ||| PTE_U ||| PTE_P))).allocFrame s0.curenv (PGNUM (UXSTACKTOP - PGSIZE))
    (PTE_W ||| PTE_U ||| PTE_P) = s1 at e1
  have hc1 : s1.curenv = s.curenv := by rw [← hs1]; exact hc0
  cases c with
  | pgfault hd =>
    have e2 := bindUpcall_ok (s1.logCall (.env_set_pgfault_upcall 0 FnPtr.pgfault_upcall)) 0
      T_PGFLT FnPtr.pgfault_upcall s1.curenv (envid2env_zero _)
    refine ⟨{ ((s1.logCall (.env_set_pgfault_upcall 0 FnPtr.pgfault_upcall)).setEnv s1.curenv
      { s1.envs s1.curenv with env_upcall := fun v =>
          if v = T_PGFLT then FnPtr.pgfault_upcall else (s1.envs s1.curenv).env_upcall v }) with
      exception_handler := fun e v =>
        if e = s1.curenv ∧ v = T_PGFLT then hd else s1.exception_handler e v }, ?_, ?_⟩
    · simp only [RegCall.run, set_pgfault_handler]
      rw [if_pos h0, hs0]
      simp only [e1, sys_env_set_pgfault_upcall, e2]
      rfl
    · subst hs1
      subst hs0
      refine ⟨by simp [RegCall.bind], rfl, fun _ => rfl, fun _ _ => rfl, fun _ _ => rfl,
        ?_, ?_, rfl, fun _ _ => rfl, rfl⟩
      · intro e
        simp only [setEnv_envs, setEnv_curenv, logCall_curenv, allocFrame_curenv, logCall_envs,
          allocFrame_envs]
        by_cases he : e = s.curenv <;> simp [he]
      · intro e v
        simp only [setEnv_envs, setEnv_curenv, logCall_curenv, allocFrame_curenv, logCall_envs,
          allocFrame_envs, RegCall.vector]
        by_cases he : e = s.curenv <;> simp [he]
  | exception t hd =>
    have e2 := bindUpcall_ok (s1.logCall (.env_set_exception_upcall 0 t FnPtr.pgfault_upcall)) 0
      t FnPtr.pgfault_upcall s1.curenv (envid2env_zero _)
    refine ⟨{ ((s1.logCall (.env_set_exception_upcall 0 t FnPtr.pgfault_upcall)).setEnv s1.curenv
      { s1.envs s1.curenv with env_upcall := fun v =>
          if v = t then FnPtr.pgfault_upcall else (s1.envs s1.curenv).env_upcall v }) with
      exception_handler := fun e v =>
        if e = s1.curenv ∧ v = t then hd else s1.exception_handler e v }, ?_, ?_⟩
    · simp only [RegCall.run, set_exception_handler]
      rw [if_pos h0, hs0]
      simp only [e1, sys_env_set_exception_upcall, e2]
      rfl
    · subst hs1
      subst hs0
      refine ⟨by simp [RegCall.bind], rfl, fun _ => rfl, fun _ _ => rfl, fun _ _ => rfl,
        ?_, ?_, rfl, fun _ _ => rfl, rfl⟩
      · intro e
        simp only [setEnv_envs, setEnv_curenv, logCall_curenv, allocFrame_curenv, logCall_envs,
          allocFrame_envs]
        by_cases he : e = s.curenv <;> simp [he]
      · intro e v
        simp only [setEnv_envs, setEnv_curenv, logCall_curenv, allocFrame_curenv, logCall_envs,
          allocFrame_envs, RegCall.vector]
        by_cases he : e = s.curenv <;> simp [he]

theorem demoState_fresh : FreshProcess demoState :=
  ⟨rfl, fun _ => rfl, by decide⟩

/-- C6. Two consecutive registration calls in a fresh process, for any vectors below 32:
both return; the first allocates the exception-stack page and binds the upcall, which are
all the kernel calls of the two together; the second logs no kernel call and changes
nothing but the handler slot of its own vector. -/
theorem registration_idempotent (s : State) (c1 c2 : RegCall)
    (_hv1 : c1.vector < 32) (_hv2 : c2.vector < 32) (hfresh : FreshProcess s) :
    ∃ s1 s2, c1.run s = .ok () s1 ∧ c2.run s1 = .ok () s2 ∧
      s1.log = s.log ++
        [.page_alloc 0 (UXSTACKTOP - PGSIZE) (PTE_W ||| PTE_U ||| PTE_P), c1.bind] ∧
      s2.log = s1.log ∧
      (∀ e v, s2.exception_handler e v =
        if e = s.curenv ∧ v = c2.vector then c2.handler else s1.exception_handler e v) ∧
      s2.pgtab = s1.pgtab ∧ s2.envs = s1.envs ∧ s2.mem = s1.mem ∧
      s2.nextFrame = s1.nextFrame ∧ s2.pass_times = s1.pass_times ∧
      s2.thisenv = s1.thisenv ∧ s2.curenv = s1.curenv := by
  obtain ⟨s1, hrun1, hlog1, hcur1, hpt1, -⟩ := register_first c1 s hfresh.1 hfresh.2.2
  have hp1 : s1.pass_times s1.curenv ≠ 0 := by
    rw [hpt1, hcur1, if_pos rfl]
    decide
  refine ⟨s1, _, hrun1, register_again c2 s1 hp1, hlog1, rfl, ?_, rfl, rfl, rfl, rfl, rfl,
    rfl, rfl⟩
  intro e v
  rw [← hcur1]

theorem registration_idempotent_witness :
    ∃ s1 s2, set_exception_handler T_DIVIDE (FnPtr.user 1) demoState = .ok () s1 ∧
      set_pgfault_handler FnPtr.pgfault s1 = .ok () s2 ∧
      s2.log = [.page_alloc 0 (UXSTACKTOP - PGSIZE) (PTE_W ||| PTE_U ||| PTE_P),
        .env_set_exception_upcall 0 T_DIVIDE FnPtr.pgfault_upcall] := by
  obtain ⟨s1, s2, h1, h2, hl1, hl2, -⟩ :=
    registration_idempotent demoState (.exception T_DIVIDE (FnPtr.user 1))
      (.pgfault FnPtr.pgfault) (by decide) (by decide) demoState_fresh
  exact ⟨s1, s2, h1, h2, by rw [hl2, hl1]; rfl⟩

/-- C10. After `set_exception_handler(T_DIVIDE, handler)` in a fresh process (the call of
`user/dividezero.c`), the call `set_pgfault_handler(pgfault)` of `fork` returns with the
exception stack mapped and `pgfault` in the page-fault slot, but the kernel holds no
page-fault upcall for the environment: the only upcall bound is that of the divide
vector. -/
theorem fork_step1_upcall_unbound :
    ∃ s1 s2, set_exception_handler T_DIVIDE (FnPtr.user 1) demoState = .ok () s1 ∧
      set_pgfault_handler FnPtr.pgfault s1 = .ok () s2 ∧
      (s2.pgtab s2.curenv (PGNUM (UXSTACKTOP - PGSIZE))).isSome = true ∧
      s2.exception_handler s2.curenv T_PGFLT = FnPtr.pgfault ∧
      (s2.envs s2.curenv).env_upcall T_PGFLT = FnPtr.null ∧
      (s2.envs s2.curenv).env_upcall T_DIVIDE = FnPtr.pgfault_upcall ∧
      s2.log = [.page_alloc 0 (UXSTACKTOP - PGSIZE) (PTE_W ||| PTE_U ||| PTE_P),
        .env_set_exception_upcall 0 T_DIVIDE FnPtr.pgfault_upcall] := by
  obtain ⟨s1, hrun1, hlog1, hcur1, hpt1, hh1, hpg1, -, hup1, -⟩ :=
    register_first (.exception T_DIVIDE (FnPtr.user 1)) demoState demoState_fresh.1
      demoState_fresh.2.2
  have hp1 : s1.pass_times s1.curenv ≠ 0 := by
    rw [hpt1, hcur1, if_pos rfl]
    decide
  refine ⟨s1, _, hrun1, register_again (.pgfault FnPtr.pgfault) s1 hp1, ?_, ?_, ?_, ?_, ?_⟩
  · show (s1.pgtab s1.curenv (PGNUM (UXSTACKTOP - PGSIZE))).isSome = true
    rw [hpg1, hcur1, if_pos ⟨rfl, rfl⟩]
    rfl
  · show (if s1.curenv = s1.curenv ∧ T_PGFLT = T_PGFLT then FnPtr.pgfault
      else s1.exception_handler s1.curenv T_PGFLT) = FnPtr.pgfault
    rw [if_pos ⟨rfl, rfl⟩]
  · show (s1.envs s1.curenv).env_upcall T_PGFLT = FnPtr.null
    rw [hup1, hcur1]
    rfl
  · show (s1.envs s1.curenv).env_upcall T_DIVIDE = FnPtr.pgfault_upcall
    rw [hup1, hcur1]
    rfl
  · show s1.log = _
    rw [hlog1]
    rfl

/-! ## The loop of `fork` -/

theorem uvpt_and_of_mapped (s : State) (pn mask : Nat) (m : Mapping) (hmask : mask < PGSIZE)
    (hm : s.pgtab s.curenv pn = some m) : uvpt s pn &&& mask = m.flags &&& mask := by
  rw [uvpt_and s pn mask hmask, hm]

theorem sameBut_refl (s : State) : SameBut s s := ⟨rfl, rfl, rfl, rfl, rfl, rfl, rfl⟩

theorem sameBut_trans {s s1 s2 : State} (h1 : SameBut s s1) (h2 : SameBut s1 s2) :
    SameBut s s2 := by
  obtain ⟨a1, a2, a3, a4, a5, a6, a7⟩ := h1
  obtain ⟨b1, b2, b3, b4, b5, b6, b7⟩ := h2
  exact ⟨b1.trans a1, b2.trans a2, b3.trans a3, b4.trans a4, b5.trans a5, b6.trans a6,
    b7.trans a7⟩

theorem envid2env_of_sameBut {s s' : State} (h : SameBut s s') (envid : Int) :
    envid2env s' envid = envid2env s envid := by
  unfold envid2env
  rw [h.1, h.2.1]

theorem duppage_effect (s : State) (envid : Int) (pn c : Nat) (m : Mapping)
    (hpn : pn < NPAGENUM) (hc : envid2env s envid = some c) (hne : c ≠ s.curenv)
    (hm : s.pgtab s.curenv pn = some m) :
    ∃ s', duppage envid pn s = .ok 0 s' ∧ SameBut s s' ∧
      s'.log = s.log ++ dupCalls envid pn m ∧
      ∀ e p, s'.pgtab e p =
        if p = pn then
          (if e = c then some (dupChild m)
           else if e = s.curenv then some (dupParent m) else s.pgtab e p)
        else s.pgtab e p := by
  have hva : PGNUM (pn * PGSIZE) = pn := pgnum_mul pn
  have hsrc : s.pgtab s.curenv (PGNUM (pn * PGSIZE)) = some m := by rw [hva]; exact hm
  have hshare := uvpt_and_of_mapped s pn PTE_SHARE m (by decide) hm
  have hwc := uvpt_and_of_mapped s pn (PTE_W ||| PTE_COW) m (by decide) hm
  have hsys := uvpt_and_of_mapped s pn PTE_SYSCALL m (by decide) hm
  by_cases hcase : m.flags &&& PTE_SHARE ≠ 0 ∨ m.flags &&& (PTE_W ||| PTE_COW) = 0
  · have hcase' : uvpt s pn &&& PTE_SHARE ≠ 0 ∨ uvpt s pn &&& (PTE_W ||| PTE_COW) = 0 := by
      rw [hshare, hwc]; exact hcase
    have e1 := sys_page_map_ok s 0 (pn * PGSIZE) envid (pn * PGSIZE) (m.flags &&& PTE_SYSCALL)
      s.curenv c m (envid2env_zero s) hc (syscall_subset _) hsrc
    rw [hva] at e1
    refine ⟨(s.logCall (.page_map 0 (pn * PGSIZE) envid (pn * PGSIZE)
      (m.flags &&& PTE_SYSCALL))).setPte c pn
      (some (mkMapping m.frame (m.flags &&& PTE_SYSCALL))), ?_,
      ⟨rfl, rfl, rfl, rfl, rfl, rfl, rfl⟩, ?_, ?_⟩
    · rw [duppage_keep_eq s envid pn hpn hcase', hsys, e1]
      rfl
    · have hcalls : dupCalls envid pn m =
          [.page_map 0 (pn * PGSIZE) envid (pn * PGSIZE) (m.flags &&& PTE_SYSCALL)] := by
        unfold dupCalls
        rcases hcase with h | h
        · rw [if_pos h]
        · by_cases h' : m.flags &&& PTE_SHARE ≠ 0
          · rw [if_pos h']
          · rw [if_neg h', if_neg (by rw [h]; simp)]
      rw [hcalls]
      rfl
    · have hch : dupChild m = mkMapping m.frame (m.flags &&& PTE_SYSCALL) := by
        unfold dupChild
        rcases hcase with h | h
        · rw [if_pos h]
        · by_cases h' : m.flags &&& PTE_SHARE ≠ 0
          · rw [if_pos h']
          · rw [if_neg h', if_neg (by rw [h]; simp)]
      have hpa : dupParent m = m := by
        unfold dupParent
        rcases hcase with h | h
        · rw [if_pos h]
        · by_cases h' : m.flags &&& PTE_SHARE ≠ 0
          · rw [if_pos h']
          · rw [if_neg h', if_neg (by rw [h]; simp)]
      intro e p
      rw [hch, hpa]
      simp only [setPte_pgtab, logCall_pgtab]
      by_cases hp : p = pn
      · subst hp
        by_cases he : e = c
        · simp [he]
        · by_cases he' : e = s.curenv
          · simp [he, he', hm, hne.symm]
          · simp [he, he']
      · simp [hp]
  · have hs0 : m.flags &&& PTE_SHARE = 0 := by
      by_contra h
      exact hcase (Or.inl h)
    have hw0 : m.flags &&& (PTE_W ||| PTE_COW) ≠ 0 := fun h => hcase (Or.inr h)
    have hperm : (PTE_P ||| PTE_U ||| PTE_COW) &&& PTE_SYSCALL = PTE_P ||| PTE_U ||| PTE_COW := by
      decide
    have e1 := sys_page_map_ok s 0 (pn * PGSIZE) envid (pn * PGSIZE)
      (PTE_P ||| PTE_U ||| PTE_COW) s.curenv c m (envid2env_zero s) hc hperm hsrc
    rw [hva] at e1
    generalize hs1 : (s.logCall (.page_map 0 (pn * PGSIZE) envid (pn * PGSIZE)
      (PTE_P ||| PTE_U ||| PTE_COW))).setPte c pn
      (some (mkMapping m.frame (PTE_P ||| PTE_U ||| PTE_COW))) = s1 at e1
    have hc1 : s1.curenv = s.curenv := by rw [← hs1]; rfl
    have hsrc1 : s1.pgtab s1.curenv (PGNUM (pn * PGSIZE)) = some m := by
      rw [hva, ← hs1]
      simp [setPte_pgtab, hne.symm, hm]
    have e2 := sys_page_map_ok s1 0 (pn * PGSIZE) 0 (pn * PGSIZE)
      (PTE_P ||| PTE_U ||| PTE_COW) s1.curenv s1.curenv m (envid2env_zero s1)
      (envid2env_zero s1) hperm hsrc1
    rw [hva] at e2
    refine ⟨(s1.logCall (.page_map 0 (pn * PGSIZE) 0 (pn * PGSIZE)
      (PTE_P ||| PTE_U ||| PTE_COW))).setPte s1.curenv pn
      (some (mkMapping m.frame (PTE_P ||| PTE_U ||| PTE_COW))), ?_, ?_, ?_, ?_⟩
    · rw [duppage_cow_eq s envid pn hpn (by rw [hshare]; exact hs0) (by rw [hwc]; exact hw0),
        e1]
      simp only []
      rw [e2]
      rfl
    · rw [← hs1]
      exact ⟨rfl, rfl, rfl, rfl, rfl, rfl, rfl⟩
    · have hcalls : dupCalls envid pn m =
          [.page_map 0 (pn * PGSIZE) envid (pn * PGSIZE) (PTE_P ||| PTE_U ||| PTE_COW),
           .page_map 0 (pn * PGSIZE) 0 (pn * PGSIZE) (PTE_P ||| PTE_U ||| PTE_COW)] := by
        unfold dupCalls
        rw [if_neg (by rw [hs0]; simp), if_pos hw0]
      rw [hcalls, ← hs1]
      simp
    · have hch : dupChild m = mkMapping m.frame (PTE_P ||| PTE_U ||| PTE_COW) := by
        unfold dupChild
        rw [if_neg (by rw [hs0]; simp), if_pos hw0]
      have hpa : dupParent m = mkMapping m.frame (PTE_P ||| PTE_U ||| PTE_COW) := by
        unfold dupParent
        rw [if_neg (by rw [hs0]; simp), if_pos hw0]
      intro e p
      rw [hch, hpa, hc1, ← hs1]
      simp only [setPte_pgtab, logCall_pgtab]
      by_cases hp : p = pn
      · subst hp
        by_cases he : e = c
        · simp [he, hne]
        · by_cases he' : e = s.curenv
          · simp [he']
          · simp [he, he']
      · simp [hp]

theorem tablePresent_of (s : State) (pdx : Nat) :
    ∀ n j, j < n → (s.pgtab s.curenv (pdx * NPTENTRIES + j)).isSome = true →
      tablePresent s pdx n = true := by
  intro n
  induction n with
  | zero => intro j hj; omega
  | succ n ih =>
    intro j hj hsome
    unfold tablePresent
    by_cases hjn : j = n
    · subst hjn
      rw [hsome]
      rfl
    · rw [ih j (by omega) hsome]
      simp

theorem uvpd_of_mapped (s : State) (pn : Nat) (m : Mapping) (hpn : pn < NPAGENUM)
    (hm : s.pgtab s.curenv pn = some m) : uvpd s (PDX (pn * PGSIZE)) &&& PTE_P ≠ 0 := by
  have hpdx : PDX (pn * PGSIZE) = pn / 1024 := by
    simp only [PDX, PGSIZE, NPTENTRIES, NPAGENUM] at *
    omega
  have hsplit : pn / 1024 * NPTENTRIES + pn % 1024 = pn := by
    simp only [NPTENTRIES]
    omega
  have hpres : tablePresent s (pn / 1024) NPTENTRIES = true := by
    apply tablePresent_of s (pn / 1024) NPTENTRIES (pn % 1024)
    · simp only [NPTENTRIES]; omega
    · rw [hsplit, hm]; rfl
  rw [hpdx]
  unfold uvpd
  rw [if_pos hpres]
  decide

theorem uxstack_page : UXSTACKTOP - PGSIZE = PGNUM (UXSTACKTOP - PGSIZE) * PGSIZE := by
  decide

theorem forkStep_spec (s : State) (envid : Int) (c k : Nat) (hk : k < NPAGENUM)
    (hc : envid2env s envid = some c) (hne : c ≠ s.curenv) :
    ∃ s', forkStep envid (k * PGSIZE) s = .ok () s' ∧ SameBut s s' ∧
      s'.log = s.log ++ (match dupSource s k with
        | some m => dupCalls envid k m
        | none => []) ∧
      ∀ e p, s'.pgtab e p =
        if p = k then
          (match dupSource s k with
           | some m =>
             if e = c then some (dupChild m)
             else if e = s.curenv then some (dupParent m) else s.pgtab e p
           | none => s.pgtab e p)
        else s.pgtab e p := by
  have hskip : ∀ (hsrc : dupSource s k = none),
      (∃ s', Outcome.ok () s = .ok () s' ∧ SameBut s s' ∧
      s'.log = s.log ++ (match dupSource s k with
        | some m => dupCalls envid k m
        | none => []) ∧
      ∀ e p, s'.pgtab e p =
        if p = k then
          (match dupSource s k with
           | some m =>
             if e = c then some (dupChild m)
             else if e = s.curenv then some (dupParent m) else s.pgtab e p
           | none => s.pgtab e p)
        else s.pgtab e p) := by
    intro hsrc
    refine ⟨s, rfl, sameBut_refl s, ?_, ?_⟩
    · rw [hsrc]; simp
    · intro e p
      rw [hsrc]; simp
  unfold forkStep
  by_cases hux : k = PGNUM (UXSTACKTOP - PGSIZE)
  · have hi : k * PGSIZE = UXSTACKTOP - PGSIZE := by rw [hux]; exact uxstack_page.symm
    rw [if_pos hi]
    exact hskip (by unfold dupSource; rw [if_pos hux])
  · have hi : ¬ (k * PGSIZE = UXSTACKTOP - PGSIZE) := by
      intro h
      apply hux
      rw [← h, pgnum_mul]
    rw [if_neg hi, pgnum_mul]
    cases hm : s.pgtab s.curenv k with
    | none =>
      have hg : ¬ (uvpd s (PDX (k * PGSIZE)) &&& PTE_P ≠ 0 ∧ uvpt s k &&& PTE_P ≠ 0
          ∧ uvpt s k &&& PTE_U ≠ 0) := by
        rw [uvpt_none s k hm]
        simp
      rw [if_neg hg]
      exact hskip (by unfold dupSource; rw [if_neg hux, hm])
    | some m =>
      have hP := uvpt_and_of_mapped s k PTE_P m (by decide) hm
      have hU := uvpt_and_of_mapped s k PTE_U m (by decide) hm
      by_cases hu : m.flags &&& PTE_U ≠ 0
      · have hg : uvpd s (PDX (k * PGSIZE)) &&& PTE_P ≠ 0 ∧ uvpt s k &&& PTE_P ≠ 0
            ∧ uvpt s k &&& PTE_U ≠ 0 := by
          refine ⟨uvpd_of_mapped s k m hk hm, ?_, ?_⟩
          · rw [hP, m.present]; decide
          · rw [hU]; exact hu
        rw [if_pos hg]
        have hsrc : dupSource s k = some m := by
          unfold dupSource
          rw [if_neg hux, hm]
          simp only []
          rw [if_pos hu]
        obtain ⟨s', hd, hsame, hlog, hpg⟩ := duppage_effect s envid k c m hk hc hne hm
        rw [hd, hsrc]
        exact ⟨s', rfl, hsame, hlog, hpg⟩
      · have hg : ¬ (uvpd s (PDX (k * PGSIZE)) &&& PTE_P ≠ 0 ∧ uvpt s k &&& PTE_P ≠ 0
            ∧ uvpt s k &&& PTE_U ≠ 0) := by
          rw [hU]
          intro h
          exact hu h.2.2
        rw [if_neg hg]
        exact hskip (by unfold dupSource; rw [if_neg hux, hm]; simp only []; rw [if_neg hu])

theorem utop_pages : UTOP = UTOP / PGSIZE * PGSIZE := by decide

theorem utop_pages_lt : UTOP / PGSIZE < NPAGENUM := by decide

theorem dupSource_congr (s s' : State) (k : Nat) (hcur : s'.curenv = s.curenv)
    (hpg : s'.pgtab s.curenv k = s.pgtab s.curenv k) : dupSource s' k = dupSource s k := by
  unfold dupSource
  rw [hcur, hpg]

theorem forkPgtab_self (s : State) (c k : Nat) (e : Nat) : forkPgtab s c k e k = s.pgtab e k := by
  unfold forkPgtab
  rw [if_neg (Nat.lt_irrefl k)]

theorem forkPgtab_succ (s : State) (c k e p : Nat) :
    forkPgtab s c (k + 1) e p =
      if p = k then
        (match dupSource s k with
         | some m =>
           if e = c then some (dupChild m)
           else if e = s.curenv then some (dupParent m) else forkPgtab s c k e p
         | none => forkPgtab s c k e p)
      else forkPgtab s c k e p := by
  by_cases hp : p = k
  · subst hp
    rw [if_pos rfl, forkPgtab_self]
    unfold forkPgtab
    rw [if_pos (Nat.lt_succ_self p)]
  · rw [if_neg hp]
    unfold forkPgtab
    by_cases hlt : p < k
    · rw [if_pos hlt, if_pos (by omega)]
    · rw [if_neg hlt, if_neg (by omega)]

theorem forkLoop_from (envid : Int) (c : Nat) (s0 : State)
    (hc : envid2env s0 envid = some c) (hne : c ≠ s0.curenv) :
    ∀ n k sk, k + n = UTOP / PGSIZE → SameBut s0 sk → sk.pgtab = forkPgtab s0 c k →
      sk.log = s0.log ++ loopCalls s0 envid k →
      ∃ s', forkLoop envid (k * PGSIZE) sk = .ok () s' ∧ SameBut s0 s' ∧
        s'.pgtab = forkPgtab s0 c (UTOP / PGSIZE) ∧
        s'.log = s0.log ++ loopCalls s0 envid (UTOP / PGSIZE) := by
  intro n
  induction n with
  | zero =>
    intro k sk hk hsame hpg hlog
    rw [Nat.add_zero] at hk
    subst hk
    rw [forkLoop, ← utop_pages, if_neg (Nat.lt_irrefl _)]
    exact ⟨sk, rfl, hsame, hpg, hlog⟩
  | succ n ih =>
    intro k sk hk hsame hpg hlog
    have hklt : k < UTOP / PGSIZE := by omega
    have hkpn : k < NPAGENUM := lt_trans hklt utop_pages_lt
    have hi : k * PGSIZE < UTOP := by
      rw [utop_pages]
      exact Nat.mul_lt_mul_of_pos_right hklt (by decide)
    have hck : envid2env sk envid = some c := by
      rw [envid2env_of_sameBut hsame]; exact hc
    have hnek : c ≠ sk.curenv := by rw [hsame.1]; exact hne
    obtain ⟨s1, hstep, hsame1, hlog1, hpg1⟩ := forkStep_spec sk envid c k hkpn hck hnek
    have hsrc : dupSource sk k = dupSource s0 k :=
      dupSource_congr s0 sk k hsame.1 (by rw [hpg, forkPgtab_self])
    rw [hsrc] at hlog1 hpg1
    rw [forkLoop, if_pos hi, hstep]
    simp only []
    have hnext : (k + 1) * PGSIZE = k * PGSIZE + PGSIZE := by
      rw [Nat.add_mul, Nat.one_mul]
    rw [← hnext]
    apply ih (k + 1) s1 (by omega) (sameBut_trans hsame hsame1)
    · funext e p
      rw [hpg1, forkPgtab_succ, hpg, hsame.1]
    · rw [hlog1, hlog, List.append_assoc]
      rfl

theorem forkLoop_spec (envid : Int) (c : Nat) (s : State)
    (hc : envid2env s envid = some c) (hne : c ≠ s.curenv) :
    ∃ s', forkLoop envid 0 s = .ok () s' ∧ SameBut s s' ∧
      s'.pgtab = forkPgtab s c (UTOP / PGSIZE) ∧
      s'.log = s.log ++ loopCalls s envid (UTOP / PGSIZE) := by
  have h := forkLoop_from envid c s hc hne (UTOP / PGSIZE) 0 s (Nat.zero_add _)
    (sameBut_refl s)
    (by funext e p; unfold forkPgtab; rw [if_neg (Nat.not_lt_zero p)])
    (by simp [loopCalls])
  rw [Nat.zero_mul] at h
  exact h

/-! ## `fork` -/

theorem envid2env_setEnv (s : State) (e : Nat) (r : Env) (envid : Int)
    (hid : r.env_id = (s.envs e).env_id) (hst : r.env_status = (s.envs e).env_status) :
    envid2env (s.setEnv e r) envid = envid2env s envid := by
  unfold envid2env
  simp only [setEnv_curenv, setEnv_envs]
  by_cases he : ENVX envid = e
  · subst he
    simp only [if_true, hid, hst]
  · simp only [he, if_false]

theorem sys_env_set_status_ok (s : State) (envid : Int) (status e : Nat)
    (he : envid2env s envid = some e) :
    sys_env_set_status s envid status =
      (0, (s.logCall (.env_set_status envid status)).setEnv e
        { s.envs e with env_status := status }) := by
  simp [sys_env_set_status, he]

theorem forkPgtab_uxstack (s : State) (c k e : Nat) :
    forkPgtab s c k e (PGNUM (UXSTACKTOP - PGSIZE)) = s.pgtab e (PGNUM (UXSTACKTOP - PGSIZE)) := by
  unfold forkPgtab dupSource
  rw [if_pos rfl]
  simp

theorem fork_cont_parent (s : State) (envid : Int) (c : Nat) (hpos : 0 < envid)
    (hc : envid2env s envid = some c) (hne : c ≠ s.curenv)
    (hux : s.pgtab c (PGNUM (UXSTACKTOP - PGSIZE)) = none) :
    ∃ s', fork_cont envid s = .ok envid s' ∧ s'.curenv = s.curenv ∧
      (∀ e p, s'.pgtab e p =
        if e = c ∧ p = PGNUM (UXSTACKTOP - PGSIZE)
        then some (mkMapping s.nextFrame (PTE_P ||| PTE_U ||| PTE_W))
        else forkPgtab s c (UTOP / PGSIZE) e p) ∧
      s'.log = s.log ++ loopCalls s envid (UTOP / PGSIZE) ++
        [.page_alloc envid (UXSTACKTOP - PGSIZE) (PTE_P ||| PTE_U ||| PTE_W),
         .env_set_pgfault_upcall envid ((s.envs (s.thisenv s.curenv)).env_upcall T_PGFLT),
         .env_set_status envid ENV_RUNNABLE] ∧
      s'.nextFrame = s.nextFrame + 1 ∧
      (∀ f o, s'.mem f o = if f = s.nextFrame then 0 else s.mem f o) ∧
      (∀ e, e ≠ c → s'.envs e = s.envs e) ∧
      (s'.envs c).env_id = (s.envs c).env_id ∧
      (s'.envs c).env_status = ENV_RUNNABLE ∧
      (∀ v, (s'.envs c).env_upcall v =
        if v = T_PGFLT then (s.envs (s.thisenv s.curenv)).env_upcall T_PGFLT
        else (s.envs c).env_upcall v) ∧
      s'.thisenv = s.thisenv ∧ s'.pass_times = s.pass_times ∧
      s'.exception_handler = s.exception_handler := by
  obtain ⟨s1, hloop, hsame, hpg1, hlog1⟩ := forkLoop_spec envid c s hc hne
  obtain ⟨hcur1, henvs1, hmem1, hnf1, hthis1, hpt1, heh1⟩ := hsame
  have hperm : (PTE_P ||| PTE_U ||| PTE_W) &&& PTE_SYSCALL = PTE_P ||| PTE_U ||| PTE_W := by
    decide
  have hc1 : envid2env s1 envid = some c := by
    rw [envid2env_of_sameBut ⟨hcur1, henvs1, hmem1, hnf1, hthis1, hpt1, heh1⟩]; exact hc
  have hux1 : s1.pgtab c (PGNUM (UXSTACKTOP - PGSIZE)) = none := by
    rw [hpg1, forkPgtab_uxstack]; exact hux
  have e1 := sys_page_alloc_ok s1 envid (UXSTACKTOP - PGSIZE) (PTE_P ||| PTE_U ||| PTE_W) c
    hc1 hperm hux1
  generalize hs2 : (s1.logCall (.page_alloc envid (UXSTACKTOP - PGSIZE)
    (PTE_P ||| PTE_U ||| PTE_W))).allocFrame c (PGNUM (UXSTACKTOP - PGSIZE))
    (PTE_P ||| PTE_U ||| PTE_W) = s2 at e1
  have hc2 : envid2env s2 envid = some c := by rw [← hs2]; exact hc1
  have hup : (s2.envs (s2.thisenv s2.curenv)).env_upcall T_PGFLT
      = (s.envs (s.thisenv s.curenv)).env_upcall T_PGFLT := by
    rw [← hs2]
    simp only [allocFrame_envs, allocFrame_thisenv, allocFrame_curenv, logCall_envs,
      logCall_thisenv, logCall_curenv]
    rw [henvs1, hthis1, hcur1]
  have e2 := bindUpcall_ok (s2.logCall (.env_set_pgfault_upcall envid
    ((s.envs (s.thisenv s.curenv)).env_upcall T_PGFLT))) envid T_PGFLT
    ((s.envs (s.thisenv s.curenv)).env_upcall T_PGFLT) c hc2
  generalize hs3 : (s2.logCall (.env_set_pgfault_upcall envid
    ((s.envs (s.thisenv s.curenv)).env_upcall T_PGFLT))).setEnv c
    { (s2.logCall (.env_set_pgfault_upcall envid
        ((s.envs (s.thisenv s.curenv)).env_upcall T_PGFLT))).envs c with
      env_upcall := fun v => if v = T_PGFLT then (s.envs (s.thisenv s.curenv)).env_upcall T_PGFLT
        else ((s2.logCall (.env_set_pgfault_upcall envid
          ((s.envs (s.thisenv s.curenv)).env_upcall T_PGFLT))).envs c).env_upcall v } = s3 at e2
  have hc3 : envid2env s3 envid = some c := by
    rw [← hs3]
    refine (envid2env_setEnv _ _ _ _ ?_ ?_).trans hc2 <;> rfl
  have e3 := sys_env_set_status_ok s3 envid ENV_RUNNABLE c hc3
  refine ⟨(s3.logCall (.env_set_status envid ENV_RUNNABLE)).setEnv c
    { s3.envs c with env_status := ENV_RUNNABLE }, ?_, ?_⟩
  · unfold fork_cont
    rw [if_neg (not_lt.mpr (le_of_lt hpos)), if_neg (ne_of_gt hpos), hloop]
    simp only [e1, hup, sys_env_set_pgfault_upcall, e2, e3]
    rfl
  · subst hs3
    subst hs2
    refine ⟨hcur1, ?_, ?_, ?_, ?_, ?_, ?_, ?_, ?_, hthis1, hpt1, heh1⟩
    · intro e p
      simp only [setEnv_pgtab, logCall_pgtab, allocFrame_pgtab, logCall_nextFrame]
      rw [hpg1, hnf1]
    · simp only [setEnv_log, logCall_log, allocFrame_log]
      rw [hlog1]
      simp
    · simp only [setEnv_nextFrame, logCall_nextFrame, allocFrame_nextFrame]
      rw [hnf1]
    · intro f o
      simp only [setEnv_mem, logCall_mem, allocFrame_mem, logCall_nextFrame]
      rw [hnf1, hmem1]
    · intro e he
      simp only [setEnv_envs, logCall_envs, allocFrame_envs, if_neg he]
      rw [henvs1]
    · simp only [setEnv_envs, logCall_envs, allocFrame_envs, if_pos]
      rw [henvs1]
    · simp only [setEnv_envs, if_pos]
    · intro v
      simp only [setEnv_envs, logCall_envs, allocFrame_envs, if_pos]
      rw [henvs1]

theorem findFree_spec (envs : Nat → Env) :
    ∀ n i k, findFree envs n i = some k →
      i ≤ k ∧ k < i + n ∧ (envs k).env_status = ENV_FREE := by
  intro n
  induction n with
  | zero => intro i k h; simp [findFree] at h
  | succ n ih =>
    intro i k h
    unfold findFree at h
    by_cases hf : (envs i).env_status = ENV_FREE
    · rw [if_pos hf] at h
      cases h
      exact ⟨le_refl _, by omega, hf⟩
    · rw [if_neg hf] at h
      obtain ⟨h1, h2, h3⟩ := ih (i + 1) k h
      exact ⟨by omega, by omega, h3⟩

theorem findFree_none (envs : Nat → Env) (h : ∀ i, (envs i).env_status ≠ ENV_FREE) :
    ∀ n i, findFree envs n i = none := by
  intro n
  induction n with
  | zero => intro i; rfl
  | succ n ih =>
    intro i
    unfold findFree
    rw [if_neg (h i)]
    exact ih (i + 1)

theorem findFree_congr (envs envs' : Nat → Env)
    (h : ∀ i, (envs' i).env_status = (envs i).env_status) :
    ∀ n i, findFree envs' n i = findFree envs n i := by
  intro n
  induction n with
  | zero => intro i; rfl
  | succ n ih =>
    intro i
    unfold findFree
    rw [h i, ih (i + 1)]

theorem mkenvid_pos (old : Int) (slot : Nat) : 0 < mkenvid old slot := by
  unfold mkenvid
  simp only []
  split_ifs with h <;> omega

theorem ENVX_mkenvid (old : Int) (slot : Nat) (h : slot < NENV) :
    ENVX (mkenvid old slot) = slot := by
  unfold ENVX mkenvid
  simp only [NENV] at *
  split_ifs with hg
  · have : ((4096 : Int) + (slot : Int)) % ((1024 : Nat) : Int) = (slot : Int) := by
      push_cast
      omega
    rw [this]
    simp
  · have : ((old + 4096) / 1024 * 1024 + (slot : Int)) % ((1024 : Nat) : Int) = (slot : Int) := by
      push_cast
      omega
    rw [this]
    simp

theorem sys_exofork_fail (s : State) (h : findFree s.envs NENV 0 = none) :
    sys_exofork s = (-E_NO_FREE_ENV, s.logCall .exofork) := by
  unfold sys_exofork
  simp only [logCall_envs]
  rw [h]

theorem sys_exofork_ok (s : State) (slot : Nat) (h : findFree s.envs NENV 0 = some slot) :
    sys_exofork s = (mkenvid (s.envs slot).env_id slot,
      { (s.logCall .exofork).setEnv slot
          ⟨mkenvid (s.envs slot).env_id slot, ENV_NOT_RUNNABLE, fun _ => FnPtr.null⟩ with
        pgtab := fun e pn => if e = slot then none else s.pgtab e pn }) := by
  unfold sys_exofork
  simp only [logCall_envs]
  rw [h]
  rfl

theorem sys_exofork_nonneg (s : State) (h : 0 ≤ (sys_exofork s).1) :
    ∃ slot, findFree s.envs NENV 0 = some slot := by
  cases hf : findFree s.envs NENV 0 with
  | none =>
    rw [sys_exofork_fail s hf] at h
    exact absurd (show (0 : Int) ≤ -E_NO_FREE_ENV from h) (by decide)
  | some slot => exact ⟨slot, rfl⟩

theorem dupSource_congr' (s s' : State) (hcur : s'.curenv = s.curenv)
    (hpg : ∀ p, s'.pgtab s.curenv p = s.pgtab s.curenv p) (k : Nat) :
    dupSource s' k = dupSource s k :=
  dupSource_congr s s' k hcur (hpg k)

theorem loopCalls_congr (s s' : State) (envid : Int) (hcur : s'.curenv = s.curenv)
    (hpg : ∀ p, s'.pgtab s.curenv p = s.pgtab s.curenv p) :
    ∀ k, loopCalls s' envid k = loopCalls s envid k := by
  intro k
  induction k with
  | zero => rfl
  | succ k ih =>
    unfold loopCalls
    rw [ih, dupSource_congr' s s' hcur hpg k]

theorem fork_spec (s s1 : State)
    (hreg : set_pgfault_handler FnPtr.pgfault s = .ok () s1)
    (hlive : (s1.envs s1.curenv).env_status ≠ ENV_FREE)
    (hex : 0 ≤ (sys_exofork s1).1) :
    ∃ c s', findFree s1.envs NENV 0 = some c ∧ c ≠ s1.curenv ∧ c < NENV ∧
      (sys_exofork s1).1 = mkenvid (s1.envs c).env_id c ∧
      0 < (sys_exofork s1).1 ∧
      fork s = .ok (sys_exofork s1).1 s' ∧
      s'.curenv = s1.curenv ∧
      (∀ p, s'.pgtab c p =
        if p = PGNUM (UXSTACKTOP - PGSIZE)
        then some (mkMapping s1.nextFrame (PTE_P ||| PTE_U ||| PTE_W))
        else if p < UTOP / PGSIZE then (dupSource s1 p).map dupChild else none) ∧
      (∀ p, s'.pgtab s1.curenv p =
        match (if p < UTOP / PGSIZE then dupSource s1 p else none) with
        | some m => some (dupParent m)
        | none => s1.pgtab s1.curenv p) ∧
      (∀ e p, e ≠ c → e ≠ s1.curenv → s'.pgtab e p = s1.pgtab e p) ∧
      s'.log = s1.log ++ [.exofork] ++ loopCalls s1 (sys_exofork s1).1 (UTOP / PGSIZE) ++
        [.page_alloc (sys_exofork s1).1 (UXSTACKTOP - PGSIZE) (PTE_P ||| PTE_U ||| PTE_W),
         .env_set_pgfault_upcall (sys_exofork s1).1
           (if s1.thisenv s1.curenv = c then FnPtr.null
            else (s1.envs (s1.thisenv s1.curenv)).env_upcall T_PGFLT),
         .env_set_status (sys_exofork s1).1 ENV_RUNNABLE] ∧
      s'.nextFrame = s1.nextFrame + 1 ∧
      (∀ f o, s'.mem f o = if f = s1.nextFrame then 0 else s1.mem f o) ∧
      (∀ e, e ≠ c → s'.envs e = s1.envs e) ∧
      (s'.envs c).env_id = (sys_exofork s1).1 ∧
      (s'.envs c).env_status = ENV_RUNNABLE ∧
      (∀ v, (s'.envs c).env_upcall v =
        if v = T_PGFLT then
          (if s1.thisenv s1.curenv = c then FnPtr.null
           else (s1.envs (s1.thisenv s1.curenv)).env_upcall T_PGFLT)
        else FnPtr.null) ∧
      s'.thisenv = s1.thisenv ∧ s'.pass_times = s1.pass_times ∧
      s'.exception_handler = s1.exception_handler := by
  obtain ⟨c, hfind⟩ := sys_exofork_nonneg s1 hex
  obtain ⟨-, hclt, hcfree⟩ := findFree_spec s1.envs NENV 0 c hfind
  rw [Nat.zero_add] at hclt
  have hne : c ≠ s1.curenv := by
    intro h
    rw [h] at hcfree
    exact hlive hcfree
  have hexo := sys_exofork_ok s1 c hfind
  generalize hid : mkenvid (s1.envs c).env_id c = id at hexo
  have hpos : 0 < id := by rw [← hid]; exact mkenvid_pos _ _
  have hx : ENVX id = c := by rw [← hid]; exact ENVX_mkenvid _ _ hclt
  generalize hs2 : ({ (s1.logCall .exofork).setEnv c
      ⟨id, ENV_NOT_RUNNABLE, fun _ => FnPtr.null⟩ with
      pgtab := fun e pn => if e = c then none else s1.pgtab e pn } : State) = s2 at hexo
  have hcur2 : s2.curenv = s1.curenv := by rw [← hs2]; rfl
  have hpg2 : ∀ e p, s2.pgtab e p = if e = c then none else s1.pgtab e p := by
    intro e p; rw [← hs2]
  have henv2 : ∀ e, s2.envs e
      = if e = c then ⟨id, ENV_NOT_RUNNABLE, fun _ => FnPtr.null⟩ else s1.envs e := by
    intro e; rw [← hs2]; rfl
  have hlog2 : s2.log = s1.log ++ [.exofork] := by rw [← hs2]; rfl
  have hnf2 : s2.nextFrame = s1.nextFrame := by rw [← hs2]; rfl
  have hmem2 : s2.mem = s1.mem := by rw [← hs2]; rfl
  have hthis2 : s2.thisenv = s1.thisenv := by rw [← hs2]; rfl
  have hpt2 : s2.pass_times = s1.pass_times := by rw [← hs2]; rfl
  have heh2 : s2.exception_handler = s1.exception_handler := by rw [← hs2]; rfl
  clear hs2
  have hc2 : envid2env s2 id = some c := by
    unfold envid2env
    rw [if_neg (ne_of_gt hpos), hx, henv2 c, if_pos rfl]
    simp [ENV_NOT_RUNNABLE, ENV_FREE]
  have hne2 : c ≠ s2.curenv := by rw [hcur2]; exact hne
  have hux2 : s2.pgtab c (PGNUM (UXSTACKTOP - PGSIZE)) = none := by
    rw [hpg2, if_pos rfl]
  obtain ⟨s', hcont, hcur', hpg', hlog', hnf', hmem', henvs', hid', hst', hup', hthis', hpt',
    heh'⟩ := fork_cont_parent s2 id c hpos hc2 hne2 hux2
  have hsrc : ∀ p, dupSource s2 p = dupSource s1 p := fun p =>
    dupSource_congr' s1 s2 hcur2 (fun q => by rw [hpg2, if_neg (Ne.symm hne)]) p
  have hupc : (s2.envs (s2.thisenv s2.curenv)).env_upcall T_PGFLT =
      (if s1.thisenv s1.curenv = c then FnPtr.null
       else (s1.envs (s1.thisenv s1.curenv)).env_upcall T_PGFLT) := by
    rw [hthis2, hcur2, henv2]
    by_cases h : s1.thisenv s1.curenv = c
    · rw [if_pos h, if_pos h]
    · rw [if_neg h, if_neg h]
  rw [hexo]
  refine ⟨c, s', hfind, hne, hclt, hid.symm, hpos, ?_, hcur'.trans hcur2, ?_, ?_, ?_, ?_, ?_, ?_, ?_,
    ?_, hst', ?_, hthis'.trans hthis2, hpt'.trans hpt2, heh'.trans heh2⟩
  · unfold fork
    rw [hreg]
    simp only [hexo]
    exact hcont
  · intro p
    rw [hpg']
    by_cases hp : p = PGNUM (UXSTACKTOP - PGSIZE)
    · rw [if_pos ⟨rfl, hp⟩, if_pos hp, hnf2]
    · rw [if_neg (fun h => hp h.2), if_neg hp]
      unfold forkPgtab
      rw [hsrc]
      by_cases hlt : p < UTOP / PGSIZE
      · rw [if_pos hlt, if_pos hlt]
        cases dupSource s1 p <;> simp [hpg2]
      · rw [if_neg hlt, if_neg hlt]
        simp [hpg2]
  · intro p
    rw [hpg', if_neg (fun h => hne h.1.symm)]
    unfold forkPgtab
    rw [hsrc, hcur2]
    cases (if p < UTOP / PGSIZE then dupSource s1 p else none) <;>
      simp [hpg2, Ne.symm hne]
  · intro e p hec hecur
    rw [hpg', if_neg (fun h => hec h.1)]
    unfold forkPgtab
    rw [hcur2]
    cases (if p < UTOP / PGSIZE then dupSource s2 p else none) <;>
      simp [hpg2, hec, hecur]
  · rw [hlog', hlog2, hupc, loopCalls_congr s1 s2 id hcur2
      (fun q => by rw [hpg2, if_neg (Ne.symm hne)])]
  · rw [hnf', hnf2]
  · intro f o
    rw [hmem', hnf2, hmem2]
  · intro e he
    rw [henvs' e he, henv2, if_neg he]
  · rw [hid', henv2, if_pos rfl]
  · intro v
    rw [hup', hupc, henv2, if_pos rfl]

theorem register_ok_cases (c : RegCall) (s s1 : State) (h : c.run s = .ok () s1) :
    s.pass_times s.curenv ≠ 0 ∨
    (s.pass_times s.curenv = 0 ∧ s.pgtab s.curenv (PGNUM (UXSTACKTOP - PGSIZE)) = none) := by
  by_cases hp : s.pass_times s.curenv = 0
  · right
    refine ⟨hp, ?_⟩
    by_contra hm
    generalize hs0 : ({ s with
      pass_times := fun e => if e = s.curenv then 1 else s.pass_times e } : State) = s0 at h
    have hfail : (sys_page_alloc s0 0 (UXSTACKTOP - PGSIZE) (PTE_W ||| PTE_U ||| PTE_P)).1 < 0 := by
      rcases sys_page_alloc_cases s0 0 (UXSTACKTOP - PGSIZE) (PTE_W ||| PTE_U ||| PTE_P)
        with ⟨hneg, -⟩ | ⟨-, e, he, -, hnone, -⟩
      · exact hneg
      · simp only [envid2env_zero, Option.some.injEq] at he
        subst he
        rw [← hs0] at hnone
        exact absurd hnone hm
    cases c with
    | pgfault hd =>
      simp only [RegCall.run, set_pgfault_handler] at h
      rw [if_pos hp] at h
      rw [hs0, if_pos hfail] at h
      cases h
    | exception t hd =>
      simp only [RegCall.run, set_exception_handler] at h
      rw [if_pos hp] at h
      rw [hs0, if_pos hfail] at h
      cases h
  · exact Or.inl hp

theorem fork_cont_result (s : State) (envid v : Int) (s' : State)
    (h : fork_cont envid s = .ok v s') : v = envid := by
  unfold fork_cont at h
  by_cases h1 : envid < 0
  · rw [if_pos h1] at h
    cases h
    rfl
  · rw [if_neg h1] at h
    by_cases h2 : envid = 0
    · rw [if_pos h2] at h
      cases h
      exact h2.symm
    · rw [if_neg h2] at h
      cases hl : forkLoop envid 0 s with
      | panicked msg s1 => rw [hl] at h; cases h
      | faulted va s1 => rw [hl] at h; cases h
      | ok u s1 =>
        rw [hl] at h
        simp only [] at h
        split_ifs at h
        cases h
        rfl

/-- C8. For every state in which `fork` is entered: (1) whatever `fork` returns, in either
continuation, is the value `sys_exofork` yielded there; (2) a negative value is returned
as it is, and after the registration step, which only addresses the caller itself, the
only kernel call is `sys_exofork`; (3) the child continuation returns 0 after one
`sys_getenvid` and with `thisenv` set to slot `ENVX` of its own identifier; (4) when
`sys_exofork` succeeds in a live parent, `fork` returns the positive identifier of the
new environment, which it has made runnable. -/
theorem fork_return_contract (s : State) :
    (∀ envid v s', fork_cont envid s = .ok v s' → v = envid) ∧
    (∀ v s', fork s = .ok v s' →
      ∃ s1, set_pgfault_handler FnPtr.pgfault s = .ok () s1 ∧ v = (sys_exofork s1).1) ∧
    (∀ s1, set_pgfault_handler FnPtr.pgfault s = .ok () s1 → (sys_exofork s1).1 < 0 →
      fork s = .ok (sys_exofork s1).1 (s1.logCall .exofork) ∧
      (s1.log = s.log ∨
       s1.log = s.log ++ [.page_alloc 0 (UXSTACKTOP - PGSIZE) (PTE_W ||| PTE_U ||| PTE_P),
         .env_set_pgfault_upcall 0 FnPtr.pgfault_upcall])) ∧
    fork_child s = .ok 0 { s.logCall .getenvid with
      thisenv := fun e => if e = s.curenv then ENVX (s.envs s.curenv).env_id
        else s.thisenv e } ∧
    (∀ s1, set_pgfault_handler FnPtr.pgfault s = .ok () s1 →
      (s1.envs s1.curenv).env_status ≠ ENV_FREE → 0 ≤ (sys_exofork s1).1 →
      ∃ c s', fork s = .ok (sys_exofork s1).1 s' ∧ 0 < (sys_exofork s1).1 ∧
        c ≠ s.curenv ∧ (s'.envs c).env_id = (sys_exofork s1).1 ∧
        (s'.envs c).env_status = ENV_RUNNABLE) := by
  refine ⟨fun envid v s' h => fork_cont_result s envid v s' h, ?_, ?_, rfl, ?_⟩
  · intro v s' h
    unfold fork at h
    cases hr : set_pgfault_handler FnPtr.pgfault s with
    | panicked msg s1 => rw [hr] at h; cases h
    | faulted va s1 => rw [hr] at h; cases h
    | ok u s1 =>
      rw [hr] at h
      exact ⟨s1, rfl, fork_cont_result _ _ _ _ h⟩
  · intro s1 hreg hneg
    constructor
    · have hfail : sys_exofork s1 = (-E_NO_FREE_ENV, s1.logCall .exofork) := by
        cases hf : findFree s1.envs NENV 0 with
        | none => exact sys_exofork_fail s1 hf
        | some slot =>
          rw [sys_exofork_ok s1 slot hf] at hneg
          exact absurd (mkenvid_pos _ _) (not_lt.mpr (le_of_lt hneg))
      unfold fork
      rw [hreg]
      simp only [hfail]
      unfold fork_cont
      rw [if_pos (by decide)]
    · rcases register_ok_cases (.pgfault FnPtr.pgfault) s s1 hreg with h | ⟨h0, hm⟩
      · left
        have := register_again (.pgfault FnPtr.pgfault) s h
        rw [show (RegCall.pgfault FnPtr.pgfault).run s = set_pgfault_handler FnPtr.pgfault s
          from rfl, hreg] at this
        cases this
        rfl
      · right
        obtain ⟨s1', hrun, hlog, -⟩ := register_first (.pgfault FnPtr.pgfault) s h0 hm
        rw [show (RegCall.pgfault FnPtr.pgfault).run s = set_pgfault_handler FnPtr.pgfault s
          from rfl, hreg] at hrun
        cases hrun
        exact hlog
  · intro s1 hreg hlive hex
    obtain ⟨c, s', -, hne, -, -, hpos, hfork, -, -, -, -, -, -, -, -, hid, hst, -⟩ :=
      fork_spec s s1 hreg hlive hex
    have hcur : s1.curenv = s.curenv := by
      rcases register_ok_cases (.pgfault FnPtr.pgfault) s s1 hreg with h | ⟨h0, hm⟩
      · have := register_again (.pgfault FnPtr.pgfault) s h
        rw [show (RegCall.pgfault FnPtr.pgfault).run s = set_pgfault_handler FnPtr.pgfault s
          from rfl, hreg] at this
        cases this
        rfl
      · obtain ⟨s1', hrun, -, hc, -⟩ := register_first (.pgfault FnPtr.pgfault) s h0 hm
        rw [show (RegCall.pgfault FnPtr.pgfault).run s = set_pgfault_handler FnPtr.pgfault s
          from rfl, hreg] at hrun
        cases hrun
        exact hc
    exact ⟨c, s', hfork, hpos, by rw [← hcur]; exact hne, hid, hst⟩

theorem demoRegistered_reg :
    set_pgfault_handler FnPtr.pgfault demoRegistered = .ok ()
      { demoRegistered with exception_handler := fun e v =>
          if e = demoRegistered.curenv ∧ v = T_PGFLT then FnPtr.pgfault
          else demoRegistered.exception_handler e v } :=
  register_again (.pgfault FnPtr.pgfault) demoRegistered (by decide)

theorem fullState_exofork (s1 : State)
    (h : ∀ e, (s1.envs e).env_status = (fullState.envs e).env_status) :
    sys_exofork s1 = (-E_NO_FREE_ENV, s1.logCall .exofork) := by
  apply sys_exofork_fail
  rw [findFree_congr fullState.envs s1.envs h]
  exact findFree_none _ (fun i => show ENV_RUNNABLE ≠ ENV_FREE by decide) _ _

theorem fork_return_contract_witness :
    (∃ s', fork fullState = .ok (-E_NO_FREE_ENV) s') ∧
    (∃ s', fork_child demoState = .ok 0 s' ∧ s'.thisenv 0 = 0 ∧ s'.log = [.getenvid]) ∧
    (∃ s', fork demoRegistered = .ok 4098 s') := by
  refine ⟨?_, ⟨_, (fork_return_contract demoState).2.2.2.1, by decide, by decide⟩, ?_⟩
  · obtain ⟨s1, hrun, -, -, -, -, -, hst, -⟩ :=
      register_first (.pgfault FnPtr.pgfault) fullState rfl (by decide)
    have hexo := fullState_exofork s1 (fun e => (hst e).2)
    have h := ((fork_return_contract fullState).2.2.1 s1 hrun
      (by rw [hexo]; exact (by decide : -E_NO_FREE_ENV < 0))).1
    rw [hexo] at h
    exact ⟨_, h⟩
  · obtain ⟨c, s', h, -⟩ := (fork_return_contract demoRegistered).2.2.2.2 _ demoRegistered_reg
      (by decide) (by decide)
    exact ⟨s', h⟩

theorem dupCalls_mem (envid : Int) (p : Nat) (m : Mapping) (x : Syscall)
    (h : x ∈ dupCalls envid p m) :
    ∃ de perm, x = .page_map 0 (p * PGSIZE) de (p * PGSIZE) perm := by
  unfold dupCalls at h
  split_ifs at h <;> simp at h
  · exact ⟨_, _, h⟩
  · rcases h with h | h
    · exact ⟨_, _, h⟩
    · exact ⟨_, _, h⟩
  · exact ⟨_, _, h⟩

theorem loopCalls_mem (s : State) (envid : Int) (x : Syscall) :
    ∀ k, x ∈ loopCalls s envid k →
      ∃ p m, p < k ∧ dupSource s p = some m ∧ x ∈ dupCalls envid p m := by
  intro k
  induction k with
  | zero => intro h; simp [loopCalls] at h
  | succ k ih =>
    intro h
    unfold loopCalls at h
    rw [List.mem_append] at h
    rcases h with h | h
    · obtain ⟨p, m, hp, hs, hx⟩ := ih h
      exact ⟨p, m, by omega, hs, hx⟩
    · cases hs : dupSource s k with
      | none => rw [hs] at h; simp at h
      | some m => rw [hs] at h; exact ⟨k, m, by omega, hs, h⟩

theorem dupSource_uxstack (s : State) : dupSource s (PGNUM (UXSTACKTOP - PGSIZE)) = none := by
  unfold dupSource
  rw [if_pos rfl]

theorem loopCalls_not_uxstack (s : State) (envid : Int) (k : Nat) (x : Syscall)
    (h : x ∈ loopCalls s envid k) :
    ∃ p de perm, p ≠ PGNUM (UXSTACKTOP - PGSIZE) ∧ dupSource s p ≠ none ∧ p < k ∧
      x = .page_map 0 (p * PGSIZE) de (p * PGSIZE) perm := by
  obtain ⟨p, m, hp, hs, hx⟩ := loopCalls_mem s envid x k h
  obtain ⟨de, perm, hx'⟩ := dupCalls_mem envid p m x hx
  refine ⟨p, de, perm, ?_, by rw [hs]; simp, hp, hx'⟩
  intro hpu
  rw [hpu, dupSource_uxstack] at hs
  cases hs

theorem register_effect (c : RegCall) (s s1 : State) (h : c.run s = .ok () s1) :
    s1.curenv = s.curenv ∧
    (∀ e p, ¬ (e = s.curenv ∧ p = PGNUM (UXSTACKTOP - PGSIZE)) → s1.pgtab e p = s.pgtab e p) ∧
    (s.pass_times s.curenv ≠ 0 → s1.pgtab = s.pgtab) ∧
    (∀ e, (s1.envs e).env_status = (s.envs e).env_status) ∧
    (FramesAllocated s → FramesAllocated s1) ∧
    (∀ f o, f < s.nextFrame → s1.mem f o = s.mem f o) ∧
    s.nextFrame ≤ s1.nextFrame ∧
    (s1.log = s.log ∨
      s1.log = s.log ++ [.page_alloc 0 (UXSTACKTOP - PGSIZE) (PTE_W ||| PTE_U ||| PTE_P), c.bind]) := by
  rcases register_ok_cases c s s1 h with hp | ⟨h0, hm⟩
  · have := register_again c s hp
    rw [h] at this
    cases this
    exact ⟨rfl, fun _ _ _ => rfl, fun _ => rfl, fun _ => rfl, fun hf => hf, fun _ _ _ => rfl,
      le_refl _, Or.inl rfl⟩
  · obtain ⟨s1', hrun, hlog, hcur, -, -, hpg, hst, -, hnf, hmem, -⟩ := register_first c s h0 hm
    rw [h] at hrun
    cases hrun
    refine ⟨hcur, ?_, fun hp => absurd h0 hp, fun e => (hst e).2, ?_, ?_, by omega, Or.inr hlog⟩
    · intro e p hne
      rw [hpg, if_neg hne]
    · intro hf e p m hm'
      rw [hpg] at hm'
      rw [hnf]
      by_cases hep : e = s.curenv ∧ p = PGNUM (UXSTACKTOP - PGSIZE)
      · rw [if_pos hep] at hm'
        cases hm'
        exact Nat.lt_succ_self _
      · rw [if_neg hep] at hm'
        exact Nat.lt_succ_of_lt (hf e p m hm')
    · intro f o hf
      rw [hmem, if_neg (Nat.ne_of_lt hf)]

theorem dupChild_frame (m : Mapping) : (dupChild m).frame = m.frame := by
  unfold dupChild
  split_ifs <;> rfl

theorem dupParent_frame (m : Mapping) : (dupParent m).frame = m.frame := by
  unfold dupParent
  split_ifs <;> rfl

theorem dupSource_some (s : State) (p : Nat) (m : Mapping) (h : dupSource s p = some m) :
    p ≠ PGNUM (UXSTACKTOP - PGSIZE) ∧ s.pgtab s.curenv p = some m ∧ m.flags &&& PTE_U ≠ 0 := by
  unfold dupSource at h
  by_cases hp : p = PGNUM (UXSTACKTOP - PGSIZE)
  · rw [if_pos hp] at h; cases h
  · rw [if_neg hp] at h
    cases hm : s.pgtab s.curenv p with
    | none => rw [hm] at h; cases h
    | some m' =>
      rw [hm] at h
      simp only [] at h
      by_cases hu : m'.flags &&& PTE_U ≠ 0
      · rw [if_pos hu] at h
        cases h
        exact ⟨hp, rfl, hu⟩
      · rw [if_neg hu] at h; cases h

theorem dupSource_of (s : State) (p : Nat) (m : Mapping)
    (hp : p ≠ PGNUM (UXSTACKTOP - PGSIZE)) (hm : s.pgtab s.curenv p = some m)
    (hu : m.flags &&& PTE_U ≠ 0) : dupSource s p = some m := by
  unfold dupSource
  rw [if_neg hp, hm]
  simp only []
  rw [if_pos hu]

theorem fork_frames (s1 s' : State) (c : Nat) (hne : c ≠ s1.curenv)
    (hf1 : FramesAllocated s1)
    (hpgc : ∀ p, s'.pgtab c p =
        if p = PGNUM (UXSTACKTOP - PGSIZE)
        then some (mkMapping s1.nextFrame (PTE_P ||| PTE_U ||| PTE_W))
        else if p < UTOP / PGSIZE then (dupSource s1 p).map dupChild else none)
    (hpgp : ∀ p, s'.pgtab s1.curenv p =
        match (if p < UTOP / PGSIZE then dupSource s1 p else none) with
        | some m => some (dupParent m)
        | none => s1.pgtab s1.curenv p)
    (hpgo : ∀ e p, e ≠ c → e ≠ s1.curenv → s'.pgtab e p = s1.pgtab e p) :
    ∀ e p m, s'.pgtab e p = some m →
      (e = c ∧ p = PGNUM (UXSTACKTOP - PGSIZE)) ∨ m.frame < s1.nextFrame := by
  intro e p m hm
  by_cases hec : e = c
  · subst hec
    by_cases hp : p = PGNUM (UXSTACKTOP - PGSIZE)
    · exact Or.inl ⟨rfl, hp⟩
    · right
      rw [hpgc, if_neg hp] at hm
      by_cases hlt : p < UTOP / PGSIZE
      · rw [if_pos hlt] at hm
        cases hs : dupSource s1 p with
        | none => rw [hs] at hm; cases hm
        | some m0 =>
          rw [hs] at hm
          simp only [Option.map, Option.some.injEq] at hm
          rw [← hm, dupChild_frame]
          exact hf1 _ _ _ (dupSource_some s1 p m0 hs).2.1
      · rw [if_neg hlt] at hm; cases hm
  · right
    by_cases hecur : e = s1.curenv
    · subst hecur
      rw [hpgp] at hm
      cases hs : (if p < UTOP / PGSIZE then dupSource s1 p else none) with
      | none => rw [hs] at hm; exact hf1 _ _ _ hm
      | some m0 =>
        rw [hs] at hm
        simp only [Option.some.injEq] at hm
        rw [← hm, dupParent_frame]
        have hs' : dupSource s1 p = some m0 := by
          by_cases hlt : p < UTOP / PGSIZE
          · rw [if_pos hlt] at hs; exact hs
          · rw [if_neg hlt] at hs; cases hs
        exact hf1 _ _ _ (dupSource_some s1 p m0 hs').2.1
    · rw [hpgo e p hec hecur] at hm
      exact hf1 _ _ _ hm

/-- C7 (amended). A successful parent-side fork issues no map call, hence no `duppage`,
for the page at `UXSTACKTOP - PGSIZE`, and leaves the parent's entry for that page as the
registration step of `fork` left it, which is as it was before `fork` when a handler had
been registered earlier.  The child's entry for that page names the frame the allocator
handed out for it, which no other entry of any environment names, with permissions
exactly `PTE_P|PTE_U|PTE_W`. -/
theorem fork_exception_stack (s s1 : State)
    (hreg : set_pgfault_handler FnPtr.pgfault s = .ok () s1)
    (hlive : (s1.envs s1.curenv).env_status ≠ ENV_FREE)
    (hex : 0 ≤ (sys_exofork s1).1)
    (hfresh : FramesAllocated s) :
    ∃ c s' added, fork s = .ok (sys_exofork s1).1 s' ∧ c ≠ s.curenv ∧
      (s'.envs c).env_id = (sys_exofork s1).1 ∧
      s'.log = s.log ++ added ∧
      (∀ se sva de dva perm, Syscall.page_map se sva de dva perm ∈ added →
        sva ≠ UXSTACKTOP - PGSIZE ∧ dva ≠ UXSTACKTOP - PGSIZE) ∧
      s'.pgtab s.curenv (PGNUM (UXSTACKTOP - PGSIZE))
        = s1.pgtab s.curenv (PGNUM (UXSTACKTOP - PGSIZE)) ∧
      (s.pass_times s.curenv ≠ 0 →
        s'.pgtab s.curenv (PGNUM (UXSTACKTOP - PGSIZE))
          = s.pgtab s.curenv (PGNUM (UXSTACKTOP - PGSIZE))) ∧
      pte s' c (PGNUM (UXSTACKTOP - PGSIZE)) = some (s1.nextFrame, PTE_P ||| PTE_U ||| PTE_W) ∧
      (PTE_P ||| PTE_U ||| PTE_W) &&& PTE_W ≠ 0 ∧
      (PTE_P ||| PTE_U ||| PTE_W) &&& PTE_COW = 0 ∧
      (PTE_P ||| PTE_U ||| PTE_W) &&& PTE_SHARE = 0 ∧
      (∀ e p m, s1.pgtab e p = some m → m.frame ≠ s1.nextFrame) ∧
      (∀ e p m, s'.pgtab e p = some m →
        (e = c ∧ p = PGNUM (UXSTACKTOP - PGSIZE)) ∨ m.frame ≠ s1.nextFrame) := by
  obtain ⟨c, s', -, hne, -, -, -, hfork, -, hpgc, hpgp, hpgo, hlog, -, -, -, hid, -⟩ :=
    fork_spec s s1 hreg hlive hex
  obtain ⟨hcur, -, hsame, -, hfa, -, -, hlog1⟩ :=
    register_effect (.pgfault FnPtr.pgfault) s s1 hreg
  have hf1 : FramesAllocated s1 := hfa hfresh
  have hframes := fork_frames s1 s' c hne hf1 hpgc hpgp hpgo
  have hpar : s'.pgtab s1.curenv (PGNUM (UXSTACKTOP - PGSIZE))
      = s1.pgtab s1.curenv (PGNUM (UXSTACKTOP - PGSIZE)) := by
    rw [hpgp, dupSource_uxstack]
    simp
  have hmaps : ∀ se sva de dva perm,
      Syscall.page_map se sva de dva perm ∈
        loopCalls s1 (sys_exofork s1).1 (UTOP / PGSIZE) →
      sva ≠ UXSTACKTOP - PGSIZE ∧ dva ≠ UXSTACKTOP - PGSIZE := by
    intro se sva de dva perm hmem
    obtain ⟨p, de', perm', hp, -, -, hx⟩ := loopCalls_not_uxstack _ _ _ _ hmem
    cases hx
    have : p * PGSIZE ≠ UXSTACKTOP - PGSIZE := by
      intro h
      apply hp
      rw [← h, pgnum_mul]
    exact ⟨this, this⟩
  rw [hcur] at hne hpar
  obtain ⟨tail, htail, htmaps⟩ : ∃ tail, s'.log = s1.log ++ tail ∧
      ∀ se sva de dva perm, Syscall.page_map se sva de dva perm ∈ tail →
        sva ≠ UXSTACKTOP - PGSIZE ∧ dva ≠ UXSTACKTOP - PGSIZE := by
    refine ⟨_, by rw [hlog, List.append_assoc, List.append_assoc], ?_⟩
    intro se sva de dva perm hmem
    simp only [List.mem_append, List.mem_cons, List.mem_singleton, List.not_mem_nil,
      or_false, reduceCtorEq, false_or] at hmem
    exact hmaps _ _ _ _ _ hmem
  obtain ⟨pre, hpre, hpmaps⟩ : ∃ pre, s1.log = s.log ++ pre ∧
      ∀ se sva de dva perm, Syscall.page_map se sva de dva perm ∉ pre := by
    rcases hlog1 with h1 | h1
    · exact ⟨[], by rw [h1, List.append_nil], fun _ _ _ _ _ h => by simp at h⟩
    · exact ⟨_, h1, fun _ _ _ _ _ h => by simp [RegCall.bind] at h⟩
  refine ⟨c, s', pre ++ tail, hfork, hne, hid, ?_, ?_, hpar, ?_, ?_, by decide, by decide,
    by decide, fun e p m hm => Nat.ne_of_lt (hf1 e p m hm), ?_⟩
  · rw [htail, hpre, List.append_assoc]
  · intro se sva de dva perm hmem
    rw [List.mem_append] at hmem
    rcases hmem with h | h
    · exact absurd h (hpmaps _ _ _ _ _)
    · exact htmaps _ _ _ _ _ h
  · intro hp
    rw [hpar, hsame hp]
  · rw [pte, hpgc, if_pos rfl]
    rfl
  · intro e p m hm
    rcases hframes e p m hm with h | h
    · exact Or.inl h
    · exact Or.inr (Nat.ne_of_lt h)

theorem demoRegistered_framesAllocated : FramesAllocated demoRegistered := by
  intro e pn m h
  simp only [demoRegistered, demoState, demoPgtab] at h
  split_ifs at h <;> (cases h; decide)

theorem fork_exception_stack_witness :
    ∃ c s', fork demoRegistered = .ok 4098 s' ∧ c ≠ 0 ∧ (s'.envs c).env_id = 4098 ∧
      s'.pgtab 0 (PGNUM (UXSTACKTOP - PGSIZE))
        = demoRegistered.pgtab 0 (PGNUM (UXSTACKTOP - PGSIZE)) ∧
      pte s' c (PGNUM (UXSTACKTOP - PGSIZE)) = some (16, PTE_P ||| PTE_U ||| PTE_W) := by
  obtain ⟨c, s', added, hfork, hne, hid, -, -, -, hsame, hpte, -⟩ :=
    fork_exception_stack demoRegistered _ demoRegistered_reg (by decide) (by decide)
      demoRegistered_framesAllocated
  exact ⟨c, s', hfork, hne, hid, hsame (by decide), hpte⟩

/-- C7, as stated, fails in a fresh process: the registration step of `fork` allocates
the parent's exception stack, so the parent's entry for the page at
`UXSTACKTOP - PGSIZE` is not what it was before `fork`. -/
theorem fork_maps_parent_uxstack :
    ∃ s', fork demoState = .ok 4098 s' ∧
      demoState.pgtab 0 (PGNUM (UXSTACKTOP - PGSIZE)) = none ∧
      pte s' 0 (PGNUM (UXSTACKTOP - PGSIZE)) = some (16, PTE_P ||| PTE_U ||| PTE_W) := by
  obtain ⟨s1, hrun, -, hcur, -, -, hpg, hst, -, -, -, -⟩ :=
    register_first (.pgfault FnPtr.pgfault) demoState demoState_fresh.1 demoState_fresh.2.2
  have hfind : findFree s1.envs NENV 0 = some 2 := by
    rw [findFree_congr demoState.envs s1.envs (fun e => (hst e).2)]
    decide
  have hid : (sys_exofork s1).1 = 4098 := by
    rw [sys_exofork_ok s1 2 hfind]
    show mkenvid (s1.envs 2).env_id 2 = 4098
    rw [(hst 2).1]
    decide
  have hlive : (s1.envs s1.curenv).env_status ≠ ENV_FREE := by
    rw [hcur, (hst _).2]
    decide
  obtain ⟨c, s', -, -, -, -, -, hfork, -, -, hpgp, -⟩ :=
    fork_spec demoState s1 hrun hlive (by rw [hid]; decide)
  rw [hid] at hfork
  refine ⟨s', hfork, by decide, ?_⟩
  have h := hpgp (PGNUM (UXSTACKTOP - PGSIZE))
  rw [dupSource_uxstack, hcur] at h
  simp only [ite_self] at h
  rw [hpg, if_pos ⟨rfl, rfl⟩] at h
  show (s'.pgtab demoState.curenv (PGNUM (UXSTACKTOP - PGSIZE))).map _ = _
  rw [h]
  rfl

/-! ## Isolation -/

theorem and_or_ne_zero_left (x a b : Nat) (h : x &&& a ≠ 0) : x &&& (a ||| b) ≠ 0 := by
  intro h0
  apply h
  apply Nat.eq_of_testBit_eq
  intro i
  have h1 := congrArg (fun y => y.testBit i) h0
  simp only [Nat.testBit_and, Nat.testBit_or, Nat.zero_testBit] at h1 ⊢
  revert h1
  cases x.testBit i <;> cases a.testBit i <;> cases b.testBit i <;> simp

theorem dupChild_private_writable (m : Mapping) (hw : m.flags &&& PTE_W ≠ 0)
    (hns : m.flags &&& PTE_SHARE = 0) :
    dupChild m = mkMapping m.frame (PTE_P ||| PTE_U ||| PTE_COW) ∧
    dupParent m = mkMapping m.frame (PTE_P ||| PTE_U ||| PTE_COW) := by
  have hwc := and_or_ne_zero_left m.flags PTE_W PTE_COW hw
  have hs : ¬ (m.flags &&& PTE_SHARE ≠ 0) := by rw [hns]; simp
  constructor
  · unfold dupChild
    rw [if_neg hs, if_pos hwc]
  · unfold dupParent
    rw [if_neg hs, if_pos hwc]

theorem pgnum_add (pn off : Nat) (h : off < PGSIZE) : PGNUM (pn * PGSIZE + off) = pn := by
  simp only [PGNUM, PGSIZE] at *
  omega

theorem pgoff_add (pn off : Nat) (h : off < PGSIZE) : PGOFF (pn * PGSIZE + off) = off := by
  simp only [PGOFF, PGSIZE] at *
  omega

theorem pftemp_not_uxstack : PGNUM PFTEMP ≠ PGNUM (UXSTACKTOP - PGSIZE) := by decide

theorem pftemp_lt : PGNUM PFTEMP < UTOP / PGSIZE := by decide

theorem pte_eq_some (s : State) (e pn f fl : Nat) (h : pte s e pn = some (f, fl)) :
    ∃ m, s.pgtab e pn = some m ∧ m.frame = f ∧ m.flags = fl := by
  unfold pte at h
  cases hm : s.pgtab e pn with
  | none => rw [hm] at h; cases h
  | some m =>
    rw [hm] at h
    simp only [Option.map, Option.some.injEq, Prod.mk.injEq] at h
    exact ⟨m, rfl, h.1, h.2⟩

theorem pte_of_mapped (s : State) (e pn : Nat) (m : Mapping) (h : s.pgtab e pn = some m) :
    pte s e pn = some (m.frame, m.flags) := by
  unfold pte
  rw [h]
  rfl

/-- What `fork` leaves of a private writable page `pn` of the parent, below `UTOP` and
not the exception stack, with `PFTEMP` unmapped in the parent. -/
theorem fork_private_page (s s1 : State) (pn : Nat) (m : Mapping)
    (hreg : set_pgfault_handler FnPtr.pgfault s = .ok () s1)
    (hlive : (s1.envs s1.curenv).env_status ≠ ENV_FREE)
    (hex : 0 ≤ (sys_exofork s1).1)
    (hfresh : FramesAllocated s)
    (hpn : pn < UTOP / PGSIZE) (hux : pn ≠ PGNUM (UXSTACKTOP - PGSIZE))
    (hm : s.pgtab s.curenv pn = some m)
    (hu : m.flags &&& PTE_U ≠ 0) (hw : m.flags &&& PTE_W ≠ 0)
    (hns : m.flags &&& PTE_SHARE = 0)
    (htemp : s.pgtab s.curenv (PGNUM PFTEMP) = none) :
    ∃ c sF, fork s = .ok (sys_exofork s1).1 sF ∧ c ≠ s.curenv ∧
      (sF.envs c).env_id = (sys_exofork s1).1 ∧
      sF.pgtab s.curenv pn = some (mkMapping m.frame (PTE_P ||| PTE_U ||| PTE_COW)) ∧
      sF.pgtab c pn = some (mkMapping m.frame (PTE_P ||| PTE_U ||| PTE_COW)) ∧
      sF.pgtab c (PGNUM PFTEMP) = none ∧
      (∀ o, sF.mem m.frame o = s.mem m.frame o) ∧
      m.frame < sF.nextFrame ∧
      FramesAllocated sF := by
  obtain ⟨c, sF, -, hne, -, -, -, hfork, -, hpgc, hpgp, hpgo, -, hnfF, hmemF, -, hid, -⟩ :=
    fork_spec s s1 hreg hlive hex
  obtain ⟨hcur, hpgsame, -, -, hfa, hmem1, hnfle, -⟩ :=
    register_effect (.pgfault FnPtr.pgfault) s s1 hreg
  have hf1 : FramesAllocated s1 := hfa hfresh
  have hframes := fork_frames s1 sF c hne hf1 hpgc hpgp hpgo
  have hm1 : s1.pgtab s1.curenv pn = some m := by
    rw [hcur, hpgsame _ _ (fun h => hux h.2)]
    exact hm
  have hsrc : dupSource s1 pn = some m := dupSource_of s1 pn m hux hm1 hu
  obtain ⟨hdc, hdp⟩ := dupChild_private_writable m hw hns
  have hmf : m.frame < s.nextFrame := hfresh _ _ _ hm
  have htemp1 : dupSource s1 (PGNUM PFTEMP) = none := by
    unfold dupSource
    rw [if_neg pftemp_not_uxstack, hcur, hpgsame _ _ (fun h => pftemp_not_uxstack h.2), htemp]
  rw [hcur] at hne hpgp
  refine ⟨c, sF, hfork, hne, hid, ?_, ?_, ?_, ?_, ?_, ?_⟩
  · rw [hpgp, if_pos hpn, hsrc]
    simp only []
    rw [hdp]
  · rw [hpgc, if_neg hux, if_pos hpn, hsrc]
    simp only [Option.map]
    rw [hdc]
  · rw [hpgc, if_neg pftemp_not_uxstack, if_pos pftemp_lt, htemp1]
    rfl
  · intro o
    rw [hmemF, if_neg (by omega), hmem1 _ _ hmf]
  · rw [hnfF]
    omega
  · intro e p m' hm'
    rw [hnfF]
    rcases hframes e p m' hm' with ⟨he, hp⟩ | h
    · rw [he, hp, hpgc, if_pos rfl] at hm'
      cases hm'
      exact Nat.lt_succ_self _
    · exact Nat.lt_succ_of_lt h

@[simp]
theorem switchTo_curenv (s : State) (e : Nat) : (s.switchTo e).curenv = e := rfl
@[simp]
theorem switchTo_pgtab (s : State) (e : Nat) : (s.switchTo e).pgtab = s.pgtab := rfl
@[simp]
theorem switchTo_mem (s : State) (e : Nat) : (s.switchTo e).mem = s.mem := rfl
@[simp]
theorem switchTo_nextFrame (s : State) (e : Nat) : (s.switchTo e).nextFrame = s.nextFrame := rfl

/-! ## Stores of the parent while `fork` runs -/

theorem fec_write (b : Prop) [Decidable b] :
    (FEC_WR ||| FEC_U ||| (if b then FEC_PR else 0)) &&& FEC_WR ≠ 0 := by
  split_ifs <;> decide

theorem sys_page_alloc_user (s : State) (envid : Int) (va perm : Nat) :
    (sys_page_alloc s envid va perm).2.curenv = s.curenv ∧
    (sys_page_alloc s envid va perm).2.envs = s.envs ∧
    (sys_page_alloc s envid va perm).2.thisenv = s.thisenv ∧
    (sys_page_alloc s envid va perm).2.pass_times = s.pass_times ∧
    (sys_page_alloc s envid va perm).2.exception_handler = s.exception_handler := by
  rcases sys_page_alloc_cases s envid va perm with ⟨-, hs⟩ | ⟨-, e, -, -, -, hs⟩ <;>
    rw [hs] <;> exact ⟨rfl, rfl, rfl, rfl, rfl⟩

theorem sys_page_map_user (s : State) (srcenv : Int) (srcva : Nat) (dstenv : Int)
    (dstva perm : Nat) :
    (sys_page_map s srcenv srcva dstenv dstva perm).2.curenv = s.curenv ∧
    (sys_page_map s srcenv srcva dstenv dstva perm).2.envs = s.envs ∧
    (sys_page_map s srcenv srcva dstenv dstva perm).2.thisenv = s.thisenv ∧
    (sys_page_map s srcenv srcva dstenv dstva perm).2.pass_times = s.pass_times ∧
    (sys_page_map s srcenv srcva dstenv dstva perm).2.exception_handler
      = s.exception_handler := by
  rcases sys_page_map_cases s srcenv srcva dstenv dstva perm
    with ⟨-, hs⟩ | ⟨-, se, de, m, -, -, -, -, hs⟩ <;>
    rw [hs] <;> exact ⟨rfl, rfl, rfl, rfl, rfl⟩

theorem sys_page_unmap_user (s : State) (envid : Int) (va : Nat) :
    (sys_page_unmap s envid va).2.curenv = s.curenv ∧
    (sys_page_unmap s envid va).2.envs = s.envs ∧
    (sys_page_unmap s envid va).2.thisenv = s.thisenv ∧
    (sys_page_unmap s envid va).2.pass_times = s.pass_times ∧
    (sys_page_unmap s envid va).2.exception_handler = s.exception_handler := by
  unfold sys_page_unmap
  simp only [envid2env_logCall]
  cases envid2env s envid <;> exact ⟨rfl, rfl, rfl, rfl, rfl⟩

theorem memcpy_user (s s2 : State) (dst src n : Nat) (h : memcpy s dst src n = some s2) :
    s2.curenv = s.curenv ∧ s2.envs = s.envs ∧ s2.thisenv = s.thisenv ∧
    s2.pass_times = s.pass_times ∧ s2.exception_handler = s.exception_handler := by
  unfold memcpy at h
  split at h
  · split_ifs at h
    cases h
    exact ⟨rfl, rfl, rfl, rfl, rfl⟩
  · cases h

/-- The handler `pgfault` leaves the user-level globals and the environment table as they
are, on every path. -/
theorem pgfault_user (s : State) (utf : UTrapframe) :
    (pgfault utf s).state.thisenv = s.thisenv ∧
    (pgfault utf s).state.pass_times = s.pass_times ∧
    (pgfault utf s).state.exception_handler = s.exception_handler := by
  unfold pgfault
  simp only []
  obtain ⟨-, -, a3, a4, a5⟩ := sys_page_alloc_user s 0 PFTEMP (PTE_P ||| PTE_U ||| PTE_W)
  by_cases hwr : utf.utf_err &&& FEC_WR = 0
  · rw [if_pos hwr]
    exact ⟨rfl, rfl, rfl⟩
  · rw [if_neg hwr]
    by_cases hcow : uvpt s (PGNUM utf.utf_fault_va) &&& PTE_COW = 0
    · rw [if_pos hcow]
      exact ⟨rfl, rfl, rfl⟩
    · rw [if_neg hcow]
      by_cases hr1 : (sys_page_alloc s 0 PFTEMP (PTE_P ||| PTE_U ||| PTE_W)).1 < 0
      · rw [if_pos hr1]
        exact ⟨a3, a4, a5⟩
      · rw [if_neg hr1]
        cases hmc : memcpy (sys_page_alloc s 0 PFTEMP (PTE_P ||| PTE_U ||| PTE_W)).2 PFTEMP
            (ROUNDDOWN utf.utf_fault_va PGSIZE) PGSIZE with
        | none => exact ⟨a3, a4, a5⟩
        | some s2 =>
          obtain ⟨-, -, b3, b4, b5⟩ := memcpy_user _ _ _ _ _ hmc
          obtain ⟨-, -, c3, c4, c5⟩ := sys_page_map_user s2 0 PFTEMP 0
            (ROUNDDOWN utf.utf_fault_va PGSIZE) (PTE_P ||| PTE_U ||| PTE_W)
          obtain ⟨-, -, d3, d4, d5⟩ := sys_page_unmap_user
            (sys_page_map s2 0 PFTEMP 0 (ROUNDDOWN utf.utf_fault_va PGSIZE)
              (PTE_P ||| PTE_U ||| PTE_W)).2 0 PFTEMP
          simp only []
          split_ifs
          · exact ⟨c3.trans (b3.trans a3), c4.trans (b4.trans a4), c5.trans (b5.trans a5)⟩
          · exact ⟨d3.trans (c3.trans (b3.trans a3)), d4.trans (c4.trans (b4.trans a4)),
              d5.trans (c5.trans (b5.trans a5))⟩
          · exact ⟨d3.trans (c3.trans (b3.trans a3)), d4.trans (c4.trans (b4.trans a4)),
              d5.trans (c5.trans (b5.trans a5))⟩

theorem stored_refl (Wr : Nat → Prop) (s : State) : Stored Wr s s :=
  ⟨rfl, rfl, rfl, rfl, rfl, fun _ _ _ => rfl, fun _ _ => rfl, fun _ _ h _ => h⟩

theorem stored_trans {Wr : Nat → Prop} {s s1 s2 : State} (h1 : Stored Wr s s1)
    (h2 : Stored Wr s1 s2) : Stored Wr s s2 := by
  refine ⟨h2.cur.trans h1.cur, h2.envs.trans h1.envs, h2.thisenv.trans h1.thisenv,
    h2.pass.trans h1.pass, h2.handler.trans h1.handler, ?_, ?_, ?_⟩
  · intro e p hn
    rw [h2.other e p (by rw [h1.cur]; exact hn), h1.other e p hn]
  · intro e p
    rw [h2.mapped, h1.mapped]
  · intro p mq hm hw
    have := h2.writable p mq (by rw [h1.cur]; exact h1.writable p mq hm hw) hw
    rw [h1.cur] at this
    exact this

theorem uvpt_congr (s s' : State) (p : Nat) (hcur : s'.curenv = s.curenv)
    (hpg : s'.pgtab s.curenv p = s.pgtab s.curenv p) : uvpt s' p = uvpt s p := by
  unfold uvpt
  rw [hcur, hpg]

theorem stored_bound {Wr : Nat → Prop} {s s' : State} (h : Stored Wr s s')
    (hb : FaultBound s) : FaultBound s' := by
  obtain ⟨h1, h2, h3⟩ := hb
  obtain ⟨mx, hmx, hx⟩ := uvpt_and_ne_zero s _ PTE_W (by decide) h2
  rw [hx] at h2
  have hsame := h.writable _ mx hmx h2
  refine ⟨?_, ?_, ?_⟩
  · rw [h.cur, h.envs]
    exact h1
  · rw [uvpt_congr s s' _ h.cur (hsame.trans hmx.symm), hx]
    exact h2
  · rw [h.cur, h.handler]
    exact h3

theorem userStore_kept (A : Nat) (m : Mapping) (Wr : Nat → Prop) (s0 s : State) (va val : Nat)
    (hk : Kept A m Wr s0 s) (hw : Wr (PGNUM va)) :
    ∃ s', userStore va val s = .ok () s' ∧ Stored Wr s s' ∧ Kept A m Wr s0 s' := by
  obtain ⟨mq, hmq, hfr, hperm⟩ := hk.wr _ hw
  have hcur := hk.cur
  have hmq' : s.pgtab s.curenv (PGNUM va) = some mq := by rw [hcur]; exact hmq
  by_cases hwb : mq.flags &&& PTE_W ≠ 0
  · -- the page is writable: the store goes through
    have hst : Stored Wr s { s with mem := fun f o => if f = mq.frame ∧ o = PGOFF va then val else s.mem f o } :=
      ⟨rfl, rfl, rfl, rfl, rfl, fun _ _ _ => rfl, fun _ _ => rfl, fun _ _ h _ => h⟩
    refine ⟨{ s with mem := fun f o => if f = mq.frame ∧ o = PGOFF va then val else s.mem f o }, ?_, hst, ?_⟩
    · unfold userStore userWrite
      rw [hmq']
      simp only []
      rw [if_pos hwb]
    · refine ⟨hk.cur, hk.temp, hk.frames, hk.old, ?_, ?_⟩
      · intro o
        show (if m.frame = mq.frame ∧ o = PGOFF va then val else s.mem m.frame o) = _
        rw [if_neg (fun h => hfr h.1.symm)]
        exact hk.mem o
      · intro q hq
        obtain ⟨mq', h1, h2, h3⟩ := hk.wr q hq
        refine ⟨mq', h1, h2, ?_⟩
        rcases h3 with h3 | h3
        · exact Or.inl h3
        · exact Or.inr ⟨h3.1, stored_bound hst h3.2⟩
  · -- the page is copy-on-write: the store faults and `pgfault` runs first
    have hw0 : mq.flags &&& PTE_W = 0 := by
      by_contra h
      exact hwb h
    obtain ⟨hcow, hb⟩ : mq.flags &&& PTE_COW ≠ 0 ∧ FaultBound s := by
      rcases hperm with h | h
      · exact absurd h hwb
      · exact h
    have hcow' : uvpt s (PGNUM va) &&& PTE_COW ≠ 0 := by
      rw [uvpt_and_of_mapped s _ PTE_COW mq (by decide) hmq']
      exact hcow
    have htemp : s.pgtab s.curenv (PGNUM PFTEMP) = none := by rw [hcur]; exact hk.temp
    obtain ⟨s1, m0, hrun, hm0, -, hpte, hnf, hmem, htmp1, hoth, hcur1, henvs1⟩ :=
      pgfault_run s ⟨va, FEC_WR ||| FEC_U |||
        (if (s.pgtab s.curenv (PGNUM va)).isSome then FEC_PR else 0)⟩
        (fec_write _) hcow' htemp
    have hm0q : m0 = mq := by
      have := hm0.symm.trans hmq'
      rw [Option.some.injEq] at this
      exact this
    subst hm0q
    obtain ⟨h3, h4, h5⟩ := pgfault_user s ⟨va, FEC_WR ||| FEC_U |||
        (if (s.pgtab s.curenv (PGNUM va)).isSome then FEC_PR else 0)⟩
    rw [hrun] at h3 h4 h5
    simp only [Outcome.state] at h3 h4 h5
    obtain ⟨mB, hmB, hmBf, hmBfl⟩ := pte_eq_some s1 s.curenv (PGNUM va) _ _ hpte
    have hwB : mB.flags &&& PTE_W ≠ 0 := by rw [hmBfl]; decide
    have hmB1 : s1.pgtab s1.curenv (PGNUM va) = some mB := by rw [hcur1]; exact hmB
    have hfresh : m.frame ≠ s.nextFrame := Nat.ne_of_lt hk.old
    have hst1 : Stored Wr s s1 := by
      refine ⟨hcur1, henvs1, h3, h4, h5, ?_, ?_, ?_⟩
      · intro e p hn
        apply hoth
        intro h
        exact hn ⟨h.1, by rw [h.2]; exact hw⟩
      · intro e p
        by_cases hep : e = s.curenv ∧ p = PGNUM va
        · rw [hep.1, hep.2, hmB, hmq']
          rfl
        · rw [hoth e p hep]
      · intro p mq' hp hwp
        by_cases hpv : p = PGNUM va
        · rw [hpv, hmq'] at hp
          cases hp
          exact absurd hw0 hwp
        · rw [hoth _ _ (fun h => hpv h.2)]
          exact hp
    have hst : Stored Wr s { s1 with mem := fun f o => if f = mB.frame ∧ o = PGOFF va then val else s1.mem f o } :=
      ⟨hst1.cur, hst1.envs, hst1.thisenv, hst1.pass, hst1.handler, hst1.other, hst1.mapped,
        hst1.writable⟩
    refine ⟨{ s1 with mem := fun f o => if f = mB.frame ∧ o = PGOFF va then val else s1.mem f o }, ?_, hst, ?_⟩
    · unfold userStore
      have hnone : userWrite s va val = none := by
        unfold userWrite
        rw [hmq']
        simp only []
        rw [if_neg hwb]
      have hsome : userWrite s1 va val = some { s1 with mem := fun f o => if f = mB.frame ∧ o = PGOFF va then val else s1.mem f o } := by
        unfold userWrite
        rw [hmB1]
        simp only []
        rw [if_pos hwB]
      rw [hnone]
      simp only []
      unfold deliverFault
      have hb' : (s.envs s.curenv).env_upcall T_PGFLT = FnPtr.pgfault_upcall
          ∧ uvpt s (PGNUM (UXSTACKTOP - PGSIZE)) &&& PTE_W ≠ 0
          ∧ s.exception_handler s.curenv T_PGFLT = FnPtr.pgfault := hb
      rw [if_pos hb', hrun]
      simp only [Outcome.bind]
      rw [hsome]
    · have hcurA : s1.curenv = A := hcur1.trans hcur
      refine ⟨hcurA, ?_, ?_, ?_, ?_, ?_⟩
      · show s1.pgtab A (PGNUM PFTEMP) = none
        rw [← hcur]
        exact htmp1
      · intro e p m' hm'
        show m'.frame < s1.nextFrame
        rw [hnf]
        by_cases hep : e = s.curenv ∧ p = PGNUM va
        · have hm'' : s1.pgtab e p = some m' := hm'
          rw [hep.1, hep.2, hmB] at hm''
          cases hm''
          rw [hmBf]
          exact Nat.lt_succ_self _
        · have hm'' : s1.pgtab e p = some m' := hm'
          rw [hoth e p hep] at hm''
          exact Nat.lt_succ_of_lt (hk.frames e p m' hm'')
      · show m.frame < s1.nextFrame
        rw [hnf]
        exact Nat.lt_succ_of_lt hk.old
      · intro o
        show (if m.frame = mB.frame ∧ o = PGOFF va then val else s1.mem m.frame o) = _
        rw [if_neg (fun h => hfresh (h.1.trans hmBf)), hmem]
        simp only [copyBytes, hfresh, false_and, if_false]
        exact hk.mem o
      · intro q hq
        show ∃ mq', s1.pgtab A q = some mq' ∧ _
        by_cases hqv : q = PGNUM va
        · refine ⟨mB, ?_, ?_, Or.inl hwB⟩
          · rw [hqv, ← hcur]
            exact hmB
          · rw [hmBf]
            exact hfresh.symm
        · obtain ⟨mq', h1, h2, h3⟩ := hk.wr q hq
          refine ⟨mq', ?_, h2, ?_⟩
          · rw [← hcur, hoth _ _ (fun h => hqv h.2), hcur]
            exact h1
          · rcases h3 with h3 | h3
            · exact Or.inl h3
            · exact Or.inr ⟨h3.1, stored_bound hst h3.2⟩

theorem runStores_kept (A : Nat) (m : Mapping) (Wr : Nat → Prop) (s0 : State) :
    ∀ (ws : List (Nat × Nat)) (s : State), Kept A m Wr s0 s →
      (∀ w, w ∈ ws → Wr (PGNUM w.1)) →
      ∃ s', runStores ws s = .ok () s' ∧ Stored Wr s s' ∧ Kept A m Wr s0 s' := by
  intro ws
  induction ws with
  | nil =>
    intro s hk _
    exact ⟨s, rfl, stored_refl Wr s, hk⟩
  | cons w ws ih =>
    intro s hk hw
    obtain ⟨s1, h1, hst1, hk1⟩ :=
      userStore_kept A m Wr s0 s w.1 w.2 hk (hw w (List.mem_cons_self _ _))
    obtain ⟨s2, h2, hst2, hk2⟩ := ih s1 hk1 (fun w' hw' => hw w' (List.mem_cons_of_mem _ hw'))
    refine ⟨s2, ?_, stored_trans hst1 hst2, hk2⟩
    rw [runStores, h1]
    exact h2

theorem faultBound_congr (s s' : State) (hcur : s'.curenv = s.curenv)
    (henv : s'.envs s.curenv = s.envs s.curenv)
    (hux : s'.pgtab s.curenv (PGNUM (UXSTACKTOP - PGSIZE))
      = s.pgtab s.curenv (PGNUM (UXSTACKTOP - PGSIZE)))
    (hh : s'.exception_handler = s.exception_handler) (hb : FaultBound s) : FaultBound s' := by
  obtain ⟨h1, h2, h3⟩ := hb
  refine ⟨?_, ?_, ?_⟩
  · rw [hcur, henv]
    exact h1
  · rw [uvpt_congr s s' _ hcur hux]
    exact h2
  · rw [hcur, hh]
    exact h3

/-- A step that leaves alone the parent's page table, its environment record and the
handler table keeps what `Kept` records. -/
theorem kept_other (A : Nat) (m : Mapping) (Wr : Nat → Prop) (s0 s s' : State)
    (hk : Kept A m Wr s0 s)
    (hcur : s'.curenv = s.curenv) (henv : s'.envs A = s.envs A)
    (hpg : ∀ p, s'.pgtab A p = s.pgtab A p)
    (hh : s'.exception_handler = s.exception_handler)
    (hfr : FramesAllocated s') (hnf : s.nextFrame ≤ s'.nextFrame)
    (hmem : ∀ o, s'.mem m.frame o = s.mem m.frame o) : Kept A m Wr s0 s' := by
  have hb : FaultBound s → FaultBound s' := by
    apply faultBound_congr s s' hcur
    · rw [hk.cur]; exact henv
    · rw [hk.cur]; exact hpg _
    · exact hh
  refine ⟨hcur.trans hk.cur, ?_, hfr, lt_of_lt_of_le hk.old hnf, ?_, ?_⟩
  · rw [hpg]
    exact hk.temp
  · intro o
    rw [hmem]
    exact hk.mem o
  · intro q hq
    obtain ⟨mq, h1, h2, h3⟩ := hk.wr q hq
    refine ⟨mq, by rw [hpg]; exact h1, h2, ?_⟩
    rcases h3 with h3 | h3
    · exact Or.inl h3
    · exact Or.inr ⟨h3.1, hb h3.2⟩

theorem frames_setPte (s : State) (e p : Nat) (mo : Option Mapping)
    (hf : FramesAllocated s) (hm : ∀ m', mo = some m' → m'.frame < s.nextFrame) :
    FramesAllocated (s.setPte e p mo) := by
  intro e' p' m' h
  rw [setPte_pgtab] at h
  by_cases hep : e' = e ∧ p' = p
  · rw [if_pos hep] at h
    exact hm m' h
  · rw [if_neg hep] at h
    exact hf e' p' m' h

theorem frames_allocFrame (s : State) (e p perm : Nat) (hf : FramesAllocated s) :
    FramesAllocated (s.allocFrame e p perm) := by
  intro e' p' m' h
  rw [allocFrame_pgtab] at h
  rw [allocFrame_nextFrame]
  by_cases hep : e' = e ∧ p' = p
  · rw [if_pos hep] at h
    cases h
    exact Nat.lt_succ_self _
  · rw [if_neg hep] at h
    exact Nat.lt_succ_of_lt (hf e' p' m' h)

theorem stores_dup (A c : Nat) (envid : Int) (m : Mapping) (Wr : Nat → Prop) (s0 : State)
    (pn : Nat) (pa : Mapping) (pc : Option Mapping) (hne : c ≠ A) (hnw : ¬ Wr pn)
    (ws : List (Nat × Nat)) (hws : ∀ w, w ∈ ws → Wr (PGNUM w.1)) (s : State)
    (hd : Dup A c envid m Wr s0 pn pa pc s) :
    ∃ s', runStores ws s = .ok () s' ∧ Stored Wr s s' ∧ Dup A c envid m Wr s0 pn pa pc s' := by
  obtain ⟨s', hrun, hst, hk⟩ := runStores_kept A m Wr s0 ws s hd.kept hws
  have hcur := hd.kept.cur
  have hc : ∀ p, s'.pgtab c p = s.pgtab c p := fun p =>
    hst.other c p (fun h => hne (h.1.trans hcur))
  refine ⟨s', hrun, hst, hk, stored_bound hst hd.bound, ?_, ?_, ?_, ?_⟩
  · unfold envid2env
    rw [hst.cur, hst.envs]
    exact hd.child
  · rw [hc]
    exact hd.ctemp
  · rw [hst.other A pn (fun h => hnw h.2)]
    exact hd.pa
  · rw [hc]
    exact hd.pc

theorem dup_child_map (A c : Nat) (envid : Int) (m : Mapping) (Wr : Nat → Prop) (s0 : State)
    (pn : Nat) (pa : Mapping) (pc : Option Mapping) (hne : c ≠ A) (s : State)
    (k : Nat) (mk : Mapping) (perm va : Nat)
    (hd : Dup A c envid m Wr s0 pn pa pc s)
    (hva : PGNUM va = k) (hmk : s.pgtab A k = some mk)
    (hperm : perm &&& PTE_SYSCALL = perm) :
    ∃ s', sys_page_map s 0 va envid va perm = (0, s') ∧
      Dup A c envid m Wr s0 pn pa (if k = pn then some (mkMapping mk.frame perm) else pc) s' ∧
      (∀ p, p ≠ k → s'.pgtab c p = s.pgtab c p) ∧ (∀ p, s'.pgtab A p = s.pgtab A p) := by
  have hcur := hd.kept.cur
  have hktemp : k ≠ PGNUM PFTEMP := by
    intro h
    rw [h, hd.kept.temp] at hmk
    cases hmk
  have e1 := sys_page_map_ok s 0 va envid va perm s.curenv c mk (envid2env_zero s) hd.child
    hperm (by rw [hva, hcur]; exact hmk)
  rw [hva] at e1
  have hA : ∀ p, ((s.logCall (.page_map 0 va envid va perm)).setPte c k
      (some (mkMapping mk.frame perm))).pgtab A p = s.pgtab A p := by
    intro p
    rw [setPte_pgtab, if_neg (fun h => hne h.1.symm)]
    rfl
  refine ⟨_, e1, ⟨?_, ?_, ?_, ?_, ?_, ?_⟩, ?_, hA⟩
  · refine kept_other A m Wr s0 s _ hd.kept rfl rfl hA rfl ?_ (le_refl _) (fun _ => rfl)
    exact frames_setPte _ c k _ hd.kept.frames (fun m' hm' => by
      cases hm'
      exact hd.kept.frames A k mk hmk)
  · refine faultBound_congr s _ rfl rfl ?_ rfl hd.bound
    rw [hcur]
    exact hA _
  · exact hd.child
  · rw [setPte_pgtab, if_neg (fun h => hktemp h.2.symm)]
    exact hd.ctemp
  · rw [hA]
    exact hd.pa
  · rw [setPte_pgtab]
    by_cases hkp : k = pn
    · rw [if_pos ⟨rfl, hkp.symm⟩, if_pos hkp]
    · rw [if_neg (fun h => hkp h.2.symm), if_neg hkp]
      exact hd.pc
  · intro p hp
    rw [setPte_pgtab, if_neg (fun h => hp h.2)]
    rfl

theorem dup_self_map (A c : Nat) (envid : Int) (m : Mapping) (Wr : Nat → Prop) (s0 : State)
    (pn : Nat) (pa : Mapping) (pc : Option Mapping) (hne : c ≠ A) (s : State)
    (k : Nat) (mk : Mapping) (va : Nat)
    (hd : Dup A c envid m Wr s0 pn pa pc s)
    (hva : PGNUM va = k) (hmk : s.pgtab A k = some mk)
    (hkux : k ≠ PGNUM (UXSTACKTOP - PGSIZE)) :
    ∃ s', sys_page_map s 0 va 0 va (PTE_P ||| PTE_U ||| PTE_COW) = (0, s') ∧
      Dup A c envid m Wr s0 pn (if k = pn then cowOf mk else pa) pc s' ∧
      (∀ p, s'.pgtab c p = s.pgtab c p) := by
  have hcur := hd.kept.cur
  have hktemp : k ≠ PGNUM PFTEMP := by
    intro h
    rw [h, hd.kept.temp] at hmk
    cases hmk
  have e1 := sys_page_map_ok s 0 va 0 va (PTE_P ||| PTE_U ||| PTE_COW) s.curenv s.curenv mk
    (envid2env_zero s) (envid2env_zero s) (by decide) (by rw [hva, hcur]; exact hmk)
  rw [hva, hcur] at e1
  have hA : ∀ p, ((s.logCall (.page_map 0 va 0 va (PTE_P ||| PTE_U ||| PTE_COW))).setPte A k
      (some (mkMapping mk.frame (PTE_P ||| PTE_U ||| PTE_COW)))).pgtab A p =
      if p = k then some (cowOf mk) else s.pgtab A p := by
    intro p
    rw [setPte_pgtab]
    by_cases hp : p = k
    · rw [if_pos ⟨rfl, hp⟩, if_pos hp]
      rfl
    · rw [if_neg (fun h => hp h.2), if_neg hp]
      rfl
  have hC : ∀ p, ((s.logCall (.page_map 0 va 0 va (PTE_P ||| PTE_U ||| PTE_COW))).setPte A k
      (some (mkMapping mk.frame (PTE_P ||| PTE_U ||| PTE_COW)))).pgtab c p = s.pgtab c p := by
    intro p
    rw [setPte_pgtab, if_neg (fun h => hne h.1)]
    rfl
  have hb : FaultBound ((s.logCall (.page_map 0 va 0 va (PTE_P ||| PTE_U ||| PTE_COW))).setPte
      A k (some (mkMapping mk.frame (PTE_P ||| PTE_U ||| PTE_COW)))) := by
    refine faultBound_congr s _ rfl rfl ?_ rfl hd.bound
    rw [hcur, hA, if_neg (Ne.symm hkux)]
  refine ⟨_, e1, ⟨⟨hcur, ?_, ?_, hd.kept.old, hd.kept.mem, ?_⟩, hb, hd.child, ?_, ?_, ?_⟩, hC⟩
  · rw [hA, if_neg (Ne.symm hktemp)]
    exact hd.kept.temp
  · exact frames_setPte _ A k _ hd.kept.frames (fun m' hm' => by
      cases hm'
      exact hd.kept.frames A k mk hmk)
  · intro q hq
    obtain ⟨mq, h1, h2, h3⟩ := hd.kept.wr q hq
    rw [hA]
    by_cases hqk : q = k
    · rw [if_pos hqk]
      rw [hqk, hmk] at h1
      cases h1
      exact ⟨cowOf mk, rfl, h2, Or.inr ⟨(by decide :
        (PTE_P ||| PTE_U ||| PTE_COW ||| PTE_P) % PGSIZE &&& PTE_COW ≠ 0), hb⟩⟩
    · rw [if_neg hqk]
      refine ⟨mq, h1, h2, ?_⟩
      rcases h3 with h3 | h3
      · exact Or.inl h3
      · exact Or.inr ⟨h3.1, hb⟩
  · rw [hC]
    exact hd.ctemp
  · rw [hA]
    by_cases hkp : k = pn
    · rw [if_pos hkp.symm, if_pos hkp]
    · rw [if_neg (Ne.symm hkp), if_neg hkp]
      exact hd.pa
  · rw [hC]
    exact hd.pc

theorem duppage_mem_dup (act : Site → List (Nat × Nat)) (A c : Nat) (envid : Int) (m : Mapping)
    (Wr : Nat → Prop) (s0 : State) (pn : Nat) (hne : c ≠ A) (hnw : ¬ Wr pn)
    (hact : ∀ site w, w ∈ act site → Wr (PGNUM w.1))
    (hmW : m.flags &&& PTE_W ≠ 0) (hmS : m.flags &&& PTE_SHARE = 0)
    (k : Nat) (hk : k < NPAGENUM) (hkux : k ≠ PGNUM (UXSTACKTOP - PGSIZE))
    (pa : Mapping) (pc : Option Mapping) (s : State)
    (hd : Dup A c envid m Wr s0 pn pa pc s)
    (hcux : s.pgtab c (PGNUM (UXSTACKTOP - PGSIZE)) = none)
    (hmapped : (s.pgtab A k).isSome = true)
    (hstage : k = pn → pa = m) :
    ∃ s', duppage_mem act envid k s = .ok 0 s' ∧
      Dup A c envid m Wr s0 pn (if k = pn then cowOf m else pa)
        (if k = pn then some (cowOf m) else pc) s' ∧
      s'.pgtab c (PGNUM (UXSTACKTOP - PGSIZE)) = none := by
  obtain ⟨s1, hrun1, hst1, hd1⟩ :=
    stores_dup A c envid m Wr s0 pn pa pc hne hnw (act (.dup k)) (hact _) s hd
  have hcurA := hd.kept.cur
  have hcur1 := hd1.kept.cur
  have hcux1 : s1.pgtab c (PGNUM (UXSTACKTOP - PGSIZE)) = none := by
    rw [hst1.other c _ (fun h => hne (h.1.trans hcurA))]
    exact hcux
  obtain ⟨mk, hmk⟩ : ∃ mk, s1.pgtab A k = some mk := by
    have := hst1.mapped A k
    rw [hmapped] at this
    exact Option.isSome_iff_exists.mp this
  have hmk' : s1.pgtab s1.curenv k = some mk := by rw [hcur1]; exact hmk
  have hva := va_of_pn k hk
  have hpg : PGNUM (k * PGSIZE) = k := pgnum_mul k
  have hshare := uvpt_and_of_mapped s1 k PTE_SHARE mk (by decide) hmk'
  have hwc := uvpt_and_of_mapped s1 k (PTE_W ||| PTE_COW) mk (by decide) hmk'
  have hsys := uvpt_and_of_mapped s1 k PTE_SYSCALL mk (by decide) hmk'
  have hmkm : k = pn → mk = m := by
    intro h
    have h1 := hd1.pa
    rw [← h, hmk] at h1
    rw [Option.some.injEq] at h1
    rw [h1]
    exact hstage h
  unfold duppage_mem
  rw [hrun1]
  simp only [Outcome.bind]
  rw [hva, hshare, hwc, hsys]
  by_cases hcase : mk.flags &&& PTE_SHARE ≠ 0 ∨ mk.flags &&& (PTE_W ||| PTE_COW) = 0
  · -- one map call, with the permissions of the parent's entry
    have hkp : k ≠ pn := by
      intro h
      rw [hmkm h] at hcase
      rcases hcase with h1 | h1
      · exact h1 hmS
      · exact and_or_ne_zero_left _ _ _ hmW h1
    obtain ⟨s2, e1, hd2, hc2, -⟩ := dup_child_map A c envid m Wr s0 pn pa pc hne s1 k mk
      (mk.flags &&& PTE_SYSCALL) (k * PGSIZE) hd1 hpg hmk (syscall_subset _)
    rw [if_neg hkp] at hd2
    refine ⟨s2, ?_, by rw [if_neg hkp, if_neg hkp]; exact hd2, ?_⟩
    · by_cases hs : mk.flags &&& PTE_SHARE ≠ 0
      · rw [if_pos hs, e1]
        rfl
      · have hz : mk.flags &&& (PTE_W ||| PTE_COW) = 0 := by
          rcases hcase with h | h
          · exact absurd h hs
          · exact h
        rw [if_neg hs, if_neg (by rw [hz]; simp), e1]
        rfl
    · rw [hc2 _ (Ne.symm hkux)]
      exact hcux1
  · -- the child is mapped copy-on-write, then the parent
    have hs0 : ¬ (mk.flags &&& PTE_SHARE ≠ 0) := fun h => hcase (Or.inl h)
    have hw0 : mk.flags &&& (PTE_W ||| PTE_COW) ≠ 0 := fun h => hcase (Or.inr h)
    obtain ⟨s2, e1, hd2, hc2, hA2⟩ := dup_child_map A c envid m Wr s0 pn pa pc hne s1 k mk
      (PTE_P ||| PTE_U ||| PTE_COW) (k * PGSIZE) hd1 hpg hmk (by decide)
    have hcux2 : s2.pgtab c (PGNUM (UXSTACKTOP - PGSIZE)) = none := by
      rw [hc2 _ (Ne.symm hkux)]
      exact hcux1
    obtain ⟨s3, hrun3, hst3, hd3⟩ := stores_dup A c envid m Wr s0 pn pa _ hne hnw
      (act (.remap k)) (hact _) s2 hd2
    have hcur2 := hd2.kept.cur
    have hcux3 : s3.pgtab c (PGNUM (UXSTACKTOP - PGSIZE)) = none := by
      rw [hst3.other c _ (fun h => hne (h.1.trans hcur2))]
      exact hcux2
    obtain ⟨mk3, hmk3⟩ : ∃ mk3, s3.pgtab A k = some mk3 := by
      have := hst3.mapped A k
      rw [hA2, hmk] at this
      exact Option.isSome_iff_exists.mp this
    have hmk3m : k = pn → mk3 = m := by
      intro h
      have h1 := hd3.pa
      rw [← h, hmk3] at h1
      rw [Option.some.injEq] at h1
      rw [h1]
      exact hstage h
    obtain ⟨s4, e4, hd4, hc4⟩ := dup_self_map A c envid m Wr s0 pn pa _ hne s3 k mk3
      (k * PGSIZE) hd3 hpg hmk3 hkux
    refine ⟨s4, ?_, ?_, ?_⟩
    · rw [if_neg hs0, if_pos hw0, e1]
      simp only []
      rw [if_neg (by decide), hrun3]
      simp only []
      rw [e4]
      rfl
    · by_cases hkp : k = pn
      · rw [if_pos hkp] at hd4 ⊢
        rw [if_pos hkp] at hd4 ⊢
        rw [hmk3m hkp] at hd4
        rw [hmkm hkp] at hd4
        exact hd4
      · rw [if_neg hkp] at hd4 ⊢
        rw [if_neg hkp] at hd4 ⊢
        exact hd4
    · rw [hc4]
      exact hcux3
theorem forkStep_mem_dup (act : Site → List (Nat × Nat)) (A c : Nat) (envid : Int)
    (m : Mapping) (Wr : Nat → Prop) (s0 : State) (pn : Nat) (hne : c ≠ A) (hnw : ¬ Wr pn)
    (hact : ∀ site w, w ∈ act site → Wr (PGNUM w.1))
    (hmU : m.flags &&& PTE_U ≠ 0) (hmW : m.flags &&& PTE_W ≠ 0)
    (hmS : m.flags &&& PTE_SHARE = 0) (hpnux : pn ≠ PGNUM (UXSTACKTOP - PGSIZE))
    (k : Nat) (hk : k < NPAGENUM)
    (pa : Mapping) (pc : Option Mapping) (s : State)
    (hd : Dup A c envid m Wr s0 pn pa pc s)
    (hcux : s.pgtab c (PGNUM (UXSTACKTOP - PGSIZE)) = none)
    (hstage : k = pn → pa = m) :
    ∃ s', forkStep_mem act envid (k * PGSIZE) s = .ok () s' ∧
      Dup A c envid m Wr s0 pn (if k = pn then cowOf m else pa)
        (if k = pn then some (cowOf m) else pc) s' ∧
      s'.pgtab c (PGNUM (UXSTACKTOP - PGSIZE)) = none := by
  obtain ⟨s1, hrun1, hst1, hd1⟩ :=
    stores_dup A c envid m Wr s0 pn pa pc hne hnw (act (.loop (k * PGSIZE))) (hact _) s hd
  have hcurA := hd.kept.cur
  have hcur1 := hd1.kept.cur
  have hcux1 : s1.pgtab c (PGNUM (UXSTACKTOP - PGSIZE)) = none := by
    rw [hst1.other c _ (fun h => hne (h.1.trans hcurA))]
    exact hcux
  have hskip : k ≠ pn → ∃ s', Outcome.ok () s1 = .ok () s' ∧
      Dup A c envid m Wr s0 pn (if k = pn then cowOf m else pa)
        (if k = pn then some (cowOf m) else pc) s' ∧
      s'.pgtab c (PGNUM (UXSTACKTOP - PGSIZE)) = none := by
    intro hkp
    refine ⟨s1, rfl, ?_, hcux1⟩
    rw [if_neg hkp, if_neg hkp]
    exact hd1
  unfold forkStep_mem
  rw [hrun1]
  simp only [Outcome.bind]
  by_cases hux : k = PGNUM (UXSTACKTOP - PGSIZE)
  · have hi : k * PGSIZE = UXSTACKTOP - PGSIZE := by rw [hux]; exact uxstack_page.symm
    rw [if_pos hi]
    exact hskip (fun h => hpnux (h.symm.trans hux))
  · have hi : ¬ (k * PGSIZE = UXSTACKTOP - PGSIZE) := by
      intro h
      apply hux
      rw [← h, pgnum_mul]
    rw [if_neg hi, pgnum_mul]
    cases hm : s1.pgtab s1.curenv k with
    | none =>
      have hg : ¬ (uvpd s1 (PDX (k * PGSIZE)) &&& PTE_P ≠ 0 ∧ uvpt s1 k &&& PTE_P ≠ 0
          ∧ uvpt s1 k &&& PTE_U ≠ 0) := by
        rw [uvpt_none s1 k hm]
        simp
      rw [if_neg hg]
      apply hskip
      intro hkp
      have := hd1.pa
      rw [← hkp, ← hcur1, hm] at this
      cases this
    | some mk =>
      have hP := uvpt_and_of_mapped s1 k PTE_P mk (by decide) hm
      have hU := uvpt_and_of_mapped s1 k PTE_U mk (by decide) hm
      by_cases hu : mk.flags &&& PTE_U ≠ 0
      · have hg : uvpd s1 (PDX (k * PGSIZE)) &&& PTE_P ≠ 0 ∧ uvpt s1 k &&& PTE_P ≠ 0
            ∧ uvpt s1 k &&& PTE_U ≠ 0 := by
          refine ⟨uvpd_of_mapped s1 k mk hk hm, ?_, ?_⟩
          · rw [hP, mk.present]; decide
          · rw [hU]; exact hu
        rw [if_pos hg]
        obtain ⟨s2, hdup, hd2, hcux2⟩ := duppage_mem_dup act A c envid m Wr s0 pn hne hnw hact
          hmW hmS k hk hux pa pc s1 hd1 hcux1 (by rw [← hcur1, hm]; rfl) hstage
        rw [hdup]
        exact ⟨s2, rfl, hd2, hcux2⟩
      · have hg : ¬ (uvpd s1 (PDX (k * PGSIZE)) &&& PTE_P ≠ 0 ∧ uvpt s1 k &&& PTE_P ≠ 0
            ∧ uvpt s1 k &&& PTE_U ≠ 0) := by
          rw [hU]
          intro h
          exact hu h.2.2
        rw [if_neg hg]
        apply hskip
        intro hkp
        have := hd1.pa
        rw [← hkp, ← hcur1, hm, Option.some.injEq] at this
        rw [this, hstage hkp] at hu
        exact hu hmU

theorem forkLoop_mem_dup (act : Site → List (Nat × Nat)) (A c : Nat) (envid : Int)
    (m : Mapping) (Wr : Nat → Prop) (s0 : State) (pn : Nat) (hne : c ≠ A) (hnw : ¬ Wr pn)
    (hact : ∀ site w, w ∈ act site → Wr (PGNUM w.1))
    (hmU : m.flags &&& PTE_U ≠ 0) (hmW : m.flags &&& PTE_W ≠ 0)
    (hmS : m.flags &&& PTE_SHARE = 0) (hpnux : pn ≠ PGNUM (UXSTACKTOP - PGSIZE))
    (hpn : pn < UTOP / PGSIZE) :
    ∀ n k s, k + n = UTOP / PGSIZE →
      Dup A c envid m Wr s0 pn (if pn < k then cowOf m else m)
        (if pn < k then some (cowOf m) else none) s →
      s.pgtab c (PGNUM (UXSTACKTOP - PGSIZE)) = none →
      ∃ s', forkLoop_mem act envid (k * PGSIZE) s = .ok () s' ∧
        Dup A c envid m Wr s0 pn (cowOf m) (some (cowOf m)) s' ∧
        s'.pgtab c (PGNUM (UXSTACKTOP - PGSIZE)) = none := by
  intro n
  induction n with
  | zero =>
    intro k s hk hd hcux
    rw [Nat.add_zero] at hk
    subst hk
    rw [forkLoop_mem, ← utop_pages, if_neg (Nat.lt_irrefl _)]
    rw [if_pos hpn, if_pos hpn] at hd
    exact ⟨s, rfl, hd, hcux⟩
  | succ n ih =>
    intro k s hk hd hcux
    have hklt : k < UTOP / PGSIZE := by omega
    have hkpn : k < NPAGENUM := lt_trans hklt utop_pages_lt
    have hi : k * PGSIZE < UTOP := by
      rw [utop_pages]
      exact Nat.mul_lt_mul_of_pos_right hklt (by decide)
    obtain ⟨s1, hstep, hd1, hcux1⟩ := forkStep_mem_dup act A c envid m Wr s0 pn hne hnw hact
      hmU hmW hmS hpnux k hkpn _ _ s hd hcux (by
        intro h
        rw [if_neg (by omega)])
    rw [forkLoop_mem, if_pos hi, hstep]
    simp only []
    have hnext : (k + 1) * PGSIZE = k * PGSIZE + PGSIZE := by
      rw [Nat.add_mul, Nat.one_mul]
    rw [← hnext]
    apply ih (k + 1) s1 (by omega) ?_ hcux1
    by_cases hkp : k = pn
    · rw [if_pos hkp, if_pos hkp] at hd1
      rw [if_pos (by omega), if_pos (by omega)]
      exact hd1
    · rw [if_neg hkp, if_neg hkp] at hd1
      by_cases hlt : pn < k
      · rw [if_pos hlt, if_pos hlt] at hd1
        rw [if_pos (by omega), if_pos (by omega)]
        exact hd1
      · rw [if_neg hlt, if_neg hlt] at hd1
        rw [if_neg (by omega), if_neg (by omega)]
        exact hd1

/-- A step that changes neither page tables, memory nor the allocator keeps what `Kept`
records, provided the fault path stays in place. -/
theorem kept_meta (A : Nat) (m : Mapping) (Wr : Nat → Prop) (s0 s s' : State)
    (hk : Kept A m Wr s0 s) (hcur : s'.curenv = s.curenv) (hpg : s'.pgtab = s.pgtab)
    (hmem : s'.mem = s.mem) (hnf : s'.nextFrame = s.nextFrame)
    (hb : FaultBound s → FaultBound s') : Kept A m Wr s0 s' := by
  refine ⟨hcur.trans hk.cur, ?_, ?_, ?_, ?_, ?_⟩
  · rw [hpg]
    exact hk.temp
  · intro e p m' hm'
    rw [hpg] at hm'
    rw [hnf]
    exact hk.frames e p m' hm'
  · rw [hnf]
    exact hk.old
  · intro o
    rw [hmem]
    exact hk.mem o
  · intro q hq
    obtain ⟨mq, h1, h2, h3⟩ := hk.wr q hq
    refine ⟨mq, by rw [hpg]; exact h1, h2, ?_⟩
    rcases h3 with h3 | h3
    · exact Or.inl h3
    · exact Or.inr ⟨h3.1, hb h3.2⟩

theorem uxstack_flags_w :
    (mkMapping 0 (PTE_W ||| PTE_U ||| PTE_P)).flags &&& PTE_W ≠ 0 := by decide

/-- The registration step of `fork`, with the parent's stores: it returns, with the fault
path in place afterwards. -/
theorem register_mem_kept (act : Site → List (Nat × Nat)) (A : Nat) (m : Mapping)
    (Wr : Nat → Prop) (s0 s : State)
    (hact : ∀ site w, w ∈ act site → Wr (PGNUM w.1))
    (hk : Kept A m Wr s0 s)
    (hreg : (s.pass_times s.curenv = 0 ∧ s.pgtab s.curenv (PGNUM (UXSTACKTOP - PGSIZE)) = none) ∨
      (s.pass_times s.curenv ≠ 0 ∧ (s.envs s.curenv).env_upcall T_PGFLT = FnPtr.pgfault_upcall ∧
        uvpt s (PGNUM (UXSTACKTOP - PGSIZE)) &&& PTE_W ≠ 0)) :
    ∃ s1, set_pgfault_handler_mem act FnPtr.pgfault s = .ok () s1 ∧ Kept A m Wr s0 s1 ∧
      FaultBound s1 ∧
      (∀ e p, ¬ (e = A ∧ (Wr p ∨ p = PGNUM (UXSTACKTOP - PGSIZE))) →
        s1.pgtab e p = s.pgtab e p) ∧
      (∀ e, (s1.envs e).env_status = (s.envs e).env_status ∧
        (s1.envs e).env_id = (s.envs e).env_id) := by
  have hcurA := hk.cur
  obtain ⟨sE, hrunE, hstE, hkE⟩ := runStores_kept A m Wr s0 (act .entry) s hk (hact _)
  have hcurE := hkE.cur
  have hothE : ∀ e p, ¬ (e = A ∧ (Wr p ∨ p = PGNUM (UXSTACKTOP - PGSIZE))) →
      sE.pgtab e p = s.pgtab e p := by
    intro e p hn
    apply hstE.other
    rw [hcurA]
    exact fun h => hn ⟨h.1, Or.inl h.2⟩
  unfold set_pgfault_handler_mem
  rw [hrunE]
  simp only [Outcome.bind]
  rcases hreg with ⟨hp0, hux0⟩ | ⟨hp1, hup, huxw⟩
  · -- first registration: the exception stack is allocated and the upcall bound
    have hpE : sE.pass_times sE.curenv = 0 := by rw [hstE.pass, hstE.cur]; exact hp0
    have huxE : sE.pgtab sE.curenv (PGNUM (UXSTACKTOP - PGSIZE)) = none := by
      have := hstE.mapped s.curenv (PGNUM (UXSTACKTOP - PGSIZE))
      rw [hux0] at this
      rw [hstE.cur]
      exact Option.not_isSome_iff_eq_none.mp (by rw [this]; simp)
    rw [if_pos hpE]
    generalize hs0 : ({ sE with
      pass_times := fun e => if e = sE.curenv then 1 else sE.pass_times e } : State) = sP
    have hcP : sP.curenv = sE.curenv := by rw [← hs0]
    have hkP : Kept A m Wr s0 sP := by
      rw [← hs0]
      exact kept_meta A m Wr s0 sE _ hkE rfl rfl rfl rfl (fun h => h)
    have hpgP : sP.pgtab = sE.pgtab := by rw [← hs0]
    have henvP : sP.envs = sE.envs := by rw [← hs0]
    have hehP : sP.exception_handler = sE.exception_handler := by rw [← hs0]
    clear hs0
    have e1 := sys_page_alloc_ok sP 0 (UXSTACKTOP - PGSIZE) (PTE_W ||| PTE_U ||| PTE_P)
      sP.curenv (envid2env_zero sP) (by decide) (by rw [hpgP, hcP]; exact huxE)
    generalize hsA : (sP.logCall (.page_alloc 0 (UXSTACKTOP - PGSIZE)
      (PTE_W ||| PTE_U ||| PTE_P))).allocFrame sP.curenv (PGNUM (UXSTACKTOP - PGSIZE))
      (PTE_W ||| PTE_U ||| PTE_P) = sA at e1
    have hcPA : sP.curenv = A := hcP.trans hcurE
    have hpgA : ∀ e p, sA.pgtab e p = if e = A ∧ p = PGNUM (UXSTACKTOP - PGSIZE)
        then some (mkMapping sP.nextFrame (PTE_W ||| PTE_U ||| PTE_P)) else sE.pgtab e p := by
      intro e p
      rw [← hsA, allocFrame_pgtab, hcPA]
      simp only [logCall_pgtab, logCall_nextFrame, hpgP]
    have hnoux : ∀ q, Wr q → q ≠ PGNUM (UXSTACKTOP - PGSIZE) := by
      intro q hq h
      obtain ⟨mq, h1, -⟩ := hkE.wr q hq
      rw [h, ← hcurE, huxE] at h1
      cases h1
    have hkA : Kept A m Wr s0 sA := by
      refine ⟨by rw [← hsA]; exact hcPA, ?_, ?_, ?_, ?_, ?_⟩
      · rw [hpgA, if_neg (fun h => pftemp_not_uxstack h.2)]
        exact hkE.temp
      · rw [← hsA]
        exact frames_allocFrame _ _ _ _ hkP.frames
      · rw [← hsA]
        exact Nat.lt_succ_of_lt hkP.old
      · intro o
        rw [← hsA, allocFrame_mem]
        show (if m.frame = sP.nextFrame then 0 else sP.mem m.frame o) = _
        rw [if_neg (Nat.ne_of_lt hkP.old)]
        exact hkP.mem o
      · intro q hq
        obtain ⟨mq, h1, h2, h3⟩ := hkE.wr q hq
        refine ⟨mq, ?_, h2, ?_⟩
        · rw [hpgA, if_neg (fun h => hnoux q hq h.2)]
          exact h1
        · rcases h3 with h3 | h3
          · exact Or.inl h3
          · exfalso
            have := h3.2.2.1
            rw [uvpt_none sE _ huxE] at this
            exact this (by simp)
    have hcA : sA.curenv = A := hkA.cur
    have henvA : sA.envs = sE.envs := by rw [← hsA]; exact henvP
    have hehA : sA.exception_handler = sE.exception_handler := by rw [← hsA]; exact hehP
    clear hsA
    simp only [e1]
    rw [if_neg (by decide)]
    obtain ⟨sB, hrunB, hstB, hkB⟩ := runStores_kept A m Wr s0 (act .reg_bind) sA hkA (hact _)
    rw [hrunB]
    simp only []
    have hcB : sB.curenv = A := hkB.cur
    have e2 := bindUpcall_ok (sB.logCall (.env_set_pgfault_upcall 0 FnPtr.pgfault_upcall)) 0
      T_PGFLT FnPtr.pgfault_upcall sB.curenv (envid2env_zero _)
    simp only [sys_env_set_pgfault_upcall, e2]
    rw [if_neg (by decide)]
    have huxB : sB.pgtab A (PGNUM (UXSTACKTOP - PGSIZE))
        = some (mkMapping sP.nextFrame (PTE_W ||| PTE_U ||| PTE_P)) := by
      have := hstB.writable (PGNUM (UXSTACKTOP - PGSIZE))
        (mkMapping sP.nextFrame (PTE_W ||| PTE_U ||| PTE_P))
        (by rw [hcA, hpgA, if_pos ⟨rfl, rfl⟩]) uxstack_flags_w
      rw [hcA] at this
      exact this
    refine ⟨_, rfl, ?_, ?_, ?_, ?_⟩
    · refine kept_meta A m Wr s0 sB _ hkB rfl rfl rfl rfl ?_
      intro hb
      exact ⟨by simp [setEnv_envs], hb.2.1, by simp⟩
    · have hu : ∀ s' : State, s'.curenv = sB.curenv → s'.pgtab = sB.pgtab →
          uvpt s' (PGNUM (UXSTACKTOP - PGSIZE)) &&& PTE_W ≠ 0 := by
        intro s' h1 h2
        rw [uvpt_congr sB s' _ h1 (by rw [h2]),
          uvpt_and_of_mapped sB _ PTE_W _ (by decide) (by rw [hcB]; exact huxB)]
        exact uxstack_flags_w
      exact ⟨by simp [setEnv_envs], hu _ rfl rfl, by simp⟩
    · intro e p hn
      show sB.pgtab e p = s.pgtab e p
      rw [hstB.other e p (by rw [hcA]; exact fun h => hn ⟨h.1, Or.inl h.2⟩), hpgA,
        if_neg (fun h => hn ⟨h.1, Or.inr h.2⟩)]
      exact hothE e p hn
    · intro e
      simp only [setEnv_envs, logCall_envs, logCall_curenv]
      rw [hstB.envs, henvA, hstE.envs]
      by_cases he : e = sB.curenv
      · rw [if_pos he, he]
        exact ⟨rfl, rfl⟩
      · rw [if_neg he]
        exact ⟨rfl, rfl⟩
  · -- a handler was registered before: only the handler slot is written
    have hpE : sE.pass_times sE.curenv ≠ 0 := by rw [hstE.pass, hstE.cur]; exact hp1
    rw [if_neg hpE]
    have hbE : (sE.envs sE.curenv).env_upcall T_PGFLT = FnPtr.pgfault_upcall ∧
        uvpt sE (PGNUM (UXSTACKTOP - PGSIZE)) &&& PTE_W ≠ 0 := by
      obtain ⟨mx, hmx, hx⟩ := uvpt_and_ne_zero s _ PTE_W (by decide) huxw
      rw [hx] at huxw
      have hsame := hstE.writable _ mx hmx huxw
      refine ⟨by rw [hstE.cur, hstE.envs]; exact hup, ?_⟩
      rw [uvpt_congr s sE _ hstE.cur (hsame.trans hmx.symm), hx]
      exact huxw
    refine ⟨_, rfl, ?_, ?_, hothE, ?_⟩
    · refine kept_meta A m Wr s0 sE _ hkE rfl rfl rfl rfl ?_
      intro hb
      exact ⟨hb.1, hb.2.1, by simp⟩
    · exact ⟨hbE.1, hbE.2, by simp⟩
    · intro e
      show (sE.envs e).env_status = _ ∧ (sE.envs e).env_id = _
      rw [hstE.envs]
      exact ⟨rfl, rfl⟩

/-- A step that leaves alone the parent's page table, its environment record and the
handler table, and the child's entries for the scratch page, keeps what `Dup` records up
to the child's entry for the page `pn`. -/
theorem dup_other (A c : Nat) (envid : Int) (m : Mapping) (Wr : Nat → Prop) (s0 : State)
    (pn : Nat) (pa : Mapping) (pc pc' : Option Mapping) (s s' : State)
    (hd : Dup A c envid m Wr s0 pn pa pc s)
    (hcur : s'.curenv = s.curenv) (henv : s'.envs A = s.envs A)
    (hpg : ∀ p, s'.pgtab A p = s.pgtab A p)
    (hh : s'.exception_handler = s.exception_handler)
    (hfr : FramesAllocated s') (hnf : s.nextFrame ≤ s'.nextFrame)
    (hmem : ∀ o, s'.mem m.frame o = s.mem m.frame o)
    (hchild : envid2env s' envid = some c)
    (htemp : s'.pgtab c (PGNUM PFTEMP) = none)
    (hpc : s'.pgtab c pn = pc') : Dup A c envid m Wr s0 pn pa pc' s' := by
  refine ⟨kept_other A m Wr s0 s s' hd.kept hcur henv hpg hh hfr hnf hmem, ?_, hchild, htemp,
    ?_, hpc⟩
  · apply faultBound_congr s s' hcur _ _ hh hd.bound
    · rw [hd.kept.cur]; exact henv
    · rw [hd.kept.cur]; exact hpg _
  · rw [hpg]
    exact hd.pa

theorem envid2env_pos (s : State) (envid : Int) (c : Nat) (hpos : 0 < envid)
    (h : envid2env s envid = some c) :
    ENVX envid = c ∧ (s.envs c).env_status ≠ ENV_FREE ∧ (s.envs c).env_id = envid := by
  unfold envid2env at h
  rw [if_neg (ne_of_gt hpos)] at h
  by_cases hc : (s.envs (ENVX envid)).env_status ≠ ENV_FREE ∧ (s.envs (ENVX envid)).env_id = envid
  · rw [if_pos hc] at h
    rw [Option.some.injEq] at h
    rw [← h]
    exact ⟨rfl, hc.1, hc.2⟩
  · rw [if_neg hc] at h
    cases h

theorem envid2env_of (s : State) (envid : Int) (c : Nat) (hpos : 0 < envid)
    (hx : ENVX envid = c) (hst : (s.envs c).env_status ≠ ENV_FREE)
    (hid : (s.envs c).env_id = envid) : envid2env s envid = some c := by
  unfold envid2env
  rw [if_neg (ne_of_gt hpos), hx, if_pos ⟨hst, hid⟩]

/-- The parent continuation of `fork` with the parent's stores, from a state in which the
child exists with an empty address space: it returns the child's identifier, and page `pn`
is mapped copy-on-write on the frame of `m` in parent and child. -/
theorem fork_cont_mem_dup (act : Site → List (Nat × Nat)) (A c : Nat) (envid : Int)
    (m : Mapping) (Wr : Nat → Prop) (s0 : State) (pn : Nat) (hne : c ≠ A) (hnw : ¬ Wr pn)
    (hact : ∀ site w, w ∈ act site → Wr (PGNUM w.1))
    (hmU : m.flags &&& PTE_U ≠ 0) (hmW : m.flags &&& PTE_W ≠ 0)
    (hmS : m.flags &&& PTE_SHARE = 0) (hpnux : pn ≠ PGNUM (UXSTACKTOP - PGSIZE))
    (hpn : pn < UTOP / PGSIZE) (hpos : 0 < envid) (s : State)
    (hd : Dup A c envid m Wr s0 pn m none s)
    (hcux : s.pgtab c (PGNUM (UXSTACKTOP - PGSIZE)) = none) :
    ∃ s', fork_cont_mem act envid s = .ok envid s' ∧
      Dup A c envid m Wr s0 pn (cowOf m) (some (cowOf m)) s' := by
  obtain ⟨sL, hloop, hdL, hcuxL⟩ := forkLoop_mem_dup act A c envid m Wr s0 pn hne hnw hact
    hmU hmW hmS hpnux hpn (UTOP / PGSIZE) 0 s (Nat.zero_add _)
    (by rw [if_neg (Nat.not_lt_zero _), if_neg (Nat.not_lt_zero _)]; exact hd) hcux
  rw [Nat.zero_mul] at hloop
  -- the stores before the allocation of the child's exception stack
  obtain ⟨sS, hrunS, hstS, hdS⟩ := stores_dup A c envid m Wr s0 pn _ _ hne hnw (act .stack)
    (hact _) sL hdL
  have hcuxS : sS.pgtab c (PGNUM (UXSTACKTOP - PGSIZE)) = none := by
    rw [hstS.other c _ (fun h => hne (h.1.trans hdL.kept.cur))]
    exact hcuxL
  have e1 := sys_page_alloc_ok sS envid (UXSTACKTOP - PGSIZE) (PTE_P ||| PTE_U ||| PTE_W) c
    hdS.child (by decide) hcuxS
  generalize hsT : (sS.logCall (.page_alloc envid (UXSTACKTOP - PGSIZE)
    (PTE_P ||| PTE_U ||| PTE_W))).allocFrame c (PGNUM (UXSTACKTOP - PGSIZE))
    (PTE_P ||| PTE_U ||| PTE_W) = sT at e1
  have hdT : Dup A c envid m Wr s0 pn (cowOf m) (some (cowOf m)) sT := by
    rw [← hsT]
    refine dup_other A c envid m Wr s0 pn _ _ _ sS _ hdS rfl rfl ?_ rfl ?_ ?_ ?_ hdS.child ?_ ?_
    · intro p
      rw [allocFrame_pgtab, if_neg (fun h => hne h.1.symm)]
      rfl
    · exact frames_allocFrame _ _ _ _ hdS.kept.frames
    · exact Nat.le_succ _
    · intro o
      rw [allocFrame_mem]
      show (if m.frame = sS.nextFrame then 0 else sS.mem m.frame o) = _
      rw [if_neg (Nat.ne_of_lt hdS.kept.old)]
    · rw [allocFrame_pgtab, if_neg (fun h => pftemp_not_uxstack h.2)]
      exact hdS.ctemp
    · rw [allocFrame_pgtab, if_neg (fun h => hpnux h.2)]
      exact hdS.pc
  clear hsT
  -- the stores before the binding of the child's upcall
  obtain ⟨sU, hrunU, hstU, hdU⟩ := stores_dup A c envid m Wr s0 pn _ _ hne hnw (act .bind)
    (hact _) sT hdT
  have e2 := bindUpcall_ok (sU.logCall (.env_set_pgfault_upcall envid
    ((sU.envs (sU.thisenv sU.curenv)).env_upcall T_PGFLT))) envid T_PGFLT
    ((sU.envs (sU.thisenv sU.curenv)).env_upcall T_PGFLT) c hdU.child
  generalize hsV : (sU.logCall (.env_set_pgfault_upcall envid
    ((sU.envs (sU.thisenv sU.curenv)).env_upcall T_PGFLT))).setEnv c
    { (sU.logCall (.env_set_pgfault_upcall envid
        ((sU.envs (sU.thisenv sU.curenv)).env_upcall T_PGFLT))).envs c with
      env_upcall := fun v => if v = T_PGFLT then (sU.envs (sU.thisenv sU.curenv)).env_upcall T_PGFLT
        else ((sU.logCall (.env_set_pgfault_upcall envid
          ((sU.envs (sU.thisenv sU.curenv)).env_upcall T_PGFLT))).envs c).env_upcall v } = sV at e2
  have hdV : Dup A c envid m Wr s0 pn (cowOf m) (some (cowOf m)) sV := by
    rw [← hsV]
    refine dup_other A c envid m Wr s0 pn _ _ _ sU _ hdU rfl ?_ (fun _ => rfl) rfl
      hdU.kept.frames (le_refl _) (fun _ => rfl) ?_ hdU.ctemp hdU.pc
    · rw [setEnv_envs, if_neg (Ne.symm hne)]
      rfl
    · refine (envid2env_setEnv _ _ _ _ ?_ ?_).trans hdU.child <;> rfl
  clear hsV
  -- the stores before the child is marked runnable
  obtain ⟨sW, hrunW, hstW, hdW⟩ := stores_dup A c envid m Wr s0 pn _ _ hne hnw (act .status)
    (hact _) sV hdV
  have e3 := sys_env_set_status_ok sW envid ENV_RUNNABLE c hdW.child
  generalize hsX : (sW.logCall (.env_set_status envid ENV_RUNNABLE)).setEnv c
    { sW.envs c with env_status := ENV_RUNNABLE } = sX at e3
  have hdX : Dup A c envid m Wr s0 pn (cowOf m) (some (cowOf m)) sX := by
    obtain ⟨hx, -, hid⟩ := envid2env_pos sW envid c hpos hdW.child
    rw [← hsX]
    refine dup_other A c envid m Wr s0 pn _ _ _ sW _ hdW rfl ?_ (fun _ => rfl) rfl
      hdW.kept.frames (le_refl _) (fun _ => rfl) ?_ hdW.ctemp hdW.pc
    · rw [setEnv_envs, if_neg (Ne.symm hne)]
      rfl
    · apply envid2env_of _ envid c hpos hx
      · rw [setEnv_envs, if_pos rfl]
        exact (by decide : ENV_RUNNABLE ≠ ENV_FREE)
      · rw [setEnv_envs, if_pos rfl]
        exact hid
  clear hsX
  -- the stores before the return
  obtain ⟨sF, hrunF, hstF, hdF⟩ := stores_dup A c envid m Wr s0 pn _ _ hne hnw (act .ret)
    (hact _) sX hdX
  refine ⟨sF, ?_, hdF⟩
  unfold fork_cont_mem
  rw [if_neg (not_lt.mpr (le_of_lt hpos)), if_neg (ne_of_gt hpos), hloop]
  simp only [Outcome.bind]
  rw [hrunS]
  simp only [e1]
  rw [if_neg (by decide), hrunU]
  simp only [sys_env_set_pgfault_upcall, e2]
  rw [if_neg (by decide), hrunW]
  simp only [e3]
  rw [if_neg (by decide), hrunF]

/-- What `fork`, run together with the parent's own stores, leaves of a private writable
page `pn` of the parent that is below `UTOP`, is not the exception stack and is not stored
to, nor its frame, while `fork` runs. -/
theorem fork_mem_private_page (act : Site → List (Nat × Nat)) (s : State) (c pn : Nat)
    (m : Mapping)
    (hreg : (s.pass_times s.curenv = 0 ∧ s.pgtab s.curenv (PGNUM (UXSTACKTOP - PGSIZE)) = none) ∨
      (s.pass_times s.curenv ≠ 0 ∧ (s.envs s.curenv).env_upcall T_PGFLT = FnPtr.pgfault_upcall ∧
        uvpt s (PGNUM (UXSTACKTOP - PGSIZE)) &&& PTE_W ≠ 0))
    (hlive : (s.envs s.curenv).env_status ≠ ENV_FREE)
    (hfree : findFree s.envs NENV 0 = some c)
    (hfresh : FramesAllocated s)
    (hpn : pn < UTOP / PGSIZE) (hux : pn ≠ PGNUM (UXSTACKTOP - PGSIZE))
    (hm : s.pgtab s.curenv pn = some m)
    (hu : m.flags &&& PTE_U ≠ 0) (hw : m.flags &&& PTE_W ≠ 0)
    (hns : m.flags &&& PTE_SHARE = 0)
    (htemp : s.pgtab s.curenv (PGNUM PFTEMP) = none)
    (hact : ∀ site w, w ∈ act site → ∃ mq, s.pgtab s.curenv (PGNUM w.1) = some mq ∧
      mq.flags &&& PTE_W ≠ 0 ∧ mq.frame ≠ m.frame) :
    ∃ sF, fork_mem act s = .ok (mkenvid (s.envs c).env_id c) sF ∧ c ≠ s.curenv ∧
      (sF.envs c).env_id = mkenvid (s.envs c).env_id c ∧
      sF.pgtab s.curenv pn = some (cowOf m) ∧
      sF.pgtab c pn = some (cowOf m) ∧
      sF.pgtab c (PGNUM PFTEMP) = none ∧
      (∀ o, sF.mem m.frame o = s.mem m.frame o) ∧
      m.frame < sF.nextFrame ∧
      FramesAllocated sF := by
  -- the pages the parent stores to
  obtain ⟨Wr, hWr⟩ : ∃ Wr : Nat → Prop, Wr = fun q => ∃ site w, w ∈ act site ∧ PGNUM w.1 = q :=
    ⟨_, rfl⟩
  have hactW : ∀ site w, w ∈ act site → Wr (PGNUM w.1) := by
    intro site w h
    rw [hWr]
    exact ⟨site, w, h, rfl⟩
  have hwr : ∀ q, Wr q → ∃ mq, s.pgtab s.curenv q = some mq ∧ mq.flags &&& PTE_W ≠ 0 ∧
      mq.frame ≠ m.frame := by
    intro q hq
    rw [hWr] at hq
    obtain ⟨site, w, hmem, hq⟩ := hq
    rw [← hq]
    exact hact site w hmem
  have hnw : ¬ Wr pn := by
    intro h
    obtain ⟨mq, h1, -, h3⟩ := hwr pn h
    rw [hm, Option.some.injEq] at h1
    exact h3 (by rw [h1])
  clear hWr hact
  have hk0 : Kept s.curenv m Wr s s := by
    refine ⟨rfl, htemp, hfresh, hfresh _ _ _ hm, fun _ => rfl, ?_⟩
    intro q hq
    obtain ⟨mq, h1, h2, h3⟩ := hwr q hq
    exact ⟨mq, h1, h3, Or.inl h2⟩
  -- registration
  obtain ⟨s1, hrun1, hk1, hb1, hoth1, henv1⟩ :=
    register_mem_kept act s.curenv m Wr s s hactW hk0 hreg
  have hm1 : s1.pgtab s.curenv pn = some m := by
    rw [hoth1 _ _ (fun h => h.2.elim hnw hux)]
    exact hm
  -- the stores before the child is created
  obtain ⟨sE, hrunE, hstE, hkE⟩ := runStores_kept s.curenv m Wr s (act .exofork) s1 hk1 (hactW _)
  have hbE : FaultBound sE := stored_bound hstE hb1
  have hcur1 := hk1.cur
  have hcurE := hkE.cur
  have hfind : findFree sE.envs NENV 0 = some c := by
    rw [hstE.envs, findFree_congr s.envs s1.envs (fun e => (henv1 e).1)]
    exact hfree
  obtain ⟨-, hclt, hcfree⟩ := findFree_spec s.envs NENV 0 c hfree
  rw [Nat.zero_add] at hclt
  have hne : c ≠ s.curenv := by
    intro h
    rw [h] at hcfree
    exact hlive hcfree
  have hidE : (sE.envs c).env_id = (s.envs c).env_id := by
    rw [hstE.envs]
    exact (henv1 c).2
  have hexo := sys_exofork_ok sE c hfind
  rw [hidE] at hexo
  generalize hid : mkenvid (s.envs c).env_id c = id at hexo ⊢
  have hpos : 0 < id := by rw [← hid]; exact mkenvid_pos _ _
  have hx : ENVX id = c := by rw [← hid]; exact ENVX_mkenvid _ _ hclt
  generalize hs2 : ({ (sE.logCall .exofork).setEnv c
      ⟨id, ENV_NOT_RUNNABLE, fun _ => FnPtr.null⟩ with
      pgtab := fun e pn => if e = c then none else sE.pgtab e pn } : State) = s2 at hexo
  have hcur2 : s2.curenv = sE.curenv := by rw [← hs2]; rfl
  have hpg2 : ∀ e p, s2.pgtab e p = if e = c then none else sE.pgtab e p := by
    intro e p; rw [← hs2]
  have henv2 : ∀ e, s2.envs e
      = if e = c then ⟨id, ENV_NOT_RUNNABLE, fun _ => FnPtr.null⟩ else sE.envs e := by
    intro e; rw [← hs2]; rfl
  have hnf2 : s2.nextFrame = sE.nextFrame := by rw [← hs2]; rfl
  have hmem2 : s2.mem = sE.mem := by rw [← hs2]; rfl
  have heh2 : s2.exception_handler = sE.exception_handler := by rw [← hs2]; rfl
  clear hs2
  have hpgA2 : ∀ p, s2.pgtab s.curenv p = sE.pgtab s.curenv p := by
    intro p
    rw [hpg2, if_neg (Ne.symm hne)]
  have henvA2 : s2.envs s.curenv = sE.envs s.curenv := by
    rw [henv2, if_neg (Ne.symm hne)]
  have hfr2 : FramesAllocated s2 := by
    intro e p m' hm'
    rw [hpg2] at hm'
    rw [hnf2]
    by_cases hec : e = c
    · rw [if_pos hec] at hm'
      cases hm'
    · rw [if_neg hec] at hm'
      exact hkE.frames e p m' hm'
  have hd2 : Dup s.curenv c id m Wr s pn m none s2 := by
    refine ⟨kept_other s.curenv m Wr s sE s2 hkE hcur2 henvA2 hpgA2 heh2 hfr2
      (by rw [hnf2]) (fun o => by rw [hmem2]), ?_, ?_, ?_, ?_, ?_⟩
    · apply faultBound_congr sE s2 hcur2 _ _ heh2 hbE
      · rw [hcurE]; exact henvA2
      · rw [hcurE]; exact hpgA2 _
    · apply envid2env_of s2 id c hpos hx
      · rw [henv2, if_pos rfl]
        exact (by decide : ENV_NOT_RUNNABLE ≠ ENV_FREE)
      · rw [henv2, if_pos rfl]
    · rw [hpg2, if_pos rfl]
    · rw [hpgA2, hstE.other _ _ (fun h => hnw h.2)]
      exact hm1
    · rw [hpg2, if_pos rfl]
  have hcux2 : s2.pgtab c (PGNUM (UXSTACKTOP - PGSIZE)) = none := by
    rw [hpg2, if_pos rfl]
  -- the parent continuation
  obtain ⟨sF, hcont, hdF⟩ := fork_cont_mem_dup act s.curenv c id m Wr s pn hne hnw hactW
    hu hw hns hux hpn hpos s2 hd2 hcux2
  refine ⟨sF, ?_, hne, ?_, hdF.pa, hdF.pc, hdF.ctemp, hdF.kept.mem, hdF.kept.old,
    hdF.kept.frames⟩
  · unfold fork_mem
    rw [hrun1]
    simp only [Outcome.bind]
    rw [hrunE]
    simp only [hexo]
    exact hcont
  · exact (envid2env_pos sF id c hpos hdF.child).2.2

theorem runStores_nil (s : State) : runStores [] s = .ok () s := rfl

theorem set_pgfault_handler_mem_quiet (handler : FnPtr) (s : State) :
    set_pgfault_handler_mem (fun _ => []) handler s = set_pgfault_handler handler s := by
  unfold set_pgfault_handler_mem set_pgfault_handler
  simp only [runStores_nil, Outcome.bind]

theorem duppage_mem_quiet (envid : Int) (pn : Nat) (s : State) :
    duppage_mem (fun _ => []) envid pn s = duppage envid pn s := by
  unfold duppage_mem duppage
  simp only [runStores_nil, Outcome.bind]

theorem forkStep_mem_quiet (envid : Int) (i : Nat) (s : State) :
    forkStep_mem (fun _ => []) envid i s = forkStep envid i s := by
  unfold forkStep_mem forkStep
  simp only [runStores_nil, Outcome.bind, duppage_mem_quiet]
  split_ifs
  · rfl
  · cases duppage envid (PGNUM i) s <;> rfl
  · rfl

theorem forkLoop_mem_quiet (envid : Int) :
    ∀ n i s, UTOP - i ≤ n → forkLoop_mem (fun _ => []) envid i s = forkLoop envid i s := by
  intro n
  induction n with
  | zero =>
    intro i s h
    rw [forkLoop_mem, forkLoop, if_neg (by omega), if_neg (by omega)]
  | succ n ih =>
    intro i s h
    rw [forkLoop_mem, forkLoop, forkStep_mem_quiet]
    by_cases hi : i < UTOP
    · rw [if_pos hi, if_pos hi]
      cases forkStep envid i s with
      | ok _ s1 =>
        simp only []
        exact ih (i + PGSIZE) s1 (by simp only [PGSIZE]; omega)
      | panicked _ _ => rfl
      | faulted _ _ => rfl
    · rw [if_neg hi, if_neg hi]

theorem fork_cont_mem_quiet (envid : Int) (s : State) :
    fork_cont_mem (fun _ => []) envid s = fork_cont envid s := by
  unfold fork_cont_mem fork_cont
  rw [forkLoop_mem_quiet envid (UTOP - 0) 0 s (le_refl _)]
  simp only [runStores_nil, Outcome.bind]
  split_ifs <;> try rfl
  all_goals cases forkLoop envid 0 s <;> rfl

/-- With no stores of the parent, `fork_mem` is `fork`. -/
theorem fork_mem_quiet (s : State) : fork_mem (fun _ => []) s = fork s := by
  unfold fork_mem fork
  rw [set_pgfault_handler_mem_quiet]
  cases set_pgfault_handler FnPtr.pgfault s with
  | ok _ s1 =>
    simp only [Outcome.bind, runStores_nil]
    exact fork_cont_mem_quiet _ _
  | panicked _ _ => rfl
  | faulted _ _ => rfl

/-- C5 (amended). Let P be a present, user, writable, not explicitly-shared page of the
parent A, below `UTOP` and other than the exception-stack page, let `PFTEMP` be unmapped
in A, and let the stores A's own code makes while it runs `fork` (its stack pushes, its
locals and globals), at whatever points and in whatever number, go to writable pages of A
other than P that are backed by other frames than P's.  Then `fork`, run together with
these stores, returns the identifier of the new environment B, and A and B both map P
`PTE_P|PTE_U|PTE_COW` on the original frame.  When B then takes a write fault on P,
`pgfault` returns in B with P mapped `PTE_P|PTE_U|PTE_W` on a frame that no entry named
before and that holds a copy of the original contents, while A still maps P COW on the
original frame, whose contents are as before `fork`.  A byte B then stores to P is read
back by B and is not seen by A.  With no stores of A the run is that of `fork`. -/
theorem fork_isolation (act : Site → List (Nat × Nat)) (s : State) (c pn : Nat) (m : Mapping)
    (utf : UTrapframe) (off val : Nat)
    (hreg : (s.pass_times s.curenv = 0 ∧ s.pgtab s.curenv (PGNUM (UXSTACKTOP - PGSIZE)) = none) ∨
      (s.pass_times s.curenv ≠ 0 ∧ (s.envs s.curenv).env_upcall T_PGFLT = FnPtr.pgfault_upcall ∧
        uvpt s (PGNUM (UXSTACKTOP - PGSIZE)) &&& PTE_W ≠ 0))
    (hlive : (s.envs s.curenv).env_status ≠ ENV_FREE)
    (hfree : findFree s.envs NENV 0 = some c)
    (hfresh : FramesAllocated s)
    (hpn : pn < UTOP / PGSIZE) (hux : pn ≠ PGNUM (UXSTACKTOP - PGSIZE))
    (hm : s.pgtab s.curenv pn = some m)
    (hu : m.flags &&& PTE_U ≠ 0) (hw : m.flags &&& PTE_W ≠ 0)
    (hns : m.flags &&& PTE_SHARE = 0)
    (htemp : s.pgtab s.curenv (PGNUM PFTEMP) = none)
    (hact : ∀ site w, w ∈ act site → ∃ mq, s.pgtab s.curenv (PGNUM w.1) = some mq ∧
      mq.flags &&& PTE_W ≠ 0 ∧ mq.frame ≠ m.frame)
    (hva : PGNUM utf.utf_fault_va = pn) (hwr : utf.utf_err &&& FEC_WR ≠ 0)
    (hoff : off < PGSIZE) :
    ∃ sF sP sW, fork_mem act s = .ok (mkenvid (s.envs c).env_id c) sF ∧ c ≠ s.curenv ∧
      (sF.envs c).env_id = mkenvid (s.envs c).env_id c ∧
      pte sF s.curenv pn = some (m.frame, PTE_P ||| PTE_U ||| PTE_COW) ∧
      pte sF c pn = some (m.frame, PTE_P ||| PTE_U ||| PTE_COW) ∧
      pgfault utf (sF.switchTo c) = .ok () sP ∧
      pte sP c pn = some (sF.nextFrame, PTE_P ||| PTE_U ||| PTE_W) ∧
      (∀ e p m', sF.pgtab e p = some m' → m'.frame ≠ sF.nextFrame) ∧
      (∀ o, o < PGSIZE → sP.mem sF.nextFrame o = s.mem m.frame o) ∧
      pte sP s.curenv pn = some (m.frame, PTE_P ||| PTE_U ||| PTE_COW) ∧
      (∀ o, sP.mem m.frame o = s.mem m.frame o) ∧
      userWrite sP (pn * PGSIZE + off) val = some sW ∧
      (∀ o, o < PGSIZE →
        userRead sW (pn * PGSIZE + o) = some (if o = off then val else s.mem m.frame o)) ∧
      (∀ o, o < PGSIZE →
        userRead (sW.switchTo s.curenv) (pn * PGSIZE + o) = some (s.mem m.frame o)) ∧
      (∀ o, sW.mem m.frame o = s.mem m.frame o) ∧
      fork_mem (fun _ => []) s = fork s := by
  obtain ⟨sF, hfork, hne, hid, hA', hB', hT, hmemF, hmfF, hfaF⟩ :=
    fork_mem_private_page act s c pn m hreg hlive hfree hfresh hpn hux hm hu hw hns htemp hact
  have hA : sF.pgtab s.curenv pn = some (mkMapping m.frame (PTE_P ||| PTE_U ||| PTE_COW)) := hA'
  have hB : sF.pgtab c pn = some (mkMapping m.frame (PTE_P ||| PTE_U ||| PTE_COW)) := hB'
  have hflags : ∀ f, (mkMapping f (PTE_P ||| PTE_U ||| PTE_COW)).flags
      = PTE_P ||| PTE_U ||| PTE_COW := fun _ => rfl
  have hcowB : uvpt (sF.switchTo c) (PGNUM utf.utf_fault_va) &&& PTE_COW ≠ 0 := by
    rw [hva, uvpt_and_of_mapped (sF.switchTo c) pn PTE_COW _ (by decide) hB, hflags]
    decide
  obtain ⟨sP, m0, hrun, hm0, -, hpteP, hnfP, hmemP, -, hoth, hcurP, -⟩ :=
    pgfault_run (sF.switchTo c) utf hwr hcowB hT
  rw [hva] at hm0 hpteP hoth
  simp only [switchTo_curenv, switchTo_pgtab] at hm0 hoth hcurP
  simp only [switchTo_nextFrame, switchTo_mem] at hpteP hnfP hmemP
  rw [hB] at hm0
  cases hm0
  rw [mkMapping_frame] at hmemP
  have hfrne : m.frame ≠ sF.nextFrame := Nat.ne_of_lt hmfF
  have hPA : sP.pgtab s.curenv pn = sF.pgtab s.curenv pn :=
    hoth _ _ (fun h => hne h.1.symm)
  have hmemPo : ∀ o, sP.mem m.frame o = s.mem m.frame o := by
    intro o
    rw [hmemP]
    simp only [copyBytes, hfrne, false_and, if_false]
    exact hmemF o
  have hmemPn : ∀ o, o < PGSIZE → sP.mem sF.nextFrame o = s.mem m.frame o := by
    intro o ho
    rw [hmemP]
    simp only [copyBytes, true_and, Nat.zero_le, Nat.zero_add, ho, if_true, hfrne, if_false,
      Nat.sub_zero]
    exact hmemF o
  obtain ⟨mB, hmB, hmBf, hmBfl⟩ := pte_eq_some sP c pn _ _ hpteP
  have hwB : mB.flags &&& PTE_W ≠ 0 := by rw [hmBfl]; decide
  refine ⟨sF, sP, { sP with mem := fun f o =>
      if f = mB.frame ∧ o = PGOFF (pn * PGSIZE + off) then val else sP.mem f o },
    hfork, hne, hid, ?_, ?_, hrun, hpteP, fun e p m' h => Nat.ne_of_lt (hfaF e p m' h), hmemPn,
    ?_, hmemPo, ?_, ?_, ?_, ?_, fork_mem_quiet s⟩
  · rw [pte_of_mapped sF _ _ _ hA]; rfl
  · rw [pte_of_mapped sF _ _ _ hB]; rfl
  · rw [pte_of_mapped sP _ _ _ (hPA.trans hA)]; rfl
  · unfold userWrite
    rw [hcurP, pgnum_add pn off hoff, hmB]
    simp only []
    rw [if_pos hwB]
  · intro o ho
    unfold userRead
    simp only []
    rw [hcurP, pgnum_add pn o ho, hmB]
    simp only [Option.map, pgoff_add pn o ho, pgoff_add pn off hoff, true_and, hmBf]
    by_cases hoo : o = off
    · rw [if_pos hoo, if_pos hoo]
    · rw [if_neg hoo, if_neg hoo, hmemPn o ho]
  · intro o ho
    unfold userRead
    simp only [switchTo_curenv, switchTo_pgtab, switchTo_mem]
    rw [pgnum_add pn o ho, hPA, hA]
    simp only [Option.map, mkMapping_frame, hmBf, hfrne, false_and, if_false]
    rw [hmemPo, pgoff_add pn o ho]
  · intro o
    simp only [hmBf, hfrne, false_and, if_false]
    exact hmemPo o

theorem demoStack_framesAllocated : FramesAllocated demoStack := by
  intro e pn m h
  simp only [demoStack, demoState, demoPgtab] at h
  split_ifs at h <;> (cases h; decide)

theorem fork_isolation_witness :
    ∃ sF sP sW, fork_mem demoPushes demoStack = .ok 4098 sF ∧
      pte sF 0 0x800 = some (5, PTE_P ||| PTE_U ||| PTE_COW) ∧
      pte sF 2 0x800 = some (5, PTE_P ||| PTE_U ||| PTE_COW) ∧
      pgfault ⟨0x800123, 7⟩ (sF.switchTo 2) = .ok () sP ∧
      userWrite sP (0x800 * PGSIZE + 10) 0x55 = some sW ∧
      userRead sW (0x800 * PGSIZE + 10) = some 0x55 ∧
      userRead sW (0x800 * PGSIZE + 11) = some 0xAA ∧
      userRead (sW.switchTo 0) (0x800 * PGSIZE + 10) = some 0xAA := by
  obtain ⟨sF, sP, sW, hfork, -, -, hA, hB, hrun, -, -, -, -, -, hwrite, hrB, hrA, -⟩ :=
    fork_isolation demoPushes demoStack 2 0x800 ⟨5, 0x007, by decide, by decide⟩ ⟨0x800123, 7⟩
      10 0x55 (Or.inl ⟨by decide, by decide⟩) (by decide) (by decide)
      demoStack_framesAllocated (by decide) (by decide) (by decide) (by decide) (by decide)
      (by decide) (by decide)
      (fun _ w hw => by
        rw [show w = (0xEEBFDFFC, 0x2A) from List.mem_singleton.mp hw]
        exact ⟨⟨11, 0x007, by decide, by decide⟩, by decide, by decide, by decide⟩)
      (by decide) (by decide) (by decide)
  exact ⟨sF, sP, sW, hfork, hA, hB, hrun, hwrite, hrB 10 (by decide), hrB 11 (by decide),
    hrA 10 (by decide)⟩

/-- C5, as stated, fails for the exception-stack page: it is present, user, writable and
not shared in a parent that has registered a handler, yet after `fork` the parent still
maps it writable and not COW, and the child maps a different frame there. -/
theorem fork_uxstack_not_cow :
    ∃ c s', fork demoRegistered = .ok 4098 s' ∧
      pte demoRegistered 0 (PGNUM (UXSTACKTOP - PGSIZE)) = some (10, PTE_P ||| PTE_U ||| PTE_W) ∧
      pte s' 0 (PGNUM (UXSTACKTOP - PGSIZE)) = some (10, PTE_P ||| PTE_U ||| PTE_W) ∧
      pte s' c (PGNUM (UXSTACKTOP - PGSIZE)) = some (16, PTE_P ||| PTE_U ||| PTE_W) ∧
      (s'.envs c).env_id = 4098 := by
  obtain ⟨c, s', -, -, -, -, -, hfork, -, hpgc, hpgp, -, -, -, -, -, hid, -⟩ :=
    fork_spec demoRegistered _ demoRegistered_reg (by decide) (by decide)
  refine ⟨c, s', hfork, by decide, ?_, ?_, hid⟩
  · have h := hpgp (PGNUM (UXSTACKTOP - PGSIZE))
    rw [dupSource_uxstack] at h
    simp only [ite_self] at h
    show (s'.pgtab 0 (PGNUM (UXSTACKTOP - PGSIZE))).map _ = _
    rw [show s'.pgtab 0 (PGNUM (UXSTACKTOP - PGSIZE)) = _ from h]
    decide
  · rw [pte, hpgc, if_pos rfl]
    rfl

/-! ## A page the parent stores to after the loop -/

theorem duppage_mem_still (act : Site → List (Nat × Nat)) (envid : Int) (pn : Nat) (s : State)
    (h1 : act (.dup pn) = []) (h2 : act (.remap pn) = []) :
    duppage_mem act envid pn s = duppage envid pn s := by
  unfold duppage_mem duppage
  rw [h1, h2]
  simp only [runStores_nil, Outcome.bind]

theorem forkStep_mem_still (act : Site → List (Nat × Nat)) (envid : Int) (i : Nat) (s : State)
    (h0 : act (.loop i) = []) (h1 : act (.dup (PGNUM i)) = [])
    (h2 : act (.remap (PGNUM i)) = []) :
    forkStep_mem act envid i s = forkStep envid i s := by
  unfold forkStep_mem forkStep
  rw [h0]
  simp only [runStores_nil, Outcome.bind, duppage_mem_still act envid (PGNUM i) _ h1 h2]
  split_ifs
  · rfl
  · cases duppage envid (PGNUM i) s <;> rfl
  · rfl

theorem forkLoop_mem_still (act : Site → List (Nat × Nat)) (envid : Int)
    (h0 : ∀ i, act (.loop i) = []) (h1 : ∀ p, act (.dup p) = [])
    (h2 : ∀ p, act (.remap p) = []) :
    ∀ n i s, UTOP - i ≤ n → forkLoop_mem act envid i s = forkLoop envid i s := by
  intro n
  induction n with
  | zero =>
    intro i s h
    rw [forkLoop_mem, forkLoop, if_neg (by omega), if_neg (by omega)]
  | succ n ih =>
    intro i s h
    rw [forkLoop_mem, forkLoop, forkStep_mem_still act envid i s (h0 i) (h1 _) (h2 _)]
    by_cases hi : i < UTOP
    · rw [if_pos hi, if_pos hi]
      cases forkStep envid i s with
      | ok _ s1 =>
        simp only []
        exact ih (i + PGSIZE) s1 (by simp only [PGSIZE]; omega)
      | panicked _ _ => rfl
      | faulted _ _ => rfl
    · rw [if_neg hi, if_neg hi]

theorem set_pgfault_handler_mem_still (act : Site → List (Nat × Nat)) (handler : FnPtr)
    (s : State) (h1 : act .entry = []) (h2 : act .reg_bind = []) :
    set_pgfault_handler_mem act handler s = set_pgfault_handler handler s := by
  unfold set_pgfault_handler_mem set_pgfault_handler
  rw [h1, h2]
  simp only [runStores_nil, Outcome.bind]

theorem dupParent_cow (m : Mapping) (hs : m.flags &&& PTE_SHARE = 0)
    (hw : m.flags &&& PTE_W ≠ 0) : dupParent m = cowOf m ∧ dupChild m = cowOf m := by
  obtain ⟨h1, h2⟩ := dupChild_private_writable m hw hs
  exact ⟨h2, h1⟩

/-- The parent continuation of `fork` when the parent pushes once on a private writable
page `q` after the loop has re-mapped that page, and stores nothing else: the push takes a
COW fault, the continuation returns, and the parent then maps `q` writable on the frame
the allocator handed out while the child maps it COW on the old frame. -/
theorem fork_cont_mem_push (act : Site → List (Nat × Nat)) (envid : Int) (c q va val : Nat)
    (mq : Mapping) (s : State)
    (h0 : ∀ i, act (.loop i) = []) (h1 : ∀ p, act (.dup p) = [])
    (h2 : ∀ p, act (.remap p) = []) (h3 : act .stack = [(va, val)])
    (h4 : act .bind = []) (h5 : act .status = []) (h6 : act .ret = [])
    (hpos : 0 < envid) (hc : envid2env s envid = some c) (hne : c ≠ s.curenv)
    (hcux : s.pgtab c (PGNUM (UXSTACKTOP - PGSIZE)) = none)
    (hb : FaultBound s) (htemp : s.pgtab s.curenv (PGNUM PFTEMP) = none)
    (hva : PGNUM va = q) (hq : q < UTOP / PGSIZE) (hqux : q ≠ PGNUM (UXSTACKTOP - PGSIZE))
    (hmq : s.pgtab s.curenv q = some mq) (hu : mq.flags &&& PTE_U ≠ 0)
    (hw : mq.flags &&& PTE_W ≠ 0) (hns : mq.flags &&& PTE_SHARE = 0) :
    ∃ s', fork_cont_mem act envid s = .ok envid s' ∧
      pte s' s.curenv q = some (s.nextFrame, PTE_P ||| PTE_U ||| PTE_W) ∧
      pte s' c q = some (mq.frame, PTE_P ||| PTE_U ||| PTE_COW) := by
  -- the loop
  obtain ⟨sL, hloop, hsame, hpgL, -⟩ := forkLoop_spec envid c s hc hne
  obtain ⟨hcurL, henvsL, hmemL, hnfL, hthisL, hptL, hehL⟩ := hsame
  have hsrc : dupSource s q = some mq := dupSource_of s q mq hqux hmq hu
  obtain ⟨hdp, hdc⟩ := dupParent_cow mq hns hw
  have hAq : sL.pgtab sL.curenv q = some (cowOf mq) := by
    rw [hcurL, hpgL]
    unfold forkPgtab
    rw [if_pos hq, hsrc]
    simp [Ne.symm hne, hdp]
  have hCq : sL.pgtab c q = some (cowOf mq) := by
    rw [hpgL]
    unfold forkPgtab
    rw [if_pos hq, hsrc]
    simp [hdc]
  have htempL : sL.pgtab sL.curenv (PGNUM PFTEMP) = none := by
    rw [hcurL, hpgL]
    unfold forkPgtab
    have : dupSource s (PGNUM PFTEMP) = none := by
      unfold dupSource
      rw [if_neg pftemp_not_uxstack, htemp]
    rw [if_pos pftemp_lt, this]
    exact htemp
  have hcuxL : sL.pgtab c (PGNUM (UXSTACKTOP - PGSIZE)) = none := by
    rw [hpgL, forkPgtab_uxstack]
    exact hcux
  have hbL : FaultBound sL := by
    refine faultBound_congr s sL hcurL (by rw [henvsL]) ?_ hehL hb
    rw [hpgL, forkPgtab_uxstack]
  -- the push: a write fault on the page, now copy-on-write
  have hcowq : uvpt sL (PGNUM va) &&& PTE_COW ≠ 0 := by
    rw [hva, uvpt_and_of_mapped sL q PTE_COW _ (by decide) hAq]
    exact (by decide : (PTE_P ||| PTE_U ||| PTE_COW ||| PTE_P) % PGSIZE &&& PTE_COW ≠ 0)
  obtain ⟨s3, m0, hrun, -, -, hpte3, hnf3, -, -, hoth3, hcur3, henvs3⟩ :=
    pgfault_run sL ⟨va, FEC_WR ||| FEC_U |||
      (if (sL.pgtab sL.curenv (PGNUM va)).isSome then FEC_PR else 0)⟩
      (fec_write _) hcowq htempL
  have hpte3' : pte s3 sL.curenv q = some (sL.nextFrame, PTE_P ||| PTE_U ||| PTE_W) := by
    rw [← hva]
    exact hpte3
  obtain ⟨mB, hmB, hmBf, hmBfl⟩ := pte_eq_some s3 sL.curenv q _ _ hpte3'
  have hwB : mB.flags &&& PTE_W ≠ 0 := by rw [hmBfl]; decide
  have hnone : userWrite sL va val = none := by
    unfold userWrite
    rw [hva, hAq]
    simp only []
    rw [if_neg (by
      intro h
      exact h (by decide : (PTE_P ||| PTE_U ||| PTE_COW ||| PTE_P) % PGSIZE &&& PTE_W = 0))]
  generalize hs4 : ({ s3 with mem := fun f o => if f = mB.frame ∧ o = PGOFF va then val else s3.mem f o } : State) = s4
  have hsome : userWrite s3 va val = some s4 := by
    have hmB' : s3.pgtab s3.curenv (PGNUM va) = some mB := by
      rw [hva, hcur3]
      exact hmB
    unfold userWrite
    rw [hmB']
    simp only []
    rw [if_pos hwB, hs4]
  have hstore : runStores [(va, val)] sL = .ok () s4 := by
    have hb' : (sL.envs sL.curenv).env_upcall T_PGFLT = FnPtr.pgfault_upcall
        ∧ uvpt sL (PGNUM (UXSTACKTOP - PGSIZE)) &&& PTE_W ≠ 0
        ∧ sL.exception_handler sL.curenv T_PGFLT = FnPtr.pgfault := hbL
    unfold runStores userStore
    simp only []
    rw [hnone]
    simp only []
    unfold deliverFault
    rw [if_pos hb', hrun]
    simp only [Outcome.bind]
    rw [hsome]
    rfl
  have hpg4 : s4.pgtab = s3.pgtab := by rw [← hs4]
  have hcur4 : s4.curenv = s.curenv := by rw [← hs4]; exact hcur3.trans hcurL
  have henvs4 : s4.envs = s.envs := by rw [← hs4]; exact henvs3.trans henvsL
  clear hs4
  have hc4 : envid2env s4 envid = some c := by
    unfold envid2env
    rw [hcur4, henvs4]
    exact hc
  have hne3 : c ≠ sL.curenv := by rw [hcurL]; exact hne
  have hcux4 : s4.pgtab c (PGNUM (UXSTACKTOP - PGSIZE)) = none := by
    rw [hpg4, hoth3 _ _ (fun h => hne3 h.1)]
    exact hcuxL
  have hAq4 : s4.pgtab s.curenv q = some mB := by
    rw [hpg4, ← hcurL]
    exact hmB
  have hCq4 : s4.pgtab c q = some (cowOf mq) := by
    rw [hpg4, hoth3 _ _ (fun h => hne3 h.1)]
    exact hCq
  -- the three kernel calls after the loop
  have e1 := sys_page_alloc_ok s4 envid (UXSTACKTOP - PGSIZE) (PTE_P ||| PTE_U ||| PTE_W) c
    hc4 (by decide) hcux4
  generalize hsT : (s4.logCall (.page_alloc envid (UXSTACKTOP - PGSIZE)
    (PTE_P ||| PTE_U ||| PTE_W))).allocFrame c (PGNUM (UXSTACKTOP - PGSIZE))
    (PTE_P ||| PTE_U ||| PTE_W) = sT at e1
  have hcT : envid2env sT envid = some c := by rw [← hsT]; exact hc4
  have hpgT : ∀ e, sT.pgtab e q = s4.pgtab e q := by
    intro e
    rw [← hsT, allocFrame_pgtab, if_neg (fun h => hqux h.2)]
    rfl
  clear hsT
  have e2 := bindUpcall_ok (sT.logCall (.env_set_pgfault_upcall envid
    ((sT.envs (sT.thisenv sT.curenv)).env_upcall T_PGFLT))) envid T_PGFLT
    ((sT.envs (sT.thisenv sT.curenv)).env_upcall T_PGFLT) c hcT
  generalize hsV : (sT.logCall (.env_set_pgfault_upcall envid
    ((sT.envs (sT.thisenv sT.curenv)).env_upcall T_PGFLT))).setEnv c
    { (sT.logCall (.env_set_pgfault_upcall envid
        ((sT.envs (sT.thisenv sT.curenv)).env_upcall T_PGFLT))).envs c with
      env_upcall := fun v => if v = T_PGFLT then (sT.envs (sT.thisenv sT.curenv)).env_upcall T_PGFLT
        else ((sT.logCall (.env_set_pgfault_upcall envid
          ((sT.envs (sT.thisenv sT.curenv)).env_upcall T_PGFLT))).envs c).env_upcall v } = sV at e2
  have hcV : envid2env sV envid = some c := by
    rw [← hsV]
    refine (envid2env_setEnv _ _ _ _ ?_ ?_).trans hcT <;> rfl
  have hpgV : sV.pgtab = sT.pgtab := by rw [← hsV]; rfl
  clear hsV
  have e3 := sys_env_set_status_ok sV envid ENV_RUNNABLE c hcV
  generalize hsX : (sV.logCall (.env_set_status envid ENV_RUNNABLE)).setEnv c
    { sV.envs c with env_status := ENV_RUNNABLE } = sX at e3
  have hpgX : sX.pgtab = sV.pgtab := by rw [← hsX]; rfl
  clear hsX
  refine ⟨sX, ?_, ?_, ?_⟩
  · unfold fork_cont_mem
    rw [if_neg (not_lt.mpr (le_of_lt hpos)), if_neg (ne_of_gt hpos),
      forkLoop_mem_still act envid h0 h1 h2 (UTOP - 0) 0 s (le_refl _), hloop, h3, h4, h5, h6]
    simp only [Outcome.bind]
    rw [hstore]
    simp only [e1]
    rw [if_neg (by decide)]
    simp only [runStores_nil, sys_env_set_pgfault_upcall, e2]
    rw [if_neg (by decide)]
    simp only [e3]
    rw [if_neg (by decide)]
  · show (sX.pgtab s.curenv q).map _ = _
    rw [hpgX, hpgV, hpgT, hAq4]
    simp only [Option.map, hmBf, hmBfl, hnfL]
  · show (sX.pgtab c q).map _ = _
    rw [hpgX, hpgV, hpgT, hCq4]
    rfl
/-- A page of its stack that the parent pushes on after the loop of `fork` has re-mapped it
(the push of the arguments of `fork.c` line 149).  In the example the page is present,
user, writable and not shared on frame 11 before `fork`; after `fork` the child maps it
copy-on-write on frame 11, and the parent maps it writable, not copy-on-write, on the
frame its COW fault was given: the two mappings are neither both copy-on-write nor on the
same frame. -/
theorem fork_mem_stack_page :
    ∃ sF, fork_mem demoPush demoStack = .ok 4098 sF ∧
      pte demoStack 0 0xEEBFD = some (11, PTE_P ||| PTE_U ||| PTE_W) ∧
      pte sF 0 0xEEBFD = some (17, PTE_P ||| PTE_U ||| PTE_W) ∧
      pte sF 2 0xEEBFD = some (11, PTE_P ||| PTE_U ||| PTE_COW) := by
  obtain ⟨s1, hrun, -, hcur, -, heh, hpg, hst, hup, hnf, -, -⟩ :=
    register_first (.pgfault FnPtr.pgfault) demoStack (by decide) (by decide)
  have hcur0 : s1.curenv = 0 := hcur
  have hfind : findFree s1.envs NENV 0 = some 2 := by
    rw [findFree_congr demoStack.envs s1.envs (fun e => (hst e).2)]
    decide
  have hexo := sys_exofork_ok s1 2 hfind
  have hid : mkenvid (s1.envs 2).env_id 2 = 4098 := by
    rw [(hst 2).1]
    decide
  rw [hid] at hexo
  generalize hs2 : ({ (s1.logCall .exofork).setEnv 2
      ⟨4098, ENV_NOT_RUNNABLE, fun _ => FnPtr.null⟩ with
      pgtab := fun e pn => if e = 2 then none else s1.pgtab e pn } : State) = s2 at hexo
  have hcur2 : s2.curenv = 0 := by rw [← hs2]; exact hcur0
  have hpg2 : ∀ e p, s2.pgtab e p = if e = 2 then none else s1.pgtab e p := by
    intro e p; rw [← hs2]
  have henv2 : ∀ e, s2.envs e
      = if e = 2 then ⟨4098, ENV_NOT_RUNNABLE, fun _ => FnPtr.null⟩ else s1.envs e := by
    intro e; rw [← hs2]; rfl
  have hnf2 : s2.nextFrame = 17 := by rw [← hs2]; exact hnf
  have heh2 : s2.exception_handler = s1.exception_handler := by rw [← hs2]; rfl
  clear hs2
  have hpg0 : ∀ p, s2.pgtab 0 p = if p = PGNUM (UXSTACKTOP - PGSIZE)
      then some (mkMapping 16 (PTE_W ||| PTE_U ||| PTE_P)) else demoStack.pgtab 0 p := by
    intro p
    rw [hpg2, if_neg (by decide), hpg]
    by_cases hp : p = PGNUM (UXSTACKTOP - PGSIZE)
    · rw [if_pos ⟨rfl, hp⟩, if_pos hp]
      rfl
    · rw [if_neg (fun h => hp h.2), if_neg hp]
  obtain ⟨sF, hcont, hA, hB⟩ := fork_cont_mem_push demoPush 4098 2 0xEEBFD 0xEEBFDFFC 0x2A
    ⟨11, 0x007, by decide, by decide⟩ s2 (fun _ => rfl) (fun _ => rfl) (fun _ => rfl) rfl rfl rfl
    rfl (by decide)
    (by
      apply envid2env_of s2 4098 2 (by decide) (by decide)
      · rw [henv2, if_pos rfl]
        exact (by decide : ENV_NOT_RUNNABLE ≠ ENV_FREE)
      · rw [henv2, if_pos rfl])
    (by rw [hcur2]; decide)
    (by rw [hpg2, if_pos rfl])
    (by
      refine ⟨?_, ?_, ?_⟩
      · rw [hcur2, henv2, if_neg (by decide), hup, if_pos ⟨rfl, rfl⟩]
      · rw [uvpt_and_of_mapped s2 _ PTE_W _ (by decide)
          (by rw [hcur2, hpg0, if_pos rfl])]
        exact uxstack_flags_w
      · rw [hcur2, heh2, heh, if_pos ⟨rfl, rfl⟩]
        rfl)
    (by
      rw [hcur2, hpg0, if_neg pftemp_not_uxstack]
      decide)
    (by decide) (by decide) (by decide)
    (by
      rw [hcur2, hpg0, if_neg (by decide)]
      decide)
    (by decide) (by decide) (by decide)
  rw [hcur2, hnf2] at hA
  refine ⟨sF, ?_, by decide, hA, hB⟩
  unfold fork_mem
  rw [set_pgfault_handler_mem_still demoPush FnPtr.pgfault demoStack rfl rfl]
  have hrun' : set_pgfault_handler FnPtr.pgfault demoStack = .ok () s1 := hrun
  rw [hrun']
  simp only [Outcome.bind]
  rw [show runStores (demoPush .exofork) s1 = .ok () s1 from rfl]
  simp only [hexo]
  exact hcont

/-! ## Writable and COW bits -/

theorem installed_and_W (u : Nat) :
    ((u &&& PTE_SYSCALL ||| PTE_P) % PGSIZE) &&& PTE_W = u &&& PTE_W := by
  apply Nat.eq_of_testBit_eq
  intro i
  rw [show PGSIZE = 2 ^ 12 from rfl]
  simp only [Nat.testBit_and, Nat.testBit_mod_two_pow, Nat.testBit_or]
  by_cases hi : i = 1
  · subst hi
    generalize u.testBit _ = b
    cases b <;> decide
  · have hW : PTE_W.testBit i = false := by
      show (2 ^ 1).testBit i = false
      rw [Nat.testBit_two_pow]
      simp [Ne.symm hi]
    rw [hW, Bool.and_false, Bool.and_false]

theorem installed_and_COW (u : Nat) :
    ((u &&& PTE_SYSCALL ||| PTE_P) % PGSIZE) &&& PTE_COW = u &&& PTE_COW := by
  apply Nat.eq_of_testBit_eq
  intro i
  rw [show PGSIZE = 2 ^ 12 from rfl]
  simp only [Nat.testBit_and, Nat.testBit_mod_two_pow, Nat.testBit_or]
  by_cases hi : i = 11
  · subst hi
    generalize u.testBit _ = b
    cases b <;> decide
  · have hW : PTE_COW.testBit i = false := by
      show (2 ^ 11).testBit i = false
      rw [Nat.testBit_two_pow]
      simp [Ne.symm hi]
    rw [hW, Bool.and_false, Bool.and_false]

theorem installs_refl (s : State) : InstallsExclusive s s :=
  fun _ _ _ h => Or.inl h

theorem installs_trans {s s1 s2 : State} (h1 : InstallsExclusive s s1)
    (h2 : InstallsExclusive s1 s2) : InstallsExclusive s s2 := by
  intro e p m hm
  rcases h2 e p m hm with h | h
  · exact h1 e p m h
  · exact Or.inr h

theorem installs_of_pgtab_eq {s s' : State} (h : s'.pgtab = s.pgtab) :
    InstallsExclusive s s' := by
  intro e p m hm
  rw [h] at hm
  exact Or.inl hm

theorem setPte_installs (s : State) (e p : Nat) (m : Option Mapping)
    (h : ∀ m', m = some m' → Exclusive m'.flags) : InstallsExclusive s (s.setPte e p m) := by
  intro e' p' m' hm
  rw [setPte_pgtab] at hm
  by_cases hep : e' = e ∧ p' = p
  · rw [if_pos hep] at hm
    exact Or.inr (h m' hm)
  · rw [if_neg hep] at hm
    exact Or.inl hm

theorem sys_page_map_installs (s : State) (srcenv : Int) (srcva : Nat) (dstenv : Int)
    (dstva perm : Nat) (hx : Exclusive ((perm ||| PTE_P) % PGSIZE)) :
    InstallsExclusive s (sys_page_map s srcenv srcva dstenv dstva perm).2 := by
  rcases sys_page_map_cases s srcenv srcva dstenv dstva perm
    with ⟨-, hs⟩ | ⟨-, se, de, m, -, -, -, -, hs⟩
  · rw [hs]
    exact installs_of_pgtab_eq rfl
  · rw [hs]
    refine installs_trans (installs_of_pgtab_eq (logCall_pgtab s _)) (setPte_installs _ _ _ _ ?_)
    intro m' hm'
    cases hm'
    exact hx

theorem sys_page_alloc_installs (s : State) (envid : Int) (va perm : Nat)
    (hx : Exclusive ((perm ||| PTE_P) % PGSIZE)) :
    InstallsExclusive s (sys_page_alloc s envid va perm).2 := by
  rcases sys_page_alloc_cases s envid va perm with ⟨-, hs⟩ | ⟨-, e, -, -, -, hs⟩
  · rw [hs]
    exact installs_of_pgtab_eq rfl
  · rw [hs]
    intro e' p' m' hm
    rw [allocFrame_pgtab] at hm
    by_cases hep : e' = e ∧ p' = PGNUM va
    · rw [if_pos hep] at hm
      cases hm
      exact Or.inr hx
    · rw [if_neg hep] at hm
      exact Or.inl hm

theorem sys_page_unmap_installs (s : State) (envid : Int) (va : Nat) :
    InstallsExclusive s (sys_page_unmap s envid va).2 := by
  unfold sys_page_unmap
  simp only [envid2env_logCall]
  cases envid2env s envid with
  | none => exact installs_of_pgtab_eq rfl
  | some e =>
    refine installs_trans (installs_of_pgtab_eq (logCall_pgtab s _)) (setPte_installs _ _ _ _ ?_)
    intro m' hm'
    cases hm'

theorem memcpy_pgtab (s s2 : State) (dst src n : Nat) (h : memcpy s dst src n = some s2) :
    s2.pgtab = s.pgtab := by
  unfold memcpy at h
  split at h
  · split_ifs at h
    cases h
    rfl
  · cases h

theorem bindUpcall_pgtab (s : State) (envid : Int) (vector : Nat) (func : FnPtr) :
    (bindUpcall s envid vector func).2.pgtab = s.pgtab := by
  unfold bindUpcall
  cases envid2env s envid <;> rfl

theorem exclusive_cow : Exclusive ((PTE_P ||| PTE_U ||| PTE_COW ||| PTE_P) % PGSIZE) :=
  Or.inl (by decide)

theorem exclusive_w : Exclusive ((PTE_P ||| PTE_U ||| PTE_W ||| PTE_P) % PGSIZE) :=
  Or.inr (by decide)

theorem exclusive_w' : Exclusive ((PTE_W ||| PTE_U ||| PTE_P ||| PTE_P) % PGSIZE) :=
  Or.inr (by decide)

theorem exclusive_masked (u : Nat) (h : Exclusive u) :
    Exclusive ((u &&& PTE_SYSCALL ||| PTE_P) % PGSIZE) := by
  unfold Exclusive at *
  rw [installed_and_W, installed_and_COW]
  exact h

theorem and_or_eq_zero (x a b : Nat) (h : x &&& (a ||| b) = 0) : x &&& a = 0 := by
  by_contra h'
  exact and_or_ne_zero_left x a b h' h

theorem duppage_installs (s : State) (envid : Int) (pn : Nat)
    (hsrc : uvpt s pn &&& PTE_SHARE ≠ 0 → Exclusive (uvpt s pn)) :
    InstallsExclusive s (duppage envid pn s).state := by
  unfold duppage
  simp only []
  by_cases hs : uvpt s pn &&& PTE_SHARE ≠ 0
  · rw [if_pos hs]
    have := sys_page_map_installs s 0 ((pn * PGSIZE) % 2 ^ 32) envid ((pn * PGSIZE) % 2 ^ 32)
      (uvpt s pn &&& PTE_SYSCALL) (exclusive_masked _ (hsrc hs))
    split_ifs <;> exact this
  · rw [if_neg hs]
    by_cases hwc : uvpt s pn &&& (PTE_W ||| PTE_COW) ≠ 0
    · rw [if_pos hwc]
      have h1 := sys_page_map_installs s 0 ((pn * PGSIZE) % 2 ^ 32) envid
        ((pn * PGSIZE) % 2 ^ 32) (PTE_P ||| PTE_U ||| PTE_COW) exclusive_cow
      have h2 := sys_page_map_installs
        (sys_page_map s 0 ((pn * PGSIZE) % 2 ^ 32) envid ((pn * PGSIZE) % 2 ^ 32)
          (PTE_P ||| PTE_U ||| PTE_COW)).2 0 ((pn * PGSIZE) % 2 ^ 32) 0
        ((pn * PGSIZE) % 2 ^ 32) (PTE_P ||| PTE_U ||| PTE_COW) exclusive_cow
      split_ifs
      · exact h1
      · exact installs_trans h1 h2
      · exact installs_trans h1 h2
    · rw [if_neg hwc]
      have hz : uvpt s pn &&& (PTE_W ||| PTE_COW) = 0 := by
        by_contra h
        exact hwc h
      have := sys_page_map_installs s 0 ((pn * PGSIZE) % 2 ^ 32) envid ((pn * PGSIZE) % 2 ^ 32)
        (uvpt s pn &&& PTE_SYSCALL)
        (exclusive_masked _ (Or.inl (and_or_eq_zero _ _ _ hz)))
      split_ifs <;> exact this

theorem pgfault_installs (s : State) (utf : UTrapframe) :
    InstallsExclusive s (pgfault utf s).state := by
  unfold pgfault
  simp only []
  have h1 := sys_page_alloc_installs s 0 PFTEMP (PTE_P ||| PTE_U ||| PTE_W) exclusive_w
  by_cases hwr : utf.utf_err &&& FEC_WR = 0
  · rw [if_pos hwr]
    exact installs_refl s
  · rw [if_neg hwr]
    by_cases hcow : uvpt s (PGNUM utf.utf_fault_va) &&& PTE_COW = 0
    · rw [if_pos hcow]
      exact installs_refl s
    · rw [if_neg hcow]
      by_cases hr1 : (sys_page_alloc s 0 PFTEMP (PTE_P ||| PTE_U ||| PTE_W)).1 < 0
      · rw [if_pos hr1]
        exact h1
      · rw [if_neg hr1]
        cases hmc : memcpy (sys_page_alloc s 0 PFTEMP (PTE_P ||| PTE_U ||| PTE_W)).2 PFTEMP
            (ROUNDDOWN utf.utf_fault_va PGSIZE) PGSIZE with
        | none => exact h1
        | some s2 =>
          have h2 : InstallsExclusive s s2 :=
            installs_trans h1 (installs_of_pgtab_eq (memcpy_pgtab _ _ _ _ _ hmc))
          have h3 := sys_page_map_installs s2 0 PFTEMP 0 (ROUNDDOWN utf.utf_fault_va PGSIZE)
            (PTE_P ||| PTE_U ||| PTE_W) exclusive_w
          have h4 := sys_page_unmap_installs
            (sys_page_map s2 0 PFTEMP 0 (ROUNDDOWN utf.utf_fault_va PGSIZE)
              (PTE_P ||| PTE_U ||| PTE_W)).2 0 PFTEMP
          simp only []
          split_ifs
          · exact installs_trans h2 h3
          · exact installs_trans (installs_trans h2 h3) h4
          · exact installs_trans (installs_trans h2 h3) h4

theorem register_installs (c : RegCall) (s : State) :
    InstallsExclusive s (c.run s).state := by
  by_cases hp : s.pass_times s.curenv = 0
  · have h1 := sys_page_alloc_installs
      { s with pass_times := fun e => if e = s.curenv then 1 else s.pass_times e } 0
      (UXSTACKTOP - PGSIZE) (PTE_W ||| PTE_U ||| PTE_P) exclusive_w'
    have h1' : InstallsExclusive s (sys_page_alloc
      { s with pass_times := fun e => if e = s.curenv then 1 else s.pass_times e } 0
      (UXSTACKTOP - PGSIZE) (PTE_W ||| PTE_U ||| PTE_P)).2 := h1
    cases c with
    | pgfault hd =>
      simp only [RegCall.run, set_pgfault_handler]
      rw [if_pos hp]
      split_ifs
      · exact h1'
      · exact installs_trans h1' (installs_of_pgtab_eq (bindUpcall_pgtab _ _ _ _))
      · exact installs_trans h1' (installs_of_pgtab_eq (bindUpcall_pgtab _ _ _ _))
    | exception t hd =>
      simp only [RegCall.run, set_exception_handler]
      rw [if_pos hp]
      split_ifs
      · exact h1'
      · exact installs_trans h1' (installs_of_pgtab_eq (bindUpcall_pgtab _ _ _ _))
      · exact installs_trans h1' (installs_of_pgtab_eq (bindUpcall_pgtab _ _ _ _))
  · rw [register_again c s hp]
    exact installs_of_pgtab_eq rfl

theorem dup_exclusive (m : Mapping) (h : m.flags &&& PTE_SHARE ≠ 0 → Exclusive m.flags) :
    Exclusive (dupChild m).flags ∧ (dupParent m = m ∨ Exclusive (dupParent m).flags) := by
  unfold dupChild dupParent
  by_cases hs : m.flags &&& PTE_SHARE ≠ 0
  · rw [if_pos hs, if_pos hs]
    exact ⟨exclusive_masked _ (h hs), Or.inl rfl⟩
  · rw [if_neg hs, if_neg hs]
    by_cases hwc : m.flags &&& (PTE_W ||| PTE_COW) ≠ 0
    · rw [if_pos hwc, if_pos hwc]
      exact ⟨exclusive_cow, Or.inr exclusive_cow⟩
    · rw [if_neg hwc, if_neg hwc]
      have hz : m.flags &&& (PTE_W ||| PTE_COW) = 0 := by
        by_contra h'
        exact hwc h'
      exact ⟨exclusive_masked _ (Or.inl (and_or_eq_zero _ _ _ hz)), Or.inl rfl⟩

theorem fork_installs (s s1 : State)
    (hreg : set_pgfault_handler FnPtr.pgfault s = .ok () s1)
    (hlive : (s1.envs s1.curenv).env_status ≠ ENV_FREE)
    (hex : 0 ≤ (sys_exofork s1).1)
    (hsrc : ∀ p m, s.pgtab s.curenv p = some m → m.flags &&& PTE_SHARE ≠ 0 →
      Exclusive m.flags) :
    ∃ s', fork s = .ok (sys_exofork s1).1 s' ∧ InstallsExclusive s s' := by
  obtain ⟨c, s', -, hne, -, -, -, hfork, -, hpgc, hpgp, hpgo, -⟩ :=
    fork_spec s s1 hreg hlive hex
  obtain ⟨hcur, hpgsame, -⟩ := register_effect (.pgfault FnPtr.pgfault) s s1 hreg
  have hreg' : InstallsExclusive s s1 := by
    have := register_installs (.pgfault FnPtr.pgfault) s
    rw [show (RegCall.pgfault FnPtr.pgfault).run s = set_pgfault_handler FnPtr.pgfault s
      from rfl, hreg] at this
    exact this
  have hsrc1 : ∀ p m, dupSource s1 p = some m →
      Exclusive (dupChild m).flags ∧ (dupParent m = m ∨ Exclusive (dupParent m).flags) := by
    intro p m hd
    obtain ⟨hp, hm, -⟩ := dupSource_some s1 p m hd
    rw [hcur, hpgsame _ _ (fun h => hp h.2)] at hm
    exact dup_exclusive m (hsrc p m hm)
  refine ⟨s', hfork, installs_trans hreg' ?_⟩
  intro e p m hm
  by_cases hec : e = c
  · subst hec
    right
    rw [hpgc] at hm
    by_cases hp : p = PGNUM (UXSTACKTOP - PGSIZE)
    · rw [if_pos hp] at hm
      cases hm
      exact exclusive_w
    · rw [if_neg hp] at hm
      by_cases hlt : p < UTOP / PGSIZE
      · rw [if_pos hlt] at hm
        cases hd : dupSource s1 p with
        | none => rw [hd] at hm; cases hm
        | some m0 =>
          rw [hd] at hm
          simp only [Option.map, Option.some.injEq] at hm
          rw [← hm]
          exact (hsrc1 p m0 hd).1
      · rw [if_neg hlt] at hm
        cases hm
  · by_cases hecur : e = s1.curenv
    · subst hecur
      rw [hpgp] at hm
      cases hd : (if p < UTOP / PGSIZE then dupSource s1 p else none) with
      | none => rw [hd] at hm; exact Or.inl hm
      | some m0 =>
        rw [hd] at hm
        simp only [Option.some.injEq] at hm
        have hd' : dupSource s1 p = some m0 := by
          by_cases hlt : p < UTOP / PGSIZE
          · rw [if_pos hlt] at hd; exact hd
          · rw [if_neg hlt] at hd; cases hd
        rcases (hsrc1 p m0 hd').2 with h | h
        · left
          rw [← hm, h]
          exact (dupSource_some s1 p m0 hd').2.1
        · right
          rw [← hm]
          exact h
    · rw [hpgo e p hec hecur] at hm
      exact Or.inl hm

theorem sys_page_map_log (s : State) (srcenv : Int) (srcva : Nat) (dstenv : Int)
    (dstva perm : Nat) :
    (sys_page_map s srcenv srcva dstenv dstva perm).2.log
      = s.log ++ [.page_map srcenv srcva dstenv dstva perm] := by
  rcases sys_page_map_cases s srcenv srcva dstenv dstva perm
    with ⟨-, hs⟩ | ⟨-, se, de, m, -, -, -, -, hs⟩ <;> rw [hs] <;> rfl

theorem sys_page_alloc_log (s : State) (envid : Int) (va perm : Nat) :
    (sys_page_alloc s envid va perm).2.log = s.log ++ [.page_alloc envid va perm] := by
  rcases sys_page_alloc_cases s envid va perm with ⟨-, hs⟩ | ⟨-, e, -, -, -, hs⟩ <;>
    rw [hs] <;> rfl

theorem sys_page_unmap_log (s : State) (envid : Int) (va : Nat) :
    (sys_page_unmap s envid va).2.log = s.log ++ [.page_unmap envid va] := by
  unfold sys_page_unmap
  simp only [envid2env_logCall]
  cases envid2env s envid <;> rfl

theorem bindUpcall_log (s : State) (envid : Int) (vector : Nat) (func : FnPtr) :
    (bindUpcall s envid vector func).2.log = s.log := by
  unfold bindUpcall
  cases envid2env s envid <;> rfl

theorem memcpy_log (s s2 : State) (dst src n : Nat) (h : memcpy s dst src n = some s2) :
    s2.log = s.log := by
  unfold memcpy at h
  split at h
  · split_ifs at h
    cases h
    rfl
  · cases h

theorem sys_page_map_entry (s : State) (srcenv : Int) (srcva : Nat) (dstenv : Int)
    (dstva perm e p : Nat) (m : Mapping)
    (h : (sys_page_map s srcenv srcva dstenv dstva perm).2.pgtab e p = some m) :
    s.pgtab e p = some m ∨
      (Syscall.page_map srcenv srcva dstenv dstva perm).installs = some m.flags := by
  rcases sys_page_map_cases s srcenv srcva dstenv dstva perm
    with ⟨-, hs⟩ | ⟨-, se, de, m0, -, -, -, -, hs⟩
  · rw [hs] at h
    exact Or.inl h
  · rw [hs, setPte_pgtab] at h
    by_cases hep : e = de ∧ p = PGNUM dstva
    · rw [if_pos hep] at h
      cases h
      exact Or.inr rfl
    · rw [if_neg hep] at h
      exact Or.inl h

theorem sys_page_alloc_entry (s : State) (envid : Int) (va perm e p : Nat) (m : Mapping)
    (h : (sys_page_alloc s envid va perm).2.pgtab e p = some m) :
    s.pgtab e p = some m ∨ (Syscall.page_alloc envid va perm).installs = some m.flags := by
  rcases sys_page_alloc_cases s envid va perm with ⟨-, hs⟩ | ⟨-, e0, -, -, -, hs⟩
  · rw [hs] at h
    exact Or.inl h
  · rw [hs, allocFrame_pgtab] at h
    by_cases hep : e = e0 ∧ p = PGNUM va
    · rw [if_pos hep] at h
      cases h
      exact Or.inr rfl
    · rw [if_neg hep] at h
      exact Or.inl h

theorem calls_refl (s : State) : CallsExclusive s s :=
  ⟨[], by rw [List.append_nil], fun _ h => by simp at h⟩

theorem calls_trans {s s1 s2 : State} (h1 : CallsExclusive s s1) (h2 : CallsExclusive s1 s2) :
    CallsExclusive s s2 := by
  obtain ⟨a1, hl1, hx1⟩ := h1
  obtain ⟨a2, hl2, hx2⟩ := h2
  refine ⟨a1 ++ a2, by rw [hl2, hl1, List.append_assoc], ?_⟩
  intro c hc
  rw [List.mem_append] at hc
  rcases hc with h | h
  · exact hx1 c h
  · exact hx2 c h

theorem calls_of_log_eq {s s' : State} (h : s'.log = s.log) : CallsExclusive s s' :=
  ⟨[], by rw [h, List.append_nil], fun _ h => by simp at h⟩

theorem calls_step {s s' : State} (c : Syscall) (h : s'.log = s.log ++ [c])
    (hx : ∀ fl, c.installs = some fl → Exclusive fl) : CallsExclusive s s' := by
  refine ⟨[c], h, ?_⟩
  intro c' hc'
  rw [List.mem_singleton] at hc'
  rw [hc']
  exact hx

theorem sys_page_map_calls (s : State) (srcenv : Int) (srcva : Nat) (dstenv : Int)
    (dstva perm : Nat) (hx : Exclusive ((perm ||| PTE_P) % PGSIZE)) :
    CallsExclusive s (sys_page_map s srcenv srcva dstenv dstva perm).2 := by
  refine calls_step _ (sys_page_map_log s srcenv srcva dstenv dstva perm) ?_
  intro fl hfl
  cases hfl
  exact hx

theorem sys_page_alloc_calls (s : State) (envid : Int) (va perm : Nat)
    (hx : Exclusive ((perm ||| PTE_P) % PGSIZE)) :
    CallsExclusive s (sys_page_alloc s envid va perm).2 := by
  refine calls_step _ (sys_page_alloc_log s envid va perm) ?_
  intro fl hfl
  cases hfl
  exact hx

theorem sys_page_unmap_calls (s : State) (envid : Int) (va : Nat) :
    CallsExclusive s (sys_page_unmap s envid va).2 := by
  refine calls_step _ (sys_page_unmap_log s envid va) ?_
  intro fl hfl
  cases hfl

theorem duppage_calls (s : State) (envid : Int) (pn : Nat)
    (hsrc : uvpt s pn &&& PTE_SHARE ≠ 0 → Exclusive (uvpt s pn)) :
    CallsExclusive s (duppage envid pn s).state := by
  unfold duppage
  simp only []
  by_cases hs : uvpt s pn &&& PTE_SHARE ≠ 0
  · rw [if_pos hs]
    have := sys_page_map_calls s 0 ((pn * PGSIZE) % 2 ^ 32) envid ((pn * PGSIZE) % 2 ^ 32)
      (uvpt s pn &&& PTE_SYSCALL) (exclusive_masked _ (hsrc hs))
    split_ifs <;> exact this
  · rw [if_neg hs]
    by_cases hwc : uvpt s pn &&& (PTE_W ||| PTE_COW) ≠ 0
    · rw [if_pos hwc]
      have h1 := sys_page_map_calls s 0 ((pn * PGSIZE) % 2 ^ 32) envid
        ((pn * PGSIZE) % 2 ^ 32) (PTE_P ||| PTE_U ||| PTE_COW) exclusive_cow
      have h2 := sys_page_map_calls
        (sys_page_map s 0 ((pn * PGSIZE) % 2 ^ 32) envid ((pn * PGSIZE) % 2 ^ 32)
          (PTE_P ||| PTE_U ||| PTE_COW)).2 0 ((pn * PGSIZE) % 2 ^ 32) 0
        ((pn * PGSIZE) % 2 ^ 32) (PTE_P ||| PTE_U ||| PTE_COW) exclusive_cow
      split_ifs
      · exact h1
      · exact calls_trans h1 h2
      · exact calls_trans h1 h2
    · rw [if_neg hwc]
      have hz : uvpt s pn &&& (PTE_W ||| PTE_COW) = 0 := by
        by_contra h
        exact hwc h
      have := sys_page_map_calls s 0 ((pn * PGSIZE) % 2 ^ 32) envid ((pn * PGSIZE) % 2 ^ 32)
        (uvpt s pn &&& PTE_SYSCALL)
        (exclusive_masked _ (Or.inl (and_or_eq_zero _ _ _ hz)))
      split_ifs <;> exact this

/-- The kernel calls of `pgfault`, on every path: a prefix of the allocation at `PFTEMP`,
the map of `PFTEMP` onto the faulting page and the unmap of `PFTEMP`, the two that install
an entry with `PTE_P|PTE_U|PTE_W`. -/
theorem pgfault_calls (s : State) (utf : UTrapframe) :
    ∃ added, (pgfault utf s).state.log = s.log ++ added ∧
      added <+: [Syscall.page_alloc 0 PFTEMP (PTE_P ||| PTE_U ||| PTE_W),
        Syscall.page_map 0 PFTEMP 0 (ROUNDDOWN utf.utf_fault_va PGSIZE)
          (PTE_P ||| PTE_U ||| PTE_W),
        Syscall.page_unmap 0 PFTEMP] ∧
      (utf.utf_err &&& FEC_WR ≠ 0 → uvpt s (PGNUM utf.utf_fault_va) &&& PTE_COW ≠ 0 →
        Syscall.page_alloc 0 PFTEMP (PTE_P ||| PTE_U ||| PTE_W) ∈ added) := by
  unfold pgfault
  simp only []
  have h1 := sys_page_alloc_log s 0 PFTEMP (PTE_P ||| PTE_U ||| PTE_W)
  by_cases hwr : utf.utf_err &&& FEC_WR = 0
  · rw [if_pos hwr]
    exact ⟨[], by simp [Outcome.state], List.nil_prefix, fun h => absurd hwr h⟩
  · rw [if_neg hwr]
    by_cases hcow : uvpt s (PGNUM utf.utf_fault_va) &&& PTE_COW = 0
    · rw [if_pos hcow]
      exact ⟨[], by simp [Outcome.state], List.nil_prefix, fun _ h => absurd hcow h⟩
    · rw [if_neg hcow]
      by_cases hr1 : (sys_page_alloc s 0 PFTEMP (PTE_P ||| PTE_U ||| PTE_W)).1 < 0
      · rw [if_pos hr1]
        exact ⟨_, h1, by simp [List.prefix_cons_inj], fun _ _ => by simp⟩
      · rw [if_neg hr1]
        cases hmc : memcpy (sys_page_alloc s 0 PFTEMP (PTE_P ||| PTE_U ||| PTE_W)).2 PFTEMP
            (ROUNDDOWN utf.utf_fault_va PGSIZE) PGSIZE with
        | none => exact ⟨_, h1, by simp [List.prefix_cons_inj], fun _ _ => by simp⟩
        | some s2 =>
          have h2 : s2.log = s.log ++ [Syscall.page_alloc 0 PFTEMP (PTE_P ||| PTE_U ||| PTE_W)] :=
            (memcpy_log _ _ _ _ _ hmc).trans h1
          have h3 := sys_page_map_log s2 0 PFTEMP 0 (ROUNDDOWN utf.utf_fault_va PGSIZE)
            (PTE_P ||| PTE_U ||| PTE_W)
          have h4 := sys_page_unmap_log
            (sys_page_map s2 0 PFTEMP 0 (ROUNDDOWN utf.utf_fault_va PGSIZE)
              (PTE_P ||| PTE_U ||| PTE_W)).2 0 PFTEMP
          rw [h2] at h3
          rw [h3] at h4
          simp only []
          split_ifs
          · exact ⟨_, by rw [Outcome.state, h3, List.append_assoc], by
              simp [List.prefix_cons_inj], fun _ _ => by simp⟩
          · exact ⟨_, by rw [Outcome.state, h4, List.append_assoc, List.append_assoc], by simp,
              fun _ _ => by simp⟩
          · exact ⟨_, by rw [Outcome.state, h4, List.append_assoc, List.append_assoc], by simp,
              fun _ _ => by simp⟩

theorem calls_of_prefix {s s' : State} (added full : List Syscall)
    (hl : s'.log = s.log ++ added) (hp : added <+: full)
    (hx : ∀ c, c ∈ full → ∀ fl, c.installs = some fl → Exclusive fl) :
    CallsExclusive s s' :=
  ⟨added, hl, fun c hc => hx c (hp.subset hc)⟩

theorem pgfault_calls_exclusive (s : State) (utf : UTrapframe) :
    CallsExclusive s (pgfault utf s).state := by
  obtain ⟨added, hl, hp, -⟩ := pgfault_calls s utf
  refine calls_of_prefix added _ hl hp ?_
  intro c hc fl hfl
  simp only [List.mem_cons, List.mem_singleton, List.not_mem_nil, or_false] at hc
  rcases hc with h | h | h <;> rw [h] at hfl <;> cases hfl
  · exact exclusive_w
  · exact exclusive_w

theorem register_calls (c : RegCall) (s : State) :
    CallsExclusive s (c.run s).state := by
  by_cases hp : s.pass_times s.curenv = 0
  · have h1 := sys_page_alloc_calls
      { s with pass_times := fun e => if e = s.curenv then 1 else s.pass_times e } 0
      (UXSTACKTOP - PGSIZE) (PTE_W ||| PTE_U ||| PTE_P) exclusive_w'
    have h1' : CallsExclusive s (sys_page_alloc
      { s with pass_times := fun e => if e = s.curenv then 1 else s.pass_times e } 0
      (UXSTACKTOP - PGSIZE) (PTE_W ||| PTE_U ||| PTE_P)).2 := h1
    cases c with
    | pgfault hd =>
      simp only [RegCall.run, set_pgfault_handler]
      rw [if_pos hp]
      have h2 : ∀ s1 : State, CallsExclusive s1
          (sys_env_set_pgfault_upcall s1 0 FnPtr.pgfault_upcall).2 := by
        intro s1
        refine calls_step (.env_set_pgfault_upcall 0 FnPtr.pgfault_upcall) ?_ ?_
        · unfold sys_env_set_pgfault_upcall
          rw [bindUpcall_log]
          rfl
        · intro fl hfl
          cases hfl
      split_ifs
      · exact h1'
      · exact calls_trans h1' (h2 _)
      · exact calls_trans h1' (h2 _)
    | exception t hd =>
      simp only [RegCall.run, set_exception_handler]
      rw [if_pos hp]
      have h2 : ∀ s1 : State, CallsExclusive s1
          (sys_env_set_exception_upcall s1 0 t FnPtr.pgfault_upcall).2 := by
        intro s1
        refine calls_step (.env_set_exception_upcall 0 t FnPtr.pgfault_upcall) ?_ ?_
        · unfold sys_env_set_exception_upcall
          rw [bindUpcall_log]
          rfl
        · intro fl hfl
          cases hfl
      split_ifs
      · exact h1'
      · exact calls_trans h1' (h2 _)
      · exact calls_trans h1' (h2 _)
  · rw [register_again c s hp]
    exact calls_of_log_eq rfl

theorem dupCalls_exclusive (envid : Int) (p : Nat) (m : Mapping)
    (h : m.flags &&& PTE_SHARE ≠ 0 → Exclusive m.flags) :
    ∀ c, c ∈ dupCalls envid p m → ∀ fl, c.installs = some fl → Exclusive fl := by
  intro c hc fl hfl
  unfold dupCalls at hc
  by_cases hs : m.flags &&& PTE_SHARE ≠ 0
  · rw [if_pos hs, List.mem_singleton] at hc
    rw [hc] at hfl
    cases hfl
    exact exclusive_masked _ (h hs)
  · rw [if_neg hs] at hc
    by_cases hwc : m.flags &&& (PTE_W ||| PTE_COW) ≠ 0
    · rw [if_pos hwc] at hc
      simp only [List.mem_cons, List.mem_singleton, List.not_mem_nil, or_false] at hc
      rcases hc with hc | hc <;> rw [hc] at hfl <;> cases hfl <;> exact exclusive_cow
    · rw [if_neg hwc, List.mem_singleton] at hc
      rw [hc] at hfl
      cases hfl
      have hz : m.flags &&& (PTE_W ||| PTE_COW) = 0 := by
        by_contra h'
        exact hwc h'
      exact exclusive_masked _ (Or.inl (and_or_eq_zero _ _ _ hz))

theorem fork_calls (s s1 s' : State)
    (hreg : set_pgfault_handler FnPtr.pgfault s = .ok () s1)
    (hlive : (s1.envs s1.curenv).env_status ≠ ENV_FREE)
    (hex : 0 ≤ (sys_exofork s1).1)
    (hsrc : ∀ p m, s.pgtab s.curenv p = some m → m.flags &&& PTE_SHARE ≠ 0 →
      Exclusive m.flags)
    (hfork : fork s = .ok (sys_exofork s1).1 s') :
    CallsExclusive s s' := by
  obtain ⟨c, s'', -, -, -, -, -, hfork', -, -, -, -, hlog, -⟩ := fork_spec s s1 hreg hlive hex
  rw [hfork] at hfork'
  cases hfork'
  obtain ⟨hcur, hpgsame, -⟩ := register_effect (.pgfault FnPtr.pgfault) s s1 hreg
  have hreg' : CallsExclusive s s1 := by
    have := register_calls (.pgfault FnPtr.pgfault) s
    rw [show (RegCall.pgfault FnPtr.pgfault).run s = set_pgfault_handler FnPtr.pgfault s
      from rfl, hreg] at this
    exact this
  refine calls_trans hreg' ⟨_, by rw [hlog, List.append_assoc, List.append_assoc], ?_⟩
  intro x hx fl hfl
  simp only [List.mem_append, List.mem_cons, List.mem_singleton, List.not_mem_nil,
    or_false] at hx
  rcases hx with hx | hx | hx | hx | hx
  · rw [hx] at hfl
    cases hfl
  · obtain ⟨p, m, -, hd, hxm⟩ := loopCalls_mem _ _ _ _ hx
    obtain ⟨hp, hm, -⟩ := dupSource_some s1 p m hd
    rw [hcur, hpgsame _ _ (fun h => hp h.2)] at hm
    exact dupCalls_exclusive _ p m (hsrc p m hm) x hxm fl hfl
  · rw [hx] at hfl
    cases hfl
    exact exclusive_w
  · rw [hx] at hfl
    cases hfl
  · rw [hx] at hfl
    cases hfl

/-- C9 (amended). Every page-table entry installed by `duppage`, by `pgfault`, by the
two registration entry points and by a successful `fork` has `PTE_W` and `PTE_COW`
exclusive, provided the source entry of an explicitly-shared page does not itself carry
both: this holds of the entries present when the function is left and of every entry a
kernel call of the function installs on the way, the scratch mapping of `pgfault` at
`PFTEMP` included, which is installed with `PTE_P|PTE_U|PTE_W`.  In the shared case the
child's entry carries the two bits exactly as the source does. -/
theorem writable_cow_exclusive :
    (∀ s envid pn, (uvpt s pn &&& PTE_SHARE ≠ 0 → Exclusive (uvpt s pn)) →
      InstallsExclusive s (duppage envid pn s).state ∧
      CallsExclusive s (duppage envid pn s).state) ∧
    (∀ s utf, InstallsExclusive s (pgfault utf s).state ∧
      CallsExclusive s (pgfault utf s).state ∧
      ∃ added, (pgfault utf s).state.log = s.log ++ added ∧
        added <+: [Syscall.page_alloc 0 PFTEMP (PTE_P ||| PTE_U ||| PTE_W),
          Syscall.page_map 0 PFTEMP 0 (ROUNDDOWN utf.utf_fault_va PGSIZE)
            (PTE_P ||| PTE_U ||| PTE_W),
          Syscall.page_unmap 0 PFTEMP] ∧
        (utf.utf_err &&& FEC_WR ≠ 0 → uvpt s (PGNUM utf.utf_fault_va) &&& PTE_COW ≠ 0 →
          Syscall.page_alloc 0 PFTEMP (PTE_P ||| PTE_U ||| PTE_W) ∈ added)) ∧
    (∀ s (c : RegCall), InstallsExclusive s (c.run s).state ∧
      CallsExclusive s (c.run s).state) ∧
    (∀ s s1, set_pgfault_handler FnPtr.pgfault s = .ok () s1 →
      (s1.envs s1.curenv).env_status ≠ ENV_FREE → 0 ≤ (sys_exofork s1).1 →
      (∀ p m, s.pgtab s.curenv p = some m → m.flags &&& PTE_SHARE ≠ 0 → Exclusive m.flags) →
      ∃ s', fork s = .ok (sys_exofork s1).1 s' ∧ InstallsExclusive s s' ∧
        CallsExclusive s s') ∧
    (∀ s envid pn c m, pn < NPAGENUM → envid2env s envid = some c → c ≠ s.curenv →
      s.pgtab s.curenv pn = some m → m.flags &&& PTE_SHARE ≠ 0 →
      ∃ m', (duppage envid pn s).state.pgtab c pn = some m' ∧ m'.frame = m.frame ∧
        m'.flags &&& PTE_W = m.flags &&& PTE_W ∧
        m'.flags &&& PTE_COW = m.flags &&& PTE_COW) ∧
    (∀ s envid va perm,
      (sys_page_alloc s envid va perm).2.log = s.log ++ [.page_alloc envid va perm] ∧
      ∀ e p m, (sys_page_alloc s envid va perm).2.pgtab e p = some m →
        s.pgtab e p = some m ∨
          (Syscall.page_alloc envid va perm).installs = some m.flags) ∧
    (∀ s srcenv srcva dstenv dstva perm,
      (sys_page_map s srcenv srcva dstenv dstva perm).2.log
        = s.log ++ [.page_map srcenv srcva dstenv dstva perm] ∧
      ∀ e p m, (sys_page_map s srcenv srcva dstenv dstva perm).2.pgtab e p = some m →
        s.pgtab e p = some m ∨
          (Syscall.page_map srcenv srcva dstenv dstva perm).installs = some m.flags) := by
  refine ⟨fun s envid pn h => ⟨duppage_installs s envid pn h, duppage_calls s envid pn h⟩,
    fun s utf => ⟨pgfault_installs s utf, pgfault_calls_exclusive s utf, pgfault_calls s utf⟩,
    fun s c => ⟨register_installs c s, register_calls c s⟩, ?_, ?_,
    fun s envid va perm => ⟨sys_page_alloc_log s envid va perm,
      fun e p m h => sys_page_alloc_entry s envid va perm e p m h⟩,
    fun s srcenv srcva dstenv dstva perm => ⟨sys_page_map_log s srcenv srcva dstenv dstva perm,
      fun e p m h => sys_page_map_entry s srcenv srcva dstenv dstva perm e p m h⟩⟩
  · intro s s1 hreg hlive hex hsrc
    obtain ⟨s', hfork, hinst⟩ := fork_installs s s1 hreg hlive hex hsrc
    exact ⟨s', hfork, hinst, fork_calls s s1 s' hreg hlive hex hsrc hfork⟩
  · intro s envid pn c m hpn hc hne hm hs
    obtain ⟨s', hd, -, -, hpg⟩ := duppage_effect s envid pn c m hpn hc hne hm
    have hch : dupChild m = mkMapping m.frame (m.flags &&& PTE_SYSCALL) := by
      unfold dupChild
      rw [if_pos hs]
    refine ⟨dupChild m, ?_, dupChild_frame m, ?_, ?_⟩
    · rw [hd]
      show s'.pgtab c pn = _
      rw [hpg, if_pos rfl, if_pos rfl]
    · rw [hch]
      exact installed_and_W _
    · rw [hch]
      exact installed_and_COW _

theorem writable_cow_exclusive_witness :
    (InstallsExclusive demoState (duppage 4097 0x800 demoState).state ∧
      CallsExclusive demoState (duppage 4097 0x800 demoState).state) ∧
    pte (duppage 4097 0x800 demoState).state 1 0x800 = some (5, PTE_P ||| PTE_U ||| PTE_COW) ∧
    pte (duppage 4097 0x800 demoState).state 0 0x800 = some (5, PTE_P ||| PTE_U ||| PTE_COW) ∧
    (pgfault ⟨0x801123, 7⟩ demoState).state.log =
      [Syscall.page_alloc 0 PFTEMP (PTE_P ||| PTE_U ||| PTE_W),
       Syscall.page_map 0 PFTEMP 0 0x801000 (PTE_P ||| PTE_U ||| PTE_W),
       Syscall.page_unmap 0 PFTEMP] :=
  ⟨writable_cow_exclusive.1 demoState 4097 0x800 (fun h => absurd (by decide) h),
   by decide, by decide, by decide⟩

/-- C9, as stated, fails for a shared source entry that carries both bits: `duppage`
copies them into the child. -/
theorem duppage_shared_both_bits :
    pte demoState 0 0x804
      = some (9, PTE_P ||| PTE_U ||| PTE_W ||| PTE_SHARE ||| PTE_COW) ∧
    pte demoState 1 0x804 = none ∧
    pte (duppage 4097 0x804 demoState).state 1 0x804
      = some (9, PTE_P ||| PTE_U ||| PTE_W ||| PTE_SHARE ||| PTE_COW) ∧
    (PTE_P ||| PTE_U ||| PTE_W ||| PTE_SHARE ||| PTE_COW) &&& PTE_W ≠ 0 ∧
    (PTE_P ||| PTE_U ||| PTE_W ||| PTE_SHARE ||| PTE_COW) &&& PTE_COW ≠ 0 := by
  decide

/-! ## Coverage of the loop of `fork` -/

theorem dupGuard_iff (s : State) (k : Nat) (hk : k < NPAGENUM) :
    (k * PGSIZE ≠ UXSTACKTOP - PGSIZE ∧ uvpd s (PDX (k * PGSIZE)) &&& PTE_P ≠ 0
      ∧ uvpt s (PGNUM (k * PGSIZE)) &&& PTE_P ≠ 0
      ∧ uvpt s (PGNUM (k * PGSIZE)) &&& PTE_U ≠ 0) ↔
    (dupSource s k).isSome = true := by
  rw [pgnum_mul]
  constructor
  · rintro ⟨hi, -, -, hu⟩
    obtain ⟨m, hm, hum⟩ := uvpt_and_ne_zero s k PTE_U (by decide) hu
    have hux : k ≠ PGNUM (UXSTACKTOP - PGSIZE) := by
      intro h
      apply hi
      rw [h]
      exact uxstack_page.symm
    rw [dupSource_of s k m hux hm (by rw [← hum]; exact hu)]
    rfl
  · intro h
    cases hd : dupSource s k with
    | none => rw [hd] at h; cases h
    | some m =>
      obtain ⟨hux, hm, hu⟩ := dupSource_some s k m hd
      refine ⟨?_, uvpd_of_mapped s k m hk hm, ?_, ?_⟩
      · intro hi
        apply hux
        rw [← hi, pgnum_mul]
      · rw [uvpt_and_of_mapped s k PTE_P m (by decide) hm, m.present]
        decide
      · rw [uvpt_and_of_mapped s k PTE_U m (by decide) hm]
        exact hu

theorem dupVisits_from (envid : Int) (c : Nat) (s0 : State)
    (hc : envid2env s0 envid = some c) (hne : c ≠ s0.curenv) :
    ∀ n k sk, k + n = UTOP / PGSIZE → SameBut s0 sk → sk.pgtab = forkPgtab s0 c k →
      dupVisits envid (k * PGSIZE) sk =
        (List.range' k n).filter (fun pn => (dupSource s0 pn).isSome) := by
  intro n
  induction n with
  | zero =>
    intro k sk hk _ _
    rw [Nat.add_zero] at hk
    subst hk
    rw [dupVisits, ← utop_pages, if_neg (Nat.lt_irrefl _)]
    rfl
  | succ n ih =>
    intro k sk hk hsame hpg
    have hklt : k < UTOP / PGSIZE := by omega
    have hkpn : k < NPAGENUM := lt_trans hklt utop_pages_lt
    have hi : k * PGSIZE < UTOP := by
      rw [utop_pages]
      exact Nat.mul_lt_mul_of_pos_right hklt (by decide)
    have hck : envid2env sk envid = some c := by
      rw [envid2env_of_sameBut hsame]; exact hc
    have hnek : c ≠ sk.curenv := by rw [hsame.1]; exact hne
    obtain ⟨s1, hstep, hsame1, -, hpg1⟩ := forkStep_spec sk envid c k hkpn hck hnek
    have hsrc : dupSource sk k = dupSource s0 k :=
      dupSource_congr s0 sk k hsame.1 (by rw [hpg, forkPgtab_self])
    rw [hsrc] at hpg1
    have hnext : (k + 1) * PGSIZE = k * PGSIZE + PGSIZE := by
      rw [Nat.add_mul, Nat.one_mul]
    have hrest := ih (k + 1) s1 (by omega) (sameBut_trans hsame hsame1)
      (by funext e p; rw [hpg1, forkPgtab_succ, hpg, hsame.1])
    have hgi := dupGuard_iff sk k hkpn
    rw [hsrc] at hgi
    rw [dupVisits, if_pos hi, hstep]
    simp only []
    rw [← hnext, hrest, List.range'_succ, List.filter_cons]
    by_cases hg : (dupSource s0 k).isSome = true
    · rw [if_pos hg, if_pos (hgi.mpr hg), pgnum_mul]
      rfl
    · rw [if_neg hg, if_neg (fun h => hg (hgi.mp h))]
      rfl


theorem exofork_child (s1 s2 : State) (envid : Int)
    (hlive : (s1.envs s1.curenv).env_status ≠ ENV_FREE)
    (hexo : sys_exofork s1 = (envid, s2)) (hpos : 0 ≤ envid) :
    ∃ c, 0 < envid ∧ envid2env s2 envid = some c ∧ c ≠ s2.curenv ∧
      s2.curenv = s1.curenv ∧ s2.log = s1.log ++ [.exofork] ∧
      ∀ p, s2.pgtab s1.curenv p = s1.pgtab s1.curenv p := by
  have hex : 0 ≤ (sys_exofork s1).1 := by rw [hexo]; exact hpos
  obtain ⟨c, hfind⟩ := sys_exofork_nonneg s1 hex
  obtain ⟨-, hclt, hcfree⟩ := findFree_spec s1.envs NENV 0 c hfind
  rw [Nat.zero_add] at hclt
  have hne : c ≠ s1.curenv := by
    intro h
    rw [h] at hcfree
    exact hlive hcfree
  rw [sys_exofork_ok s1 c hfind] at hexo
  simp only [Prod.mk.injEq] at hexo
  obtain ⟨hid, hs2⟩ := hexo
  have hposid : 0 < envid := by rw [← hid]; exact mkenvid_pos _ _
  have hx : ENVX envid = c := by rw [← hid]; exact ENVX_mkenvid _ _ hclt
  refine ⟨c, hposid, ?_, ?_, ?_, ?_, ?_⟩
  · unfold envid2env
    rw [if_neg (ne_of_gt hposid), hx, ← hs2]
    simp [setEnv_envs, hid, ENV_NOT_RUNNABLE, ENV_FREE]
  · rw [← hs2]
    exact hne
  · rw [← hs2]
    rfl
  · rw [← hs2]
    rfl
  · intro p
    rw [← hs2]
    show (if s1.curenv = c then none else s1.pgtab s1.curenv p) = _
    rw [if_neg (Ne.symm hne)]

theorem count_filter_range' (f : Nat → Bool) (n pn : Nat) :
    ((List.range' 0 n).filter f).count pn = if pn < n ∧ f pn = true then 1 else 0 := by
  by_cases h : pn < n ∧ f pn = true
  · rw [if_pos h]
    apply List.count_eq_one_of_mem ((List.nodup_range' 0 n).filter f)
    rw [List.mem_filter, List.mem_range'_1]
    exact ⟨⟨Nat.zero_le _, by omega⟩, h.2⟩
  · rw [if_neg h]
    apply List.count_eq_zero_of_not_mem
    rw [List.mem_filter, List.mem_range'_1]
    intro hm
    exact h ⟨by omega, hm.2⟩

theorem loopCalls_mem_of (s : State) (envid : Int) (x : Syscall) (p : Nat) (m : Mapping)
    (hs : dupSource s p = some m) (hx : x ∈ dupCalls envid p m) :
    ∀ k, p < k → x ∈ loopCalls s envid k := by
  intro k
  induction k with
  | zero => intro h; omega
  | succ k ih =>
    intro hp
    unfold loopCalls
    rw [List.mem_append]
    by_cases hpk : p = k
    · right
      rw [← hpk, hs]
      exact hx
    · exact Or.inl (ih (by omega))

theorem dupCalls_child_map (envid : Int) (p : Nat) (m : Mapping) :
    ∃ perm, Syscall.page_map 0 (p * PGSIZE) envid (p * PGSIZE) perm ∈ dupCalls envid p m := by
  unfold dupCalls
  split_ifs
  · exact ⟨_, List.mem_singleton.mpr rfl⟩
  · exact ⟨_, List.mem_cons_self _ _⟩
  · exact ⟨_, List.mem_singleton.mpr rfl⟩

theorem mul_pgsize_inj (p q : Nat) (h : p * PGSIZE = q * PGSIZE) : p = q := by
  simp only [PGSIZE] at h
  omega

/-- C11. In the parent continuation of `fork`, entered with the positive identifier that
`sys_exofork` yields in a live parent: the loop over the page-aligned addresses from 0 to
`UTOP` returns; for every page number `pn` with `pn * PGSIZE < UTOP` it calls
`duppage(envid, pn)` exactly once when `pn` is not the exception-stack page and the
parent's page-directory entry is present and its PTE for `pn` is present and
user-accessible, and not at all otherwise; the calls are in strictly ascending order of
page number; no page at or above `UTOP` is passed to `duppage`; and the map calls into the
child that the loop logs are exactly those of the pages visited. -/
theorem fork_loop_coverage (s s1 s2 : State) (envid : Int)
    (hreg : set_pgfault_handler FnPtr.pgfault s = .ok () s1)
    (hlive : (s1.envs s1.curenv).env_status ≠ ENV_FREE)
    (hexo : sys_exofork s1 = (envid, s2)) (hpos : 0 ≤ envid) :
    fork s = fork_cont envid s2 ∧ 0 < envid ∧
    ∃ s3, forkLoop envid 0 s2 = .ok () s3 ∧
      (∀ pn, pn * PGSIZE < UTOP →
        (dupVisits envid 0 s2).count pn =
          if pn ≠ PGNUM (UXSTACKTOP - PGSIZE) ∧ uvpd s2 (PDX (pn * PGSIZE)) &&& PTE_P ≠ 0
            ∧ uvpt s2 pn &&& PTE_P ≠ 0 ∧ uvpt s2 pn &&& PTE_U ≠ 0
          then 1 else 0) ∧
      (dupVisits envid 0 s2).Pairwise (fun a b => a < b) ∧
      (∀ pn, pn ∈ dupVisits envid 0 s2 → pn * PGSIZE < UTOP) ∧
      (∃ added, s3.log = s2.log ++ added ∧
        ∀ pn, pn ∈ dupVisits envid 0 s2 ↔
          ∃ perm, Syscall.page_map 0 (pn * PGSIZE) envid (pn * PGSIZE) perm ∈ added) := by
  obtain ⟨c, hposid, hc, hne, -, -, -⟩ := exofork_child s1 s2 envid hlive hexo hpos
  obtain ⟨s3, hloop, -, -, hlog⟩ := forkLoop_spec envid c s2 hc hne
  have hvis := dupVisits_from envid c s2 hc hne (UTOP / PGSIZE) 0 s2 (Nat.zero_add _)
    (sameBut_refl s2)
    (by funext e p; unfold forkPgtab; rw [if_neg (Nat.not_lt_zero p)])
  rw [Nat.zero_mul] at hvis
  have hlt : ∀ pn, pn * PGSIZE < UTOP ↔ pn < UTOP / PGSIZE := by
    intro pn
    simp only [PGSIZE, UTOP]
    omega
  refine ⟨?_, hposid, s3, hloop, ?_, ?_, ?_, _, hlog, ?_⟩
  · unfold fork
    rw [hreg]
    simp only [hexo]
  · intro pn hpn
    have hpn' := (hlt pn).mp hpn
    have hgi := dupGuard_iff s2 pn (lt_trans hpn' utop_pages_lt)
    rw [pgnum_mul] at hgi
    have hux : pn * PGSIZE ≠ UXSTACKTOP - PGSIZE ↔ pn ≠ PGNUM (UXSTACKTOP - PGSIZE) := by
      constructor
      · intro h h'
        apply h
        rw [h']
        exact uxstack_page.symm
      · intro h h'
        apply h
        rw [← h', pgnum_mul]
    rw [hux] at hgi
    rw [hvis, count_filter_range']
    by_cases hg : (dupSource s2 pn).isSome = true
    · rw [if_pos ⟨hpn', hg⟩, if_pos (hgi.mpr hg)]
    · rw [if_neg (fun h => hg h.2), if_neg (fun h => hg (hgi.mp h))]
  · rw [hvis]
    exact (List.pairwise_lt_range' 0 (UTOP / PGSIZE)).filter _
  · intro pn hmem
    rw [hvis, List.mem_filter, List.mem_range'_1] at hmem
    exact (hlt pn).mpr (by omega)
  · intro pn
    rw [hvis, List.mem_filter, List.mem_range'_1]
    constructor
    · rintro ⟨⟨-, hpn⟩, hsome⟩
      cases hd : dupSource s2 pn with
      | none => rw [hd] at hsome; cases hsome
      | some m =>
        obtain ⟨perm, hmem⟩ := dupCalls_child_map envid pn m
        exact ⟨perm, loopCalls_mem_of s2 envid _ pn m hd hmem _ (by omega)⟩
    · rintro ⟨perm, hmem⟩
      obtain ⟨p, m, hp, hs, hx⟩ := loopCalls_mem s2 envid _ _ hmem
      obtain ⟨de, perm', hx'⟩ := dupCalls_mem envid p m _ hx
      simp only [Syscall.page_map.injEq] at hx'
      have hpp : pn = p := mul_pgsize_inj pn p hx'.2.1
      rw [hpp]
      exact ⟨⟨Nat.zero_le _, by omega⟩, by rw [hs]; rfl⟩

theorem demoForkEntry_reg :
    set_pgfault_handler FnPtr.pgfault demoRegistered = .ok () demoForkEntry :=
  demoRegistered_reg

theorem demoForkEntry_exofork : sys_exofork demoForkEntry = (4098, demoForked) :=
  Prod.ext (by decide) rfl

theorem fork_loop_coverage_witness :
    set_pgfault_handler FnPtr.pgfault demoRegistered = .ok () demoForkEntry ∧
    sys_exofork demoForkEntry = (4098, demoForked) ∧
    (∃ s3, forkLoop 4098 0 demoForked = .ok () s3) ∧
    (dupVisits 4098 0 demoForked).count 0x800 = 1 ∧
    (dupVisits 4098 0 demoForked).count (PGNUM (UXSTACKTOP - PGSIZE)) = 0 ∧
    (dupVisits 4098 0 demoForked).count 0x7FF = 0 := by
  obtain ⟨-, -, s3, hloop, hcount, -⟩ :=
    fork_loop_coverage demoRegistered demoForkEntry demoForked 4098 demoForkEntry_reg
      (by decide) demoForkEntry_exofork (by decide)
  refine ⟨demoForkEntry_reg, demoForkEntry_exofork, ⟨s3, hloop⟩, ?_, ?_, ?_⟩
  · rw [hcount 0x800 (by decide), if_pos]
    exact ⟨by decide,
      uvpd_of_mapped demoForked 0x800 ⟨5, 0x007, by decide, by decide⟩ (by decide) (by decide),
      by decide, by decide⟩
  · rw [hcount _ (by decide), if_neg (fun h => h.1 rfl)]
  · rw [hcount 0x7FF (by decide), if_neg]
    intro h
    exact h.2.2.1 (by decide)

end Jos
